import Mathlib

/-!
Verification development for the evolution-sim core (grid world, creatures,
neural-net brains).  The Rust sources are shallowly embedded:

* `f32` values are modelled exactly over `ℚ`.  The properties proved here
  (sign of ReLU outputs, comparison scans, identity of copies) are independent
  of floating-point rounding, which is why the exact model is adequate.
* `usize` values are modelled as `Nat`.  Where the source performs *unchecked*
  subtraction the two's-complement wrap of release builds is modelled
  explicitly (`uwsub`); saturating operations are Nat truncation; the
  monotone event counters (`time_step`, `num_total_creatures`, ...) use plain
  `Nat` arithmetic since no claim concerns their wrap after 2^64 events.
* The global thread RNG is replaced by an oracle (`Rng`): three streams of
  draws, one per kind of request the source makes, consumed sequentially via
  an explicit counter (`RCtr`).  Quantifying over all oracles quantifies over
  all RNG outcomes.
* Rust panics (index `unwrap`, empty `gen_range` ranges, the blank-space
  watchdog) are modelled by `Option`: a `none` result is a panic, `some` is a
  normal return.
-/

namespace EvoSim

/-- Modulus of `usize` (the sources target 64-bit hosts). -/
def U64 : Nat := 2 ^ 64

/-- Wrapping subtraction on `usize`: models the source's unchecked `-=`,
which wraps in release builds (and is a program error).  Arguments are
below `U64` everywhere it is used. -/
def uwsub (a b : Nat) : Nat := if b ≤ a then a - b else a + U64 - b

/-- Wrapping addition on `usize`, for the one unchecked sum whose operands
are not obviously small (`eat_food`). -/
def uadd (a b : Nat) : Nat := (a + b) % U64

/-- Wrapping addition on `u8` (the brightness fix-up in the colour mutation
uses unchecked `+=`). -/
def uadd8 (a b : Nat) : Nat := (a + b) % 256

/-- RNG oracle: `coin k` is the k-th `rng.gen::<f32>()` draw (a value in
`[0,1)` in any real execution), `val k` the k-th floating-point `gen_range`
draw (in the requested interval in any real execution), and `nat k` the raw
entropy behind the k-th integer `gen_range`, mapped into the requested range
at the call site. -/
structure Rng where
  coin : Nat → ℚ
  val : Nat → ℚ
  nat : Nat → Nat

/-- Position of the next unconsumed draw in each oracle stream. -/
structure RCtr where
  c : Nat
  v : Nat
  n : Nat
deriving DecidableEq

/-- Consume one `gen::<f32>()` draw. -/
def drawCoin (r : Rng) (t : RCtr) : ℚ × RCtr := (r.coin t.c, { t with c := t.c + 1 })

/-- Consume one floating-point `gen_range` draw. -/
def drawVal (r : Rng) (t : RCtr) : ℚ × RCtr := (r.val t.v, { t with v := t.v + 1 })

/-- Consume one raw integer draw. -/
def drawNat (r : Rng) (t : RCtr) : Nat × RCtr := (r.nat t.n, { t with n := t.n + 1 })

/-- Consume one integer draw and map it into `[0, bound)`; an empty range
makes `gen_range` panic, modelled by `none`. -/
def drawNatLt (r : Rng) (t : RCtr) (bound : Nat) : Option (Nat × RCtr) :=
  if bound = 0 then none
  else some (r.nat t.n % bound, { t with n := t.n + 1 })

/-! ### linalg.rs -/

/-- Generic 2D matrix over the value type of the network (`f32`, modelled by
`ℚ`).  `data` is the flat row-major representation, as in the source. -/
structure Matrix where
  data : List ℚ
  nrows : Nat
  ncols : Nat
deriving DecidableEq

/-- Matrix initialized with all zero data (`Matrix::new`; `T::default()` is 0
for `f32`). -/
def Matrix.new (nrows ncols : Nat) : Matrix :=
  ⟨List.replicate (nrows * ncols) 0, nrows, ncols⟩

/-- Read one entry (`Matrix::get`).  The source panics on an out-of-range
index; every call site reads in range, and the total model returns 0 there. -/
def Matrix.get (m : Matrix) (row col : Nat) : ℚ :=
  m.data.getD (row * m.ncols + col) 0

/-- Write one entry (`Matrix::set`).  The source indexes the flat vector
directly; every call site writes in range. -/
def Matrix.set (m : Matrix) (row col : Nat) (v : ℚ) : Matrix :=
  { m with data := m.data.set (row * m.ncols + col) v }

/-- Matrix initialized with random data (`Matrix::random`): each entry is an
independent `gen_range(min..=max)` draw, row-major, consumed from the `val`
stream. -/
def Matrix.random (nrows ncols : Nat) (r : Rng) (t : RCtr) : Matrix × RCtr :=
  (⟨(List.range (nrows * ncols)).map (fun k => r.val (t.v + k)), nrows, ncols⟩,
   { t with v := t.v + nrows * ncols })

/-- Matrix product (`Matrix::mult`); the source panics when the inner
dimensions disagree (`none`).  The accumulation loop over `k` is rendered as
the sum of the products. -/
def Matrix.mult (a b : Matrix) : Option Matrix :=
  if a.ncols ≠ b.nrows then none
  else some ⟨(List.range a.nrows).flatMap (fun i =>
      (List.range b.ncols).map (fun j =>
        ((List.range a.ncols).map (fun k => a.get i k * b.get k j)).sum)),
    a.nrows, b.ncols⟩

/-- Matrix sum (`Matrix::add`); dimension mismatch panics (`none`). -/
def Matrix.add (a b : Matrix) : Option Matrix :=
  if a.ncols ≠ b.ncols ∨ a.nrows ≠ b.nrows then none
  else some ⟨(List.range a.nrows).flatMap (fun i =>
      (List.range a.ncols).map (fun j => a.get i j + b.get i j)),
    a.nrows, a.ncols⟩

/-! ### neural_net.rs -/

/-- Simple generic feed-forward network (`NeuralNet<f32>`). -/
structure NeuralNet where
  num_layers : Nat
  weights : List Matrix
  biases : List Matrix
  activations : List Matrix
deriving DecidableEq

/-- RELU activation function (`NeuralNet::relu`). -/
def NeuralNet.relu (q : ℚ) : ℚ := if q ≥ 0 then q else 0

/-- Randomly populated network (`NeuralNet::new`): the input activation layer
is allocated first, then for each layer transition a random weight matrix and
a random bias vector are drawn (in that order) and a zero activation vector
is allocated. -/
def NeuralNet.new (layer_sizes : List Nat) (r : Rng) (t : RCtr) : NeuralNet × RCtr :=
  let init : List Matrix × List Matrix × List Matrix × RCtr :=
    ([], [], [Matrix.new (layer_sizes.getD 0 0) 1], t)
  let st := (List.range (layer_sizes.length - 1)).foldl (fun st layer_num =>
    let cur := layer_sizes.getD layer_num 0
    let next := layer_sizes.getD (layer_num + 1) 0
    let (w, t1) := Matrix.random next cur r st.2.2.2
    let (b, t2) := Matrix.random next 1 r t1
    (st.1 ++ [w], st.2.1 ++ [b], st.2.2.1 ++ [Matrix.new next 1], t2)) init
  (⟨layer_sizes.length, st.1, st.2.1, st.2.2.1⟩, st.2.2.2)

/-- Apply RELU to rows `0..nrows` of column 0 of an activation vector, as the
inner loop of `evaluate_network` does. -/
def Matrix.reluRows (m : Matrix) : Matrix :=
  (List.range m.nrows).foldl (fun acc i => acc.set i 0 (NeuralNet.relu (acc.get i 0))) m

/-- One pass of the layer loop of `evaluate_network`: activation of layer
`l+1` becomes `relu (W l * a l + b l)`.  Out-of-range layer indexing panics
(`none`), as does a dimension mismatch inside `mult`/`add`. -/
def NeuralNet.forwardStep (nn : NeuralNet) (l : Nat) : Option NeuralNet := do
  let w ← nn.weights.get? l
  let a ← nn.activations.get? l
  let m1 ← w.mult a
  let b ← nn.biases.get? l
  let m2 ← m1.add b
  if l + 1 < nn.activations.length then
    some { nn with activations := nn.activations.set (l + 1) m2.reluRows }
  else none

/-- The scan over the output layer in `evaluate_network`: `max_act` starts at
zero, the result starts at the error value (`none`), and every activation
`act ≥ max_act` captures the running maximum. -/
def NeuralNet.outputScan (out : Matrix) : Option Nat :=
  ((List.range out.nrows).foldl (fun (st : ℚ × Option Nat) i =>
      let act := out.get i 0
      if act ≥ st.1 then (act, some i) else st)
    (0, none)).2

/-- Feed the network forward and return the output node with the highest
activation together with the updated activations (`evaluate_network`).
`num_layers = 0` underflows the loop bound in the source (a panic). -/
def NeuralNet.evaluate_network (nn : NeuralNet) : Option (Nat × NeuralNet) := do
  if nn.num_layers = 0 then none
  else
    let nn2 ← (List.range (nn.num_layers - 1)).foldlM NeuralNet.forwardStep nn
    let out ← nn2.activations.get? (nn2.num_layers - 1)
    let idx ← NeuralNet.outputScan out
    some (idx, nn2)

/-- Set the value of the specified input node (`set_input_node`); writes into
activation layer 0, which exists for every constructed network. -/
def NeuralNet.set_input_node (nn : NeuralNet) (idx : Nat) (v : ℚ) : NeuralNet :=
  { nn with activations := nn.activations.modify (fun m => m.set idx 0 v) 0 }

/-- Mutation pass over weight row `i`, columns `0..num_nodes_next`
(`apply_rand_mutations` inner loop): each weight flips an independent coin
`gen::<f32>() <= prob` and on success is overwritten with a fresh
`gen_range(val_min..=val_max)` draw. -/
def NeuralNet.mutRow (prob : ℚ) (r : Rng) (i num_nodes_next : Nat)
    (st : Matrix × RCtr) : Matrix × RCtr :=
  (List.range num_nodes_next).foldl (fun (st : Matrix × RCtr) j =>
    let (c, t1) := drawCoin r st.2
    if c ≤ prob then
      let (v, t2) := drawVal r t1
      (st.1.set i j v, t2)
    else (st.1, t1)) st

/-- Mutation pass over one layer of `apply_rand_mutations`: for each node,
first the bias coin (and possible overwrite), then the weight row. -/
def NeuralNet.mutLayer (prob : ℚ) (r : Rng) (layer : Nat)
    (st : NeuralNet × RCtr) : Option (NeuralNet × RCtr) := do
  let nn := st.1
  let bmat ← nn.biases.get? layer
  let wmat ← nn.weights.get? layer
  let num_nodes := bmat.nrows
  let num_nodes_next := wmat.ncols
  let res := (List.range num_nodes).foldl (fun (st2 : Matrix × Matrix × RCtr) i =>
      let (c, t1) := drawCoin r st2.2.2
      let (b2, t2) :=
        if c ≤ prob then
          let (v, t1a) := drawVal r t1
          (st2.1.set i 0 v, t1a)
        else (st2.1, t1)
      let (w2, t3) := NeuralNet.mutRow prob r i num_nodes_next (st2.2.1, t2)
      (b2, w2, t3))
    (bmat, wmat, st.2)
  some ({ nn with
            biases := (nn.biases.set layer res.1)
            weights := (nn.weights.set layer res.2.1) }, res.2.2)

/-- Apply a random mutation to every weight and bias with probability
`mutation_prob` (`apply_rand_mutations`).  A zero-layer network underflows the
loop bound (panic, `none`). -/
def NeuralNet.apply_rand_mutations (nn : NeuralNet) (prob : ℚ) (r : Rng) (t : RCtr) :
    Option (NeuralNet × RCtr) :=
  if nn.num_layers = 0 then none
  else (List.range (nn.num_layers - 1)).foldlM
    (fun st layer => NeuralNet.mutLayer prob r layer st) (nn, t)

/-! ### creature.rs: constants and data model -/

def DEFAULT_ENERGY_LEVEL : Nat := 40
def MAX_POSSIBLE_ENERGY : Nat := 200
def MAX_POSSIBLE_AGE : Nat := 200
def DEFAULT_REPRODUCE_AGE : Nat := 22
def DEFAULT_MIN_REPRODUCE_ENERGY : Nat := DEFAULT_ENERGY_LEVEL + 1
def DEFAULT_REPRODUCE_ENERGY_COST : Nat := DEFAULT_ENERGY_LEVEL
def DEFAULT_MOVE_ENERGY_COST : Nat := 1
def DEFAULT_ROTATE_ENERGY_COST : Nat := 1
def DEFAULT_KILL_ENERGY_COST : Nat := 1

/-- Sentinel written to the vision input neurons when nothing is in view
(`-1e6` in the source). -/
def VISION_NEURON_INVALID_VAL : ℚ := -1000000

def COLOR_MODE_VIOLENCE : Bool := false
def MIN_COLOR_DEVIATION : ℤ := -100
def MAX_COLOR_DEVIATION : ℤ := 100

/-- Possible actions a creature can take. -/
inductive CreatureActions
  | MoveForwards
  | MoveBackwards
  | MoveLeft
  | MoveRight
  | RotateCW
  | RotateCCW
  | Stay
  | Reproduce
  | Kill
deriving DecidableEq

/-- Input neuron types of a creature brain. -/
inductive CreatureInputs
  | Unused
  | Age
  | Energy
  | VisionDistance
  | VisionColorRed
  | VisionColorGreen
  | VisionColorBlue
  | LastAction
  | Orientation
deriving DecidableEq

open CreatureActions CreatureInputs in
/-- The actions enabled for every creature, in output-slot order. -/
def ENABLED_CREATURE_ACTIONS : List CreatureActions :=
  [Stay, MoveForwards, MoveBackwards, MoveLeft, MoveRight, RotateCCW, RotateCW, Reproduce, Kill]

open CreatureActions CreatureInputs in
/-- The sensor inputs enabled for every creature, in input-slot order. -/
def ENABLED_CREATURE_INPUTS : List CreatureInputs :=
  [Age, Energy, VisionDistance, VisionColorRed, VisionColorGreen, VisionColorBlue, Orientation, LastAction]

/-- Integer grid position (`Position` in creature.rs, re-exported to the
environment as `CreaturePosition`). -/
structure Position where
  x : Nat
  y : Nat
deriving DecidableEq

/-- Possible orientations a creature can point. -/
inductive CreatureOrientation
  | Up
  | Down
  | Left
  | Right
deriving DecidableEq

def NUM_ORIENTATION_STATES : Nat := 4

/-- Possible states of one grid cell (environment.rs `SpaceStates`). -/
inductive SpaceStates
  | BlankSpace
  | CreatureSpace (id : Nat)
  | FoodSpace
  | WallSpace
  | FightSpace (ttl : Nat)
deriving DecidableEq

/-- Colour of a creature; `u8` channels modelled as `Nat` kept below 256 by
the saturating/wrapping channel operations. -/
structure CreatureColor where
  red : Nat
  green : Nat
  blue : Nat
deriving DecidableEq

/-- Create a colour from an RGB vector (`new_from_vec`). -/
def CreatureColor.new_from_vec (v : Nat × Nat × Nat) : CreatureColor :=
  ⟨v.1, v.2.1, v.2.2⟩

/-- Return vector form of a colour (`get_as_vec`). -/
def CreatureColor.get_as_vec (c : CreatureColor) : Nat × Nat × Nat :=
  (c.red, c.green, c.blue)

def DEFAULT_CREATURE_COLOR : Nat × Nat × Nat := (0, 75, 255)

/-- Saturating `u8` addition. -/
def satAdd8 (a b : Nat) : Nat := min 255 (a + b)

/-- State of a creature's vision along its orientation. -/
structure CreatureVisionState where
  obj_in_view : Bool
  dist : Nat
  color : CreatureColor
  space_type : SpaceStates
deriving DecidableEq

/-- Input parameters of a creature. -/
structure CreatureParams where
  reproduce_energy_cost : Nat
  move_energy_cost : Nat
  rotate_energy_cost : Nat
  kill_energy_cost : Nat
  starting_energy : Nat
deriving DecidableEq

/-- Default creature parameters (`CreatureParams::new`). -/
def CreatureParams.new : CreatureParams :=
  ⟨DEFAULT_REPRODUCE_ENERGY_COST, DEFAULT_MOVE_ENERGY_COST, DEFAULT_ROTATE_ENERGY_COST,
   DEFAULT_KILL_ENERGY_COST, DEFAULT_ENERGY_LEVEL⟩

/-! ### creature.rs: Brain -/

/-- Internal brain layer sizes: two hidden layers of 10 neurons; input/output
sizes are filled in by the constructor. -/
def BRAIN_HIDDEN_LAYER_SIZE : Nat := 10
def BRAIN_MIN_INIT_NODE_VAL : ℚ := -50
def BRAIN_MAX_INIT_NODE_VAL : ℚ := 50

/-- A creature brain: generic network plus slot-to-meaning maps. -/
structure Brain where
  net : NeuralNet
  input_node_types : List CreatureInputs
  output_node_types : List CreatureActions
deriving DecidableEq

/-- Fresh random brain (`Brain::new`): layer sizes are the input count, the
two hidden layers, and the output count. -/
def Brain.new (ins : List CreatureInputs) (outs : List CreatureActions)
    (r : Rng) (t : RCtr) : Brain × RCtr :=
  let layer_sizes := [ins.length, BRAIN_HIDDEN_LAYER_SIZE, BRAIN_HIDDEN_LAYER_SIZE, outs.length]
  let (nn, t2) := NeuralNet.new layer_sizes r t
  (⟨nn, ins, outs⟩, t2)

/-- Brain copy with random mutations (`Brain::new_copy`): clone the net, run
`apply_rand_mutations`, copy the slot maps unchanged. -/
def Brain.new_copy (other : Brain) (mutation_prob : ℚ) (r : Rng) (t : RCtr) :
    Option (Brain × RCtr) := do
  let (nn, t2) ← other.net.apply_rand_mutations mutation_prob r t
  some (⟨nn, other.input_node_types, other.output_node_types⟩, t2)

/-- Set the value of one input neuron (`Brain::set_input`). -/
def Brain.set_input (b : Brain) (idx : Nat) (v : ℚ) : Brain :=
  { b with net := b.net.set_input_node idx v }

/-- Evaluate the network and return the next action together with the brain
holding the updated activations (`Brain::get_next_action`); the `unwrap` on
the evaluation result and the output-slot indexing are panics (`none`). -/
def Brain.get_next_action (b : Brain) : Option (CreatureActions × Brain) := do
  let (output_idx, nn2) ← b.net.evaluate_network
  let act ← b.output_node_types.get? output_idx
  some (act, { b with net := nn2 })

/-! ### creature.rs: Creature -/

/-- Full per-creature state (`CreatureV1`). -/
structure Creature where
  params : CreatureParams
  brain : Brain
  id : Nat
  is_alive : Bool
  killed : Bool
  position : Position
  orientation : CreatureOrientation
  energy : Nat
  vision_state : CreatureVisionState
  age : Nat
  color : CreatureColor
  reproduction_age : Nat
  last_action : CreatureActions
  input_neuron_types : List CreatureInputs
  output_neuron_types : List CreatureActions
deriving DecidableEq

/-- Default vision state used by the constructors. -/
def defaultVision : CreatureVisionState :=
  ⟨false, 0, CreatureColor.new_from_vec (0, 0, 0), SpaceStates.BlankSpace⟩

/-- Fresh creature with default values (`CreatureV1::new`); the brain draws
its random weights from the oracle. -/
def Creature.new (id : Nat) (inparams : CreatureParams) (r : Rng) (t : RCtr) :
    Creature × RCtr :=
  let (brain, t2) := Brain.new ENABLED_CREATURE_INPUTS ENABLED_CREATURE_ACTIONS r t
  (⟨inparams, brain, id, true, false, ⟨0, 0⟩, CreatureOrientation.Up,
    DEFAULT_ENERGY_LEVEL, defaultVision, 0,
    CreatureColor.new_from_vec DEFAULT_CREATURE_COLOR, DEFAULT_REPRODUCE_AGE,
    CreatureActions.Stay, ENABLED_CREATURE_INPUTS, ENABLED_CREATURE_ACTIONS⟩, t2)

/-- Random colour drift applied on reproduction
(`apply_random_color_mutation`): each channel flips a coin against
`mutation_prob` and on success moves by a `gen_range(-100..=100)` amount with
saturating `u8` arithmetic; afterwards, if the channel sum is below 255 every
channel is brightened by a third of the deficit. -/
def Creature.apply_random_color_mutation (c : Creature) (mutation_prob : ℚ)
    (r : Rng) (t : RCtr) : Creature × RCtr :=
  let chan := fun (v : Nat) (t : RCtr) =>
    let (coin, t1) := drawCoin r t
    if coin ≤ mutation_prob then
      let (raw, t2) := drawNat r t1
      let dv : ℤ := MIN_COLOR_DEVIATION + (raw % 201 : Nat)
      if dv < 0 then (v - dv.natAbs, t2) else (satAdd8 v dv.toNat, t2)
    else (v, t1)
  let (red1, t1) := chan c.color.red t
  let (green1, t2) := chan c.color.green t1
  let (blue1, t3) := chan c.color.blue t2
  let color_sum := red1 + green1 + blue1
  let c2 :=
    if color_sum < 255 then
      let brightness_diff := (255 - color_sum) / 3
      { c with color := ⟨uadd8 red1 brightness_diff, uadd8 green1 brightness_diff,
                         uadd8 blue1 brightness_diff⟩ }
    else { c with color := ⟨red1, green1, blue1⟩ }
  (c2, t3)

/-- Colour shift marking a killer (`set_killer`); a no-op because
`COLOR_MODE_VIOLENCE` is false. -/
def Creature.set_killer (c : Creature) : Creature :=
  if COLOR_MODE_VIOLENCE then
    { c with color := ⟨satAdd8 c.color.red 10, c.color.green, c.color.blue - 10⟩ }
  else c

/-- Inverse colour shift (`unset_killer`); a no-op for the same reason. -/
def Creature.unset_killer (c : Creature) : Creature :=
  if COLOR_MODE_VIOLENCE then
    { c with color := ⟨c.color.red - 10, c.color.green, satAdd8 c.color.blue 10⟩ }
  else c

/-- Offspring constructor (`CreatureV1::new_offspring`): mutated brain copy,
parent position/orientation, energy reset to the configured starting energy,
then (violence colouring being off) a random colour mutation. -/
def Creature.new_offspring (id : Nat) (parent : Creature) (mutation_prob : ℚ)
    (r : Rng) (t : RCtr) : Option (Creature × RCtr) := do
  let (brain, t2) ← Brain.new_copy parent.brain mutation_prob r t
  let temp : Creature :=
    ⟨parent.params, brain, id, true, false, ⟨parent.position.x, parent.position.y⟩,
     parent.orientation, parent.params.starting_energy, defaultVision, 0,
     parent.color, DEFAULT_REPRODUCE_AGE, CreatureActions.Stay,
     parent.input_neuron_types, parent.output_neuron_types⟩
  if COLOR_MODE_VIOLENCE then some (temp.unset_killer, t2)
  else some (temp.apply_random_color_mutation mutation_prob r t2)

/-- Set position on the board (`set_position`). -/
def Creature.set_position (c : Creature) (x y : Nat) : Creature :=
  { c with position := ⟨x, y⟩ }

/-- Set orientation (`set_orientation`). -/
def Creature.set_orientation (c : Creature) (o : CreatureOrientation) : Creature :=
  { c with orientation := o }

/-- Eat food worth `food_energy` (`eat_food`): capped at
`MAX_POSSIBLE_ENERGY`; the unchecked sum is modelled with wrap. -/
def Creature.eat_food (c : Creature) (food_energy : Nat) : Creature :=
  if uadd c.energy food_energy > MAX_POSSIBLE_ENERGY then
    { c with energy := MAX_POSSIBLE_ENERGY }
  else { c with energy := uadd c.energy food_energy }

/-- Set the vision state (`set_vision`). -/
def Creature.set_vision (c : Creature) (v : CreatureVisionState) : Creature :=
  { c with vision_state := v }

/-- Kill this creature (`kill`). -/
def Creature.kill (c : Creature) : Creature :=
  { c with energy := 0, is_alive := false, killed := true }

/-- Whether the creature is dead (`is_dead`). -/
def Creature.is_dead (c : Creature) : Bool :=
  !(c.energy > 0 && c.age < MAX_POSSIBLE_AGE)

/-- Whether this creature was killed by another (`was_killed`). -/
def Creature.was_killed (c : Creature) : Bool := c.killed

/-- Numeric code of an action fed to the net (`action_to_f32`). -/
def Creature.action_to_f32 : CreatureActions → ℚ
  | CreatureActions.Stay => 0
  | CreatureActions.MoveForwards => 2
  | CreatureActions.MoveBackwards => 3
  | CreatureActions.MoveLeft => 4
  | CreatureActions.MoveRight => 5
  | CreatureActions.RotateCCW => 10
  | CreatureActions.RotateCW => 11
  | CreatureActions.Reproduce => 15
  | CreatureActions.Kill => 20

/-- Numeric code of an orientation fed to the net (`orientation_to_f32`). -/
def Creature.orientation_to_f32 : CreatureOrientation → ℚ
  | CreatureOrientation.Up => 0
  | CreatureOrientation.Left => 1
  | CreatureOrientation.Down => 2
  | CreatureOrientation.Right => 3

/-- Populate the input neurons from the current state
(`sense_surroundings`): vision-derived inputs use the sentinel when nothing
is in view; each input slot is written according to its configured type. -/
def Creature.sense_surroundings (c : Creature) : Creature :=
  let vis_dist : ℚ :=
    if c.vision_state.obj_in_view then (c.vision_state.dist : ℚ)
    else VISION_NEURON_INVALID_VAL
  let vis_red : ℚ :=
    if c.vision_state.obj_in_view then (c.vision_state.color.red : ℚ)
    else VISION_NEURON_INVALID_VAL
  let vis_green : ℚ :=
    if c.vision_state.obj_in_view then (c.vision_state.color.green : ℚ)
    else VISION_NEURON_INVALID_VAL
  let vis_blue : ℚ :=
    if c.vision_state.obj_in_view then (c.vision_state.color.blue : ℚ)
    else VISION_NEURON_INVALID_VAL
  let b := (List.range c.input_neuron_types.length).foldl (fun b idx =>
    match c.input_neuron_types.getD idx CreatureInputs.Unused with
    | CreatureInputs.Age => b.set_input idx (c.age : ℚ)
    | CreatureInputs.Energy => b.set_input idx (c.energy : ℚ)
    | CreatureInputs.VisionDistance => b.set_input idx vis_dist
    | CreatureInputs.VisionColorRed => b.set_input idx vis_red
    | CreatureInputs.VisionColorGreen => b.set_input idx vis_green
    | CreatureInputs.VisionColorBlue => b.set_input idx vis_blue
    | CreatureInputs.LastAction => b.set_input idx (Creature.action_to_f32 c.last_action)
    | CreatureInputs.Orientation => b.set_input idx (Creature.orientation_to_f32 c.orientation)
    | CreatureInputs.Unused => b) c.brain
  { c with brain := b }

/-- Apply the rotation implied by an action (`apply_rotation`); any other
action leaves the orientation unchanged. -/
def Creature.apply_rotation (c : Creature) (action : CreatureActions) : Creature :=
  match c.orientation with
  | CreatureOrientation.Up =>
      match action with
      | CreatureActions.RotateCCW => { c with orientation := CreatureOrientation.Left }
      | CreatureActions.RotateCW => { c with orientation := CreatureOrientation.Right }
      | _ => c
  | CreatureOrientation.Left =>
      match action with
      | CreatureActions.RotateCCW => { c with orientation := CreatureOrientation.Down }
      | CreatureActions.RotateCW => { c with orientation := CreatureOrientation.Up }
      | _ => c
  | CreatureOrientation.Down =>
      match action with
      | CreatureActions.RotateCCW => { c with orientation := CreatureOrientation.Right }
      | CreatureActions.RotateCW => { c with orientation := CreatureOrientation.Left }
      | _ => c
  | CreatureOrientation.Right =>
      match action with
      | CreatureActions.RotateCCW => { c with orientation := CreatureOrientation.Up }
      | CreatureActions.RotateCW => { c with orientation := CreatureOrientation.Down }
      | _ => c

/-- Decide and pre-apply the next action (`perform_next_action`).  Branches,
in source order: dead creatures stay; reaching max age kills and stays; energy
above the fixed reproduce threshold forces `Reproduce` with an *unchecked*
energy debit; otherwise the brain picks the action, rotation is applied,
the action cost is debited with saturation, and hitting zero energy kills and
forces `Stay`.  The brain evaluation `unwrap` is a panic (`none`). -/
def Creature.perform_next_action (c : Creature) : Option (CreatureActions × Creature) :=
  if c.is_dead then some (CreatureActions.Stay, { c with last_action := CreatureActions.Stay })
  else if c.age < MAX_POSSIBLE_AGE then
    let c1 := { c with age := c.age + 1 }
    if c1.energy > DEFAULT_MIN_REPRODUCE_ENERGY then
      some (CreatureActions.Reproduce,
        { c1 with
            energy := uwsub c1.energy c1.params.reproduce_energy_cost
            last_action := CreatureActions.Reproduce })
    else do
      let (action, b2) ← c1.brain.get_next_action
      let c2 := { c1 with brain := b2, last_action := action }
      let c3 := c2.apply_rotation action
      let newEnergy :=
        match action with
        | CreatureActions.Reproduce => c3.energy - c3.params.reproduce_energy_cost
        | CreatureActions.MoveBackwards => c3.energy - c3.params.move_energy_cost
        | CreatureActions.MoveForwards => c3.energy - c3.params.move_energy_cost
        | CreatureActions.MoveLeft => c3.energy - c3.params.move_energy_cost
        | CreatureActions.MoveRight => c3.energy - c3.params.move_energy_cost
        | CreatureActions.RotateCCW => c3.energy - c3.params.rotate_energy_cost
        | CreatureActions.RotateCW => c3.energy - c3.params.rotate_energy_cost
        | CreatureActions.Kill => c3.energy - c3.params.kill_energy_cost
        | _ => c3.energy
      let c4 := { c3 with energy := newEnergy }
      if c4.energy = 0 then some (CreatureActions.Stay, { c4 with is_alive := false })
      else some (action, c4)
  else some (CreatureActions.Stay, { c with is_alive := false })

/-! ### environment.rs: constants and data model -/

def DEFAULT_ENERGY_PER_FOOD_PIECE : Nat := 40
def DEFAULT_ENERGY_PER_KILL : Nat := 30

/-- Default mutation probability; the source's `f32` literal `0.02` is
modelled by the rational it denotes, 1/50. -/
def DEFAULT_MUTATION_PROB : ℚ := mkRat 1 50

def NEW_FOOD_PIECES_PER_STEP : ℚ := 1
def DEFAULT_OFFSPRING_PER_REPRODUCE : Nat := 2
def MAX_OFFSPRING_SPAWN_DIST : ℤ := 3
def MAX_CREATURE_VIEW_DISTANCE : Nat := 5
def FOOD_SPACE_COLOR : Nat × Nat × Nat := (40, 255, 40)
def WALL_SPACE_COLOR : Nat × Nat × Nat := (200, 200, 200)
def FIGHT_SPACE_PERSISTENCE_STEPS : Nat := 20

/-- The grid: `Vec<Vec<SpaceStates>>` modelled as a total function from
(x, y) to the cell state.  All source reads and writes are within the
`env_x_size` by `env_y_size` rectangle, which the params always describe. -/
def Grid : Type := Nat → Nat → SpaceStates

/-- Overwrite a single cell. -/
def Grid.setCell (g : Grid) (x y : Nat) (s : SpaceStates) : Grid :=
  fun a b => if a = x ∧ b = y then s else g a b

/-- Selector of what to import from a serialized snapshot
(`JsonEnvLoadParams`). -/
structure JsonEnvLoadParams where
  load_all : Bool
  load_parameters : Bool
  load_creatures : Bool
  load_walls : Bool
  load_food : Bool
deriving DecidableEq

/-- All input parameters to a new environment (`EnvironmentParams`). -/
structure EnvironmentParams where
  env_x_size : Nat
  env_y_size : Nat
  num_start_creatures : Nat
  num_start_food : Nat
  num_start_walls : Nat
  energy_per_food_piece : Nat
  energy_per_kill : Nat
  max_offspring_per_reproduce : Nat
  mutation_prob : ℚ
  avg_new_food_per_day : ℚ
  creature_repro_energy_cost : Nat
  creature_starting_energy : Nat
deriving DecidableEq

/-- Default environment parameters (`EnvironmentParams::new`). -/
def EnvironmentParams.new : EnvironmentParams :=
  ⟨50, 50, 100, 150, 200, DEFAULT_ENERGY_PER_FOOD_PIECE, DEFAULT_ENERGY_PER_KILL,
   DEFAULT_OFFSPRING_PER_REPRODUCE, DEFAULT_MUTATION_PROB, NEW_FOOD_PIECES_PER_STEP,
   DEFAULT_REPRODUCE_ENERGY_COST, DEFAULT_ENERGY_LEVEL⟩

/-- The 2-D environment (`EnvironmentV1`). -/
structure EnvironmentV1 where
  params : EnvironmentParams
  creatures : List Creature
  positions : Grid
  time_step : Nat
  num_food : Nat
  num_creatures : Nat
  num_blank : Nat
  num_walls : Nat
  num_total_creatures : Nat
  num_kills : Nat
  num_natural_deaths : Nat

/-! ### environment.rs: single-cell mutators and simple helpers -/

/-- Add one food space (`add_food_space`): refuses to overwrite a creature
cell (an error print and early return in the source). -/
def EnvironmentV1.add_food_space (E : EnvironmentV1) (position : Position) : EnvironmentV1 :=
  match E.positions position.x position.y with
  | SpaceStates.CreatureSpace _ => E
  | _ => { E with positions := E.positions.setCell position.x position.y SpaceStates.FoodSpace }

/-- Add one wall space (`add_wall_space`): refuses creature cells. -/
def EnvironmentV1.add_wall_space (E : EnvironmentV1) (position : Position) : EnvironmentV1 :=
  match E.positions position.x position.y with
  | SpaceStates.CreatureSpace _ => E
  | _ => { E with positions := E.positions.setCell position.x position.y SpaceStates.WallSpace }

/-- Blank one cell (`add_blank_space`): refuses creature cells. -/
def EnvironmentV1.add_blank_space (E : EnvironmentV1) (position : Position) : EnvironmentV1 :=
  match E.positions position.x position.y with
  | SpaceStates.CreatureSpace _ => E
  | _ => { E with positions := E.positions.setCell position.x position.y SpaceStates.BlankSpace }

/-- Add a creature at the position it carries (`add_creature`); overwriting
any cell state is allowed here. -/
def EnvironmentV1.add_creature (E : EnvironmentV1) (new_creature : Creature) : EnvironmentV1 :=
  { E with
      positions := E.positions.setCell new_creature.position.x new_creature.position.y
        (SpaceStates.CreatureSpace new_creature.id)
      creatures := E.creatures ++ [new_creature]
      num_total_creatures := E.num_total_creatures + 1 }

/-- Linear creature lookup by id (`get_creature_idx_from_id`); `none` is the
`Err` return. -/
def EnvironmentV1.get_creature_idx_from_id (E : EnvironmentV1) (creature_id : Nat) : Option Nat :=
  E.creatures.findIdx? (fun c => c.id = creature_id)

/-- Count in-bounds cells satisfying a predicate (used by the
grid-audit pass). -/
def EnvironmentV1.countCells (E : EnvironmentV1) (p : SpaceStates → Bool) : Nat :=
  ((List.range E.params.env_x_size).map (fun x =>
    ((List.range E.params.env_y_size).filter (fun y => p (E.positions x y))).length)).sum

/-- The fight-space decay applied cell-wise by `update_space_counters`. -/
def fightDecay : SpaceStates → SpaceStates
  | SpaceStates.FightSpace ttl =>
      if ttl > 0 then SpaceStates.FightSpace (ttl - 1) else SpaceStates.BlankSpace
  | s => s

/-- Audit the per-kind counters against the grid and age fight spaces
(`update_space_counters`): every in-bounds cell is counted by its state read
before the write (fight spaces count as blank), and every fight space decays
by one step, turning blank at zero. -/
def EnvironmentV1.update_space_counters (E : EnvironmentV1) : EnvironmentV1 :=
  let xs := E.params.env_x_size
  let ys := E.params.env_y_size
  { E with
      positions := fun x y =>
        if x < xs ∧ y < ys then fightDecay (E.positions x y) else E.positions x y
      num_blank := E.countCells (fun s =>
        match s with
        | SpaceStates.BlankSpace => true
        | SpaceStates.FightSpace _ => true
        | _ => false)
      num_creatures := E.countCells (fun s =>
        match s with
        | SpaceStates.CreatureSpace _ => true
        | _ => false)
      num_walls := E.countCells (fun s =>
        match s with
        | SpaceStates.WallSpace => true
        | _ => false)
      num_food := E.countCells (fun s =>
        match s with
        | SpaceStates.FoodSpace => true
        | _ => false) }

/-- Candidate next cell for a movement action
(`get_next_position_for_creature`): the mapping is relative to the
creature's orientation and wraps at the grid edges. -/
def EnvironmentV1.get_next_position_for_creature (E : EnvironmentV1)
    (action : CreatureActions) (position : Position)
    (orientation : CreatureOrientation) : Position :=
  let xs := E.params.env_x_size
  let ys := E.params.env_y_size
  let decY : Position → Position := fun p => { p with y := if position.y = 0 then ys - 1 else p.y - 1 }
  let decX : Position → Position := fun p => { p with x := if position.x = 0 then xs - 1 else p.x - 1 }
  let incY : Position → Position := fun p => { p with y := (p.y + 1) % ys }
  let incX : Position → Position := fun p => { p with x := (p.x + 1) % xs }
  match orientation with
  | CreatureOrientation.Up =>
      match action with
      | CreatureActions.MoveForwards => decY position
      | CreatureActions.MoveLeft => decX position
      | CreatureActions.MoveBackwards => incY position
      | CreatureActions.MoveRight => incX position
      | _ => position
  | CreatureOrientation.Down =>
      match action with
      | CreatureActions.MoveBackwards => decY position
      | CreatureActions.MoveRight => decX position
      | CreatureActions.MoveForwards => incY position
      | CreatureActions.MoveLeft => incX position
      | _ => position
  | CreatureOrientation.Left =>
      match action with
      | CreatureActions.MoveRight => decY position
      | CreatureActions.MoveForwards => decX position
      | CreatureActions.MoveLeft => incY position
      | CreatureActions.MoveBackwards => incX position
      | _ => position
  | CreatureOrientation.Right =>
      match action with
      | CreatureActions.MoveLeft => decY position
      | CreatureActions.MoveBackwards => decX position
      | CreatureActions.MoveRight => incY position
      | CreatureActions.MoveForwards => incX position
      | _ => position

/-! ### environment.rs: random blank-cell searches -/

/-- Retry loop of `get_rand_blank_space`: draw a uniform cell, return it if
blank; the watchdog permits 10001 failed attempts before panicking
(`none`).  An empty grid dimension makes `gen_range` itself panic. -/
def EnvironmentV1.randBlankLoop (E : EnvironmentV1) (r : Rng) :
    Nat → RCtr → Option (Position × RCtr)
  | 0, _ => none
  | fuel + 1, t => do
      let (x, t1) ← drawNatLt r t E.params.env_x_size
      let (y, t2) ← drawNatLt r t1 E.params.env_y_size
      match E.positions x y with
      | SpaceStates.BlankSpace => some (⟨x, y⟩, t2)
      | _ => E.randBlankLoop r fuel t2

/-- Random blank cell on the whole board (`get_rand_blank_space`); exhausting
the watchdog is a panic, not a silent failure. -/
def EnvironmentV1.get_rand_blank_space (E : EnvironmentV1) (r : Rng) (t : RCtr) :
    Option (Position × RCtr) :=
  E.randBlankLoop r 10001 t

/-- Retry loop of `get_blank_space_at_point`: draw offsets in `[-3, 3)` for
each axis, clamp the target into the board, accept blank cells; after 10
failed attempts it gives up and returns `None` (silently — the first
component is the source function's return value). -/
def EnvironmentV1.blankAtPointLoop (E : EnvironmentV1) (target_pos : Position) (r : Rng) :
    Nat → RCtr → Option Position × RCtr
  | 0, t => (none, t)
  | fuel + 1, t =>
      let (rawx, t1) := drawNat r t
      let (rawy, t2) := drawNat r t1
      let x_diff : ℤ := -MAX_OFFSPRING_SPAWN_DIST + (rawx % 6 : Nat)
      let y_diff : ℤ := -MAX_OFFSPRING_SPAWN_DIST + (rawy % 6 : Nat)
      let xs : ℤ := E.params.env_x_size
      let ys : ℤ := E.params.env_y_size
      let xi0 : ℤ := target_pos.x + x_diff
      let yi0 : ℤ := target_pos.y + y_diff
      let xi1 : ℤ := if xi0 < 0 then 0 else xi0
      let yi1 : ℤ := if yi0 < 0 then 0 else yi0
      let xi2 : ℤ := if xi1 ≥ xs then xs - 1 else xi1
      let yi2 : ℤ := if yi1 ≥ ys then ys - 1 else yi1
      let x : Nat := xi2.toNat
      let y : Nat := yi2.toNat
      match E.positions x y with
      | SpaceStates.BlankSpace => (some ⟨x, y⟩, t2)
      | _ => E.blankAtPointLoop target_pos r fuel t2

/-- Random blank cell near a point, for offspring placement
(`get_blank_space_at_point`); `MAX_OFFSPRING_SPAWN_DIST^2 + 1 = 10` failed
attempts produce a silent `None`. -/
def EnvironmentV1.get_blank_space_at_point (E : EnvironmentV1) (target_pos : Position)
    (r : Rng) (t : RCtr) : Option Position × RCtr :=
  E.blankAtPointLoop target_pos r 10 t

/-! ### environment.rs: the tick (`advance_step`) -/

/-- Kill arm of the action match in `advance_step`: requires something in
view at distance 1 that is a creature cell; the victim index `unwrap` is a
panic (`none`); an already dead victim leaves everything unchanged; on
success the victim is killed and the attacker eats the per-kill energy and is
marked a killer. -/
def EnvironmentV1.resolveKill (E : EnvironmentV1) (creature_idx : Nat)
    (creature_copy : Creature) : Option EnvironmentV1 :=
  if creature_copy.vision_state.obj_in_view ∧ creature_copy.vision_state.dist = 1 then
    match creature_copy.vision_state.space_type with
    | SpaceStates.CreatureSpace victim_cid => do
        let victim_idx ← E.get_creature_idx_from_id victim_cid
        let victim ← E.creatures.get? victim_idx
        if victim.is_dead then some E
        else
          let E1 := { E with creatures := E.creatures.set victim_idx victim.kill }
          let cs2 := E1.creatures.modify
            (fun a => (a.eat_food E.params.energy_per_kill).set_killer) creature_idx
          some { E1 with creatures := cs2 }
    | _ => some E
  else some E

/-- Collision handling for a movement of the creature at `creature_idx` into
`next_position` (the tail of the loop body in `advance_step`): blank and
fight cells are entered, food cells are entered and eaten, wall and creature
cells reject the move. -/
def EnvironmentV1.resolveMove (E : EnvironmentV1) (creature_idx : Nat)
    (next_position : Position) : EnvironmentV1 :=
  match E.creatures.get? creature_idx with
  | none => E
  | some c =>
    if next_position ≠ c.position then
      let pos := c.position
      let enter : EnvironmentV1 → EnvironmentV1 := fun E0 =>
        { E0 with
            positions := (E0.positions.setCell pos.x pos.y SpaceStates.BlankSpace).setCell
              next_position.x next_position.y (SpaceStates.CreatureSpace c.id)
            creatures := E0.creatures.modify
              (fun a => a.set_position next_position.x next_position.y) creature_idx }
      match E.positions next_position.x next_position.y with
      | SpaceStates.BlankSpace => enter E
      | SpaceStates.FightSpace _ => enter E
      | SpaceStates.FoodSpace =>
          let cs2 := E.creatures.modify
            (fun a => a.eat_food E.params.energy_per_food_piece) creature_idx
          enter { E with creatures := cs2 }
      | SpaceStates.WallSpace => E
      | SpaceStates.CreatureSpace _ => E
    else E

/-- Reproduce arm of `advance_step`: draw the offspring count from
`1..=max_offspring_per_reproduce` (an empty range panics), then for each
offspring create a mutated clone carrying the next fresh id and queue it on
the pending list. -/
def EnvironmentV1.resolveReproduce (E : EnvironmentV1) (creature_idx : Nat)
    (pending : List Creature) (r : Rng) (t : RCtr) :
    Option (EnvironmentV1 × List Creature × RCtr) := do
  let (numRaw, t1) ← drawNatLt r t E.params.max_offspring_per_reproduce
  let num_offspring := 1 + numRaw
  (List.range num_offspring).foldlM
    (fun (st : EnvironmentV1 × List Creature × RCtr) _ => do
      let parent ← st.1.creatures.get? creature_idx
      let (off, t2) ← Creature.new_offspring st.1.num_total_creatures parent
        E.params.mutation_prob r st.2.2
      some ({ st.1 with num_total_creatures := st.1.num_total_creatures + 1 },
            st.2.1 ++ [off], t2))
    (E, pending, t1)

/-- One iteration of the per-creature loop in `advance_step`: sense, decide
and pre-apply (`perform_next_action`, writing the creature back), skip the
now-dead, then resolve the action against the grid. -/
def EnvironmentV1.processCreature (r : Rng)
    (st : EnvironmentV1 × List Creature × RCtr) (creature_idx : Nat) :
    Option (EnvironmentV1 × List Creature × RCtr) := do
  let E := st.1
  let c0 ← E.creatures.get? creature_idx
  let c1 := c0.sense_surroundings
  let (action, c2) ← c1.perform_next_action
  let E1 := { E with creatures := E.creatures.set creature_idx c2 }
  if c2.is_dead then some (E1, st.2.1, st.2.2)
  else
    match action with
    | CreatureActions.Kill => do
        let E2 ← E1.resolveKill creature_idx c2
        some (E2, st.2.1, st.2.2)
    | CreatureActions.MoveBackwards =>
        some (E1.resolveMove creature_idx
          (E1.get_next_position_for_creature action c2.position c2.orientation), st.2.1, st.2.2)
    | CreatureActions.MoveForwards =>
        some (E1.resolveMove creature_idx
          (E1.get_next_position_for_creature action c2.position c2.orientation), st.2.1, st.2.2)
    | CreatureActions.MoveLeft =>
        some (E1.resolveMove creature_idx
          (E1.get_next_position_for_creature action c2.position c2.orientation), st.2.1, st.2.2)
    | CreatureActions.MoveRight =>
        some (E1.resolveMove creature_idx
          (E1.get_next_position_for_creature action c2.position c2.orientation), st.2.1, st.2.2)
    | CreatureActions.Reproduce => E1.resolveReproduce creature_idx st.2.1 r st.2.2
    | _ => some (E1, st.2.1, st.2.2)

/-- Remove creatures that died this tick (`remove_dead_creatures`): a first
pass converts each dead creature's cell to a fight space (predation) or a
blank (natural death) and collects its id; a second pass removes the first
list entry with each collected id and decrements the live count. -/
def EnvironmentV1.remove_dead_creatures (E : EnvironmentV1) : EnvironmentV1 :=
  let ph1 := E.creatures.foldl
    (fun (st : Grid × Nat × Nat × List Nat) c =>
      if c.is_dead then
        if c.was_killed then
          (st.1.setCell c.position.x c.position.y
             (SpaceStates.FightSpace FIGHT_SPACE_PERSISTENCE_STEPS),
           st.2.1 + 1, st.2.2.1, st.2.2.2 ++ [c.id])
        else
          (st.1.setCell c.position.x c.position.y SpaceStates.BlankSpace,
           st.2.1, st.2.2.1 + 1, st.2.2.2 ++ [c.id])
      else st)
    (E.positions, E.num_kills, E.num_natural_deaths, [])
  let E1 := { E with
    positions := ph1.1
    num_kills := ph1.2.1
    num_natural_deaths := ph1.2.2.1 }
  ph1.2.2.2.foldl
    (fun E2 remove_id =>
      match E2.creatures.findIdx? (fun c => c.id = remove_id) with
      | some x => { E2 with creatures := E2.creatures.eraseIdx x,
                            num_creatures := E2.num_creatures - 1 }
      | none => E2)
    E1

/-- Place one queued offspring (the pending-creature loop in
`advance_step`): search near the parent position; on success set the
position, claim the cell and append the creature; on `None` drop it
silently. -/
def EnvironmentV1.placeOne (r : Rng) (st : EnvironmentV1 × RCtr) (nc : Creature) :
    EnvironmentV1 × RCtr :=
  let (posOpt, t2) := st.1.get_blank_space_at_point nc.position r st.2
  match posOpt with
  | some new_pos =>
      let nc2 := nc.set_position new_pos.x new_pos.y
      ({ st.1 with
           positions := st.1.positions.setCell nc2.position.x nc2.position.y
             (SpaceStates.CreatureSpace nc2.id)
           creatures := st.1.creatures ++ [nc2] }, t2)
  | none => (st.1, t2)

/-- Stochastic food replenishment (`add_new_food_pieces`): below one
food per day the average acts as a probability for a single piece; otherwise
the count is drawn from `0.0..2*avg` and rounded.  Each piece goes to a
random blank cell (whose watchdog can panic). -/
def EnvironmentV1.add_new_food_pieces (E : EnvironmentV1) (r : Rng) (t : RCtr) :
    Option (EnvironmentV1 × RCtr) :=
  if E.params.avg_new_food_per_day < 1 then
    let (coin, t1) := drawCoin r t
    if coin < E.params.avg_new_food_per_day then do
      let (pos, t2) ← E.get_rand_blank_space r t1
      some (E.add_food_space pos, t2)
    else some (E, t1)
  else
    let (v, t1) := drawVal r t
    let num_food := (round v).toNat
    (List.range num_food).foldlM
      (fun (st : EnvironmentV1 × RCtr) _ => do
        let (pos, t2) ← st.1.get_rand_blank_space r st.2
        some (st.1.add_food_space pos, t2))
      (E, t1)

/-- Cell handling inside the raycast of `update_creature_vision`: blank and
fight cells continue the scan (`cont`), food and walls report palette
colours, a creature cell reports the target creature's own colour (the index
`unwrap` panics, `none`). -/
def EnvironmentV1.visionCellCheck (E : EnvironmentV1) (x y distance : Nat)
    (cont : Option (Option CreatureVisionState)) : Option (Option CreatureVisionState) :=
  match E.positions x y with
  | SpaceStates.BlankSpace => cont
  | SpaceStates.FightSpace _ => cont
  | SpaceStates.FoodSpace =>
      some (some ⟨true, distance, CreatureColor.new_from_vec FOOD_SPACE_COLOR,
        SpaceStates.FoodSpace⟩)
  | SpaceStates.WallSpace =>
      some (some ⟨true, distance, CreatureColor.new_from_vec WALL_SPACE_COLOR,
        SpaceStates.WallSpace⟩)
  | SpaceStates.CreatureSpace c_id => do
      let target_cidx ← E.get_creature_idx_from_id c_id
      let tgt ← E.creatures.get? target_cidx
      some (some ⟨true, distance, CreatureColor.new_from_vec tgt.color.get_as_vec,
        SpaceStates.CreatureSpace c_id⟩)

/-- The raycast of `update_creature_vision` for one creature: step one cell
along the orientation (stopping at the low edge before underflow), stop past
the high edge, and check each reached cell, counting its step distance.
`some none` means nothing came in view. -/
def EnvironmentV1.visionScan (E : EnvironmentV1) (orientation : CreatureOrientation)
    (cx cy : Nat) : Nat → Nat → Nat → Option (Option CreatureVisionState)
  | 0, _, _ => some none
  | fuel + 1, xpos, ypos =>
      let step : Option (Nat × Nat) :=
        match orientation with
        | CreatureOrientation.Up => if ypos = 0 then none else some (xpos, ypos - 1)
        | CreatureOrientation.Down => some (xpos, ypos + 1)
        | CreatureOrientation.Right => some (xpos + 1, ypos)
        | CreatureOrientation.Left => if xpos = 0 then none else some (xpos - 1, ypos)
      match step with
      | none => some none
      | some (x, y) =>
          if x ≥ E.params.env_x_size ∨ y ≥ E.params.env_y_size then some none
          else
            E.visionCellCheck x y (((x : ℤ) - cx).natAbs + ((y : ℤ) - cy).natAbs)
              (E.visionScan orientation cx cy fuel x y)

/-- Recompute what every creature sees (`update_creature_vision`): reset the
reading, then raycast from the creature's cell. -/
def EnvironmentV1.update_creature_vision (E : EnvironmentV1) : Option EnvironmentV1 :=
  (List.range E.creatures.length).foldlM
    (fun E1 c_idx => do
      let cs2 := E1.creatures.modify (fun c => c.set_vision defaultVision) c_idx
      let E2 := { E1 with creatures := cs2 }
      match E2.creatures.get? c_idx with
      | none => some E2
      | some c => do
        let res ← E2.visionScan c.orientation c.position.x c.position.y
          MAX_CREATURE_VIEW_DISTANCE c.position.x c.position.y
        match res with
        | some vis =>
            let cs3 := E2.creatures.modify (fun c2 => c2.set_vision vis) c_idx
            some { E2 with creatures := cs3 }
        | none => some E2)
    E

/-- Advance one tick (`advance_step`): audit counters and age fight spaces,
run the per-creature loop collecting pending offspring, remove the dead,
place the pending offspring, replenish food, recompute vision, and advance
time. -/
def EnvironmentV1.advance_step (E : EnvironmentV1) (r : Rng) : Option EnvironmentV1 := do
  let E1 := E.update_space_counters
  let st ← (List.range E1.creatures.length).foldlM
    (EnvironmentV1.processCreature r) (E1, ([] : List Creature), (⟨0, 0, 0⟩ : RCtr))
  let E3 := st.1.remove_dead_creatures
  let placed := st.2.1.foldl (EnvironmentV1.placeOne r) (E3, st.2.2)
  let (E5, _t) ← placed.1.add_new_food_pieces r placed.2
  let E6 ← E5.update_creature_vision
  some { E6 with time_step := E6.time_step + 1 }

/-! ### environment.rs: construction and persistence -/

/-- Random environment construction (`new_rand`): an all-blank board, then
food, then creatures (default creature params, random blank cell, random
orientation), then walls; any watchdog exhaustion panics. -/
def EnvironmentV1.new_rand (in_params : EnvironmentParams) (r : Rng) (t : RCtr) :
    Option (EnvironmentV1 × RCtr) := do
  let temp_env : EnvironmentV1 :=
    { params := in_params
      creatures := []
      positions := fun _ _ => SpaceStates.BlankSpace
      time_step := 0
      num_food := 0
      num_creatures := 0
      num_blank := in_params.env_x_size * in_params.env_y_size
      num_walls := 0
      num_total_creatures := in_params.num_start_creatures
      num_kills := 0
      num_natural_deaths := 0 }
  let stFood ← (List.range in_params.num_start_food).foldlM
    (fun (st : EnvironmentV1 × RCtr) _ => do
      let (pos, t2) ← st.1.get_rand_blank_space r st.2
      some (st.1.add_food_space pos, t2))
    (temp_env, t)
  let stCre ← (List.range in_params.num_start_creatures).foldlM
    (fun (st : EnvironmentV1 × RCtr) creature_num => do
      let (c0, ta) := Creature.new creature_num CreatureParams.new r st.2
      let (pos, tb) ← st.1.get_rand_blank_space r ta
      let c1 := c0.set_position pos.x pos.y
      let (orientRaw, tc) ← drawNatLt r tb NUM_ORIENTATION_STATES
      let orientation :=
        match orientRaw with
        | 0 => CreatureOrientation.Up
        | 1 => CreatureOrientation.Right
        | 2 => CreatureOrientation.Down
        | _ => CreatureOrientation.Left
      some (st.1.add_creature (c1.set_orientation orientation), tc))
    stFood
  (List.range in_params.num_start_walls).foldlM
    (fun (st : EnvironmentV1 × RCtr) _ => do
      let (pos, t2) ← st.1.get_rand_blank_space r st.2
      some (st.1.add_wall_space pos, t2))
    stCre

/-- Blank out all wall cells (`remove_all_walls`). -/
def EnvironmentV1.remove_all_walls (E : EnvironmentV1) : EnvironmentV1 :=
  let xs := E.params.env_x_size
  let ys := E.params.env_y_size
  { E with
      positions := fun x y =>
        if x < xs ∧ y < ys ∧ E.positions x y = SpaceStates.WallSpace
        then SpaceStates.BlankSpace else E.positions x y
      num_walls := 0 }

/-- Blank out all creature cells (`remove_all_creatures`). -/
def EnvironmentV1.remove_all_creatures (E : EnvironmentV1) : EnvironmentV1 :=
  let xs := E.params.env_x_size
  let ys := E.params.env_y_size
  { E with
      positions := fun x y =>
        match E.positions x y with
        | SpaceStates.CreatureSpace _ =>
            if x < xs ∧ y < ys then SpaceStates.BlankSpace else E.positions x y
        | _ => E.positions x y
      num_creatures := 0 }

/-- Blank out all food cells (`remove_all_food`). -/
def EnvironmentV1.remove_all_food (E : EnvironmentV1) : EnvironmentV1 :=
  let xs := E.params.env_x_size
  let ys := E.params.env_y_size
  { E with
      positions := fun x y =>
        if x < xs ∧ y < ys ∧ E.positions x y = SpaceStates.FoodSpace
        then SpaceStates.BlankSpace else E.positions x y
      num_food := 0 }

/-- Import food cells from a loaded grid (`add_food_from_positions`),
counting them. -/
def EnvironmentV1.add_food_from_positions (E src : EnvironmentV1) : EnvironmentV1 :=
  let xs := E.params.env_x_size
  let ys := E.params.env_y_size
  { E with
      positions := fun x y =>
        if x < xs ∧ y < ys ∧ src.positions x y = SpaceStates.FoodSpace
        then SpaceStates.FoodSpace else E.positions x y
      num_food := ((List.range xs).map (fun x =>
        ((List.range ys).filter (fun y => src.positions x y = SpaceStates.FoodSpace)).length)).sum }

/-- Import wall cells from a loaded grid (`add_walls_from_positions`): a
dimension mismatch with the loaded snapshot aborts with a warning print. -/
def EnvironmentV1.add_walls_from_positions (E src : EnvironmentV1) : EnvironmentV1 :=
  if src.params.env_x_size ≠ E.params.env_x_size ∨ src.params.env_y_size ≠ E.params.env_y_size
  then E
  else
    let xs := E.params.env_x_size
    let ys := E.params.env_y_size
    { E with
        positions := fun x y =>
          if x < xs ∧ y < ys ∧ src.positions x y = SpaceStates.WallSpace
          then SpaceStates.WallSpace else E.positions x y
        num_walls := ((List.range xs).map (fun x =>
          ((List.range ys).filter (fun y => src.positions x y = SpaceStates.WallSpace)).length)).sum }

/-- Re-derive creature cells from the creature list after a load
(`update_creature_positions`). -/
def EnvironmentV1.update_creature_positions (E : EnvironmentV1) : EnvironmentV1 :=
  let g := E.creatures.foldl
    (fun g c => Grid.setCell g c.position.x c.position.y (SpaceStates.CreatureSpace c.id))
    E.positions
  { E with positions := g, num_creatures := E.creatures.length }

/-- Serialization (`to_json`): serde derives an injective encoding of the
whole structure whose parse restores it; the JSON document is therefore
identified with the environment it encodes. -/
def EnvironmentV1.to_json (E : EnvironmentV1) : EnvironmentV1 := E

/-- Selective import from a parsed snapshot (`load_from_json`, after the
parse succeeded; `temp_env` is the parsed environment).  Note the source
consults only the four individual selectors; the `load_all` field of
`JsonEnvLoadParams` is never read, and `time_step`, `num_total_creatures`,
`num_kills` and `num_natural_deaths` are never imported. -/
def EnvironmentV1.load_from_json (E temp_env : EnvironmentV1)
    (load_ops : JsonEnvLoadParams) : EnvironmentV1 :=
  let E1 :=
    if load_ops.load_parameters then
      let E0 :=
        if temp_env.params.env_x_size ≠ E.params.env_x_size ∨
           temp_env.params.env_y_size ≠ E.params.env_y_size then
          { E with positions := fun _ _ => SpaceStates.BlankSpace }
        else E
      { E0 with params := temp_env.params }
    else E
  let E2 :=
    if load_ops.load_creatures then
      ({ E1.remove_all_creatures with creatures := temp_env.creatures }).update_creature_positions
    else E1
  let E3 :=
    if load_ops.load_walls then (E2.remove_all_walls).add_walls_from_positions temp_env
    else E2
  if load_ops.load_food then (E3.remove_all_food).add_food_from_positions temp_env
  else E3

/-! ### Derived definitions used by the specifications -/

/-- The running maximum and captured index of the output scan, as a function
of the activation values; `outputScan` is this fold at the matrix reads. -/
def maxScan (f : Nat → ℚ) (n : Nat) : ℚ × Option Nat :=
  (List.range n).foldl (fun st i => if f i ≥ st.1 then (f i, some i) else st) (0, none)

/-- Default matrix for out-of-range list reads in well-formedness
statements. -/
def mdef : Matrix := ⟨[], 0, 0⟩

/-- Shape discipline of a network with layer sizes `sizes`: the dimensions
`NeuralNet::new` establishes and `evaluate_network` relies on. -/
def NeuralNet.wfSizes (nn : NeuralNet) (sizes : List Nat) : Prop :=
  nn.num_layers = sizes.length ∧
  2 ≤ sizes.length ∧
  nn.weights.length = sizes.length - 1 ∧
  nn.biases.length = sizes.length - 1 ∧
  nn.activations.length = sizes.length ∧
  (∀ l, l < sizes.length - 1 →
    (nn.weights.getD l mdef).nrows = sizes.getD (l + 1) 0 ∧
    (nn.weights.getD l mdef).ncols = sizes.getD l 0 ∧
    (nn.biases.getD l mdef).nrows = sizes.getD (l + 1) 0 ∧
    (nn.biases.getD l mdef).ncols = 1) ∧
  (∀ l, l < sizes.length →
    (nn.activations.getD l mdef).nrows = sizes.getD l 0 ∧
    (nn.activations.getD l mdef).ncols = 1)

/-- Well-formedness of a brain: well-shaped net plus an output slot map
matching the output layer. -/
def Brain.wf (b : Brain) (sizes : List Nat) : Prop :=
  b.net.wfSizes sizes ∧ 0 < sizes.getD (sizes.length - 1) 0 ∧
  b.output_node_types.length = sizes.getD (sizes.length - 1) 0

/-- Concrete two-output brain whose output activations tie: zero weights and
biases (3, 3) make both output neurons hold 3 after RELU; output slot 0 is
bound to `Stay`, slot 1 to `MoveForwards`. -/
def tieBrain : Brain :=
  ⟨⟨2, [⟨[0, 0], 2, 1⟩], [⟨[3, 3], 2, 1⟩], [⟨[0], 1, 1⟩, ⟨[0, 0], 2, 1⟩]⟩,
   [], [CreatureActions.Stay, CreatureActions.MoveForwards]⟩

/-- Concrete minimal well-formed one-output brain. -/
def oneOutBrain : Brain :=
  ⟨⟨2, [⟨[0], 1, 1⟩], [⟨[1], 1, 1⟩], [⟨[0], 1, 1⟩, ⟨[0], 1, 1⟩]⟩,
   [], [CreatureActions.Stay]⟩

/-- Inert placeholder brain for creature-level statements whose code path
never evaluates the network. -/
def dummyBrain : Brain :=
  ⟨⟨2, [⟨[0], 1, 1⟩], [⟨[1], 1, 1⟩], [⟨[0], 1, 1⟩, ⟨[0], 1, 1⟩]⟩,
   [], [CreatureActions.Stay]⟩

/-- Creature exhibiting the unchecked reproduce debit: alive, energy 100
(legal, at most `MAX_POSSIBLE_ENERGY`), configured reproduce cost 200. -/
def c3Creature : Creature :=
  ⟨⟨200, 1, 1, 1, 100⟩, dummyBrain, 0, true, false, ⟨0, 0⟩, CreatureOrientation.Up,
   100, defaultVision, 5, CreatureColor.new_from_vec DEFAULT_CREATURE_COLOR,
   DEFAULT_REPRODUCE_AGE, CreatureActions.Stay, [], []⟩

/-- Creature for the C4 counterexample: energy 50 above the threshold 41,
configured reproduce cost 60 exceeding the energy. -/
def c4Creature : Creature :=
  ⟨⟨60, 1, 1, 1, 50⟩, dummyBrain, 1, true, false, ⟨0, 0⟩, CreatureOrientation.Up,
   50, defaultVision, 5, CreatureColor.new_from_vec DEFAULT_CREATURE_COLOR,
   DEFAULT_REPRODUCE_AGE, CreatureActions.Stay, [], []⟩

/-- Creature for the C4 witness: default parameters, energy 100. -/
def c4wCreature : Creature :=
  ⟨CreatureParams.new, dummyBrain, 2, true, false, ⟨0, 0⟩, CreatureOrientation.Up,
   100, defaultVision, 5, CreatureColor.new_from_vec DEFAULT_CREATURE_COLOR,
   DEFAULT_REPRODUCE_AGE, CreatureActions.Stay, [], []⟩

/-- Tiny two-layer parent network for the mutation claim: one weight 2, one
bias 5. -/
def c6Net : NeuralNet :=
  ⟨2, [⟨[2], 1, 1⟩], [⟨[5], 1, 1⟩], [⟨[0], 1, 1⟩, ⟨[0], 1, 1⟩]⟩

/-- RNG outcome whose `gen::<f32>()` draws are all exactly 0 — a value the
generator produces with positive probability, since its range is `[0, 1)` —
and whose fresh `gen_range` samples are all 7. -/
def c6Rng : Rng := ⟨fun _ => 0, fun _ => 7, fun _ => 0⟩

/-- All-selectors load options (what a caller loading everything passes). -/
def allLoadOps : JsonEnvLoadParams := ⟨true, true, true, true, true⟩

/-- A fresh 1-by-1 environment with all counters zero. -/
def c9CurEnv : EnvironmentV1 :=
  ⟨⟨1, 1, 0, 0, 0, 40, 30, 2, DEFAULT_MUTATION_PROB, 1, 40, 40⟩, [],
   fun _ _ => SpaceStates.BlankSpace, 0, 0, 0, 1, 0, 0, 0, 0⟩

/-- A serialized 1-by-1 environment carrying history: time step 5, 3 kills,
2 natural deaths, 9 total creatures. -/
def c9LoadedEnv : EnvironmentV1 :=
  ⟨⟨1, 1, 0, 0, 0, 40, 30, 2, DEFAULT_MUTATION_PROB, 1, 40, 40⟩, [],
   fun _ _ => SpaceStates.BlankSpace, 5, 0, 0, 1, 0, 9, 3, 2⟩

/-- A 1-by-1 board whose only cell is food: no blank cell exists. -/
def full1x1Env : EnvironmentV1 :=
  ⟨⟨1, 1, 0, 0, 0, 40, 30, 2, DEFAULT_MUTATION_PROB, 1, 40, 40⟩, [],
   fun _ _ => SpaceStates.FoodSpace, 0, 1, 0, 0, 0, 0, 0, 0⟩

/-- RNG oracle for the exhaustion scenarios: `gen::<f32>()` draws 3/4 (so no
sub-unity food is added), all integer draws 0. -/
def c8Rng : Rng := ⟨fun _ => mkRat 3 4, fun _ => 0, fun _ => 0⟩

/-- Parent creature sitting on the single cell of a full 1-by-1 board with
enough energy (100) to force reproduction. -/
def c8Parent : Creature :=
  ⟨CreatureParams.new, dummyBrain, 0, true, false, ⟨0, 0⟩, CreatureOrientation.Up,
   100, defaultVision, 5, CreatureColor.new_from_vec DEFAULT_CREATURE_COLOR,
   DEFAULT_REPRODUCE_AGE, CreatureActions.Stay, [], []⟩

/-- Full 1-by-1 environment for the offspring-drop scenario: the parent
occupies the only cell, so its offspring can find no blank cell; the
sub-unity food average (1/2) together with the 3/4 coin adds no food. -/
def c8ReproEnv : EnvironmentV1 :=
  ⟨⟨1, 1, 1, 0, 0, 40, 30, 2, DEFAULT_MUTATION_PROB, mkRat 1 2, 40, 40⟩, [c8Parent],
   fun _ _ => SpaceStates.CreatureSpace 0, 0, 0, 1, 0, 0, 1, 0, 0⟩

/-- The history counters that `load_from_json` never imports: time step,
total-creature counter, kill and natural-death counters. -/
def histState (E : EnvironmentV1) : Nat × Nat × Nat × Nat :=
  (E.time_step, E.num_total_creatures, E.num_kills, E.num_natural_deaths)

/-- Victim creature for the kill-resolution witness: id 7, alive. -/
def c5Victim : Creature :=
  ⟨CreatureParams.new, dummyBrain, 7, true, false, ⟨2, 1⟩, CreatureOrientation.Down,
   50, defaultVision, 8, CreatureColor.new_from_vec DEFAULT_CREATURE_COLOR,
   DEFAULT_REPRODUCE_AGE, CreatureActions.Stay, [], []⟩

/-- Attacker creature for the kill-resolution witness: sees creature 7 at
distance 1. -/
def c5Attacker : Creature :=
  ⟨CreatureParams.new, dummyBrain, 3, true, false, ⟨2, 2⟩, CreatureOrientation.Up,
   60, ⟨true, 1, CreatureColor.new_from_vec DEFAULT_CREATURE_COLOR, SpaceStates.CreatureSpace 7⟩,
   9, CreatureColor.new_from_vec DEFAULT_CREATURE_COLOR,
   DEFAULT_REPRODUCE_AGE, CreatureActions.Stay, [], []⟩

/-- Small environment for the kill-resolution witness: the attacker at index
0 and the victim at index 1. -/
def c5Env : EnvironmentV1 :=
  ⟨⟨4, 4, 2, 0, 0, 40, 30, 2, DEFAULT_MUTATION_PROB, 1, 40, 40⟩,
   [c5Attacker, c5Victim],
   fun x y =>
     if x = 2 ∧ y = 2 then SpaceStates.CreatureSpace 3
     else if x = 2 ∧ y = 1 then SpaceStates.CreatureSpace 7
     else SpaceStates.BlankSpace,
   0, 0, 2, 14, 0, 2, 0, 0⟩

/-- The environment after a successful kill: the victim at `vidx` replaced
by its killed self, the attacker at `idx` fed the per-kill energy and marked
a killer. -/
def killEffect (E : EnvironmentV1) (idx vidx : Nat) (victim : Creature) : EnvironmentV1 :=
  { E with creatures := (E.creatures.set vidx victim.kill).modify (fun a => (a.eat_food E.params.energy_per_kill).set_killer) idx }

/-- Whether the gaze passes through a cell: the spec scans past blank and
fight cells. -/
def seeThrough : SpaceStates → Bool
  | SpaceStates.BlankSpace => true
  | SpaceStates.FightSpace _ => true
  | _ => false

/-- The cell `k` steps from `(cx, cy)` along orientation `o`, in unbounded
integer coordinates (the spec's vision ray does not wrap). -/
def rayCell (o : CreatureOrientation) (cx cy : Nat) (k : Nat) : ℤ × ℤ :=
  match o with
  | CreatureOrientation.Up => (cx, (cy : ℤ) - k)
  | CreatureOrientation.Down => (cx, (cy : ℤ) + k)
  | CreatureOrientation.Left => ((cx : ℤ) - k, cy)
  | CreatureOrientation.Right => ((cx : ℤ) + k, cy)

/-- Modelled from the spec, §4.4: the reading recorded at the first visible
cell `(x, y)`, `k` steps away — food and walls report their fixed palette
colour, a creature reports its own current colour (resolved in the creature
list; an unresolvable id is the panic outcome, as in the code). -/
def specHitReading (E : EnvironmentV1) (x y k : Nat) : Option (Option CreatureVisionState) :=
  match E.positions x y with
  | SpaceStates.FoodSpace =>
      some (some ⟨true, k, CreatureColor.new_from_vec FOOD_SPACE_COLOR, SpaceStates.FoodSpace⟩)
  | SpaceStates.WallSpace =>
      some (some ⟨true, k, CreatureColor.new_from_vec WALL_SPACE_COLOR, SpaceStates.WallSpace⟩)
  | SpaceStates.CreatureSpace cid =>
      match E.creatures.find? (fun c => c.id = cid) with
      | some tgt => some (some ⟨true, k, tgt.color, SpaceStates.CreatureSpace cid⟩)
      | none => none
  | _ => none

/-- Modelled from the spec, §4.4: whether the cell `k` steps out is a
visible hit — on the grid (no wrap) and neither blank nor a fight marker. -/
def visionHit (E : EnvironmentV1) (o : CreatureOrientation) (cx cy : Nat) (k : Nat) : Bool :=
  let p := rayCell o cx cy k
  decide (0 ≤ p.1 ∧ p.1 < (E.params.env_x_size : ℤ) ∧ 0 ≤ p.2 ∧ p.2 < (E.params.env_y_size : ℤ)) &&
    !(seeThrough (E.positions p.1.toNat p.2.toNat))

/-- The spec's first-visible-cell search restricted to the window of `fuel`
step counts after the first `j`: the reading at the least hit `k` in
`[j+1, j+fuel]`, or nothing in view. -/
def specWindow (E : EnvironmentV1) (o : CreatureOrientation) (cx cy : Nat) (j fuel : Nat) :
    Option (Option CreatureVisionState) :=
  match ((List.range fuel).map (fun i => j + 1 + i)).find? (visionHit E o cx cy) with
  | none => some none
  | some k => specHitReading E (rayCell o cx cy k).1.toNat (rayCell o cx cy k).2.toNat k

/-- Modelled from the spec, §4.4: step outward one cell at a time along the
orientation, up to the fixed maximum distance or until the grid edge; at the
first non-blank, non-fight cell record in-view with distance equal to the
number of steps taken; otherwise nothing is in view.  This is the search
over step counts 1 to `MAX_CREATURE_VIEW_DISTANCE`. -/
def visionSpec (E : EnvironmentV1) (o : CreatureOrientation) (cx cy : Nat) :
    Option (Option CreatureVisionState) :=
  specWindow E o cx cy 0 MAX_CREATURE_VIEW_DISTANCE

/-! ### Claim C1: fold reformulation of `remove_dead_creatures` -/

/-- One step of the first pass of `remove_dead_creatures` (definitionally the
fold body of the source function). -/
def remDeadStep (st : Grid × Nat × Nat × List Nat) (c : Creature) :
    Grid × Nat × Nat × List Nat :=
  if c.is_dead then
    if c.was_killed then
      (st.1.setCell c.position.x c.position.y
         (SpaceStates.FightSpace FIGHT_SPACE_PERSISTENCE_STEPS),
       st.2.1 + 1, st.2.2.1, st.2.2.2 ++ [c.id])
    else
      (st.1.setCell c.position.x c.position.y SpaceStates.BlankSpace,
       st.2.1, st.2.2.1 + 1, st.2.2.2 ++ [c.id])
  else st

/-- One step of the second pass of `remove_dead_creatures` (definitionally
the fold body of the source function). -/
def remErase (E2 : EnvironmentV1) (remove_id : Nat) : EnvironmentV1 :=
  match E2.creatures.findIdx? (fun c => c.id = remove_id) with
  | some x => { E2 with creatures := E2.creatures.eraseIdx x,
                        num_creatures := E2.num_creatures - 1 }
  | none => E2

/-- The creature-list effect of the second pass, as a pure list fold. -/
def idsRemove (l : List Creature) (ds : List Nat) : List Creature :=
  ds.foldl
    (fun l2 d =>
      match l2.findIdx? (fun c => c.id = d) with
      | some x => l2.eraseIdx x
      | none => l2)
    l

/-! ### Claim C1: invariant definitions -/

/-- Whether a cell state is a creature cell. -/
def isCSpace : SpaceStates → Bool
  | SpaceStates.CreatureSpace _ => true
  | _ => false

/-- The occupancy relation between a creature list and a grid: an in-bounds
cell holds a creature id exactly when some listed creature carries that id
and that cell as its stored position. -/
def creatureOcc (cs : List Creature) (g : Grid) (xs ys : Nat) : Prop :=
  ∀ x y, x < xs → y < ys → ∀ cid, g x y = SpaceStates.CreatureSpace cid ↔
    ∃ c ∈ cs, c.id = cid ∧ c.position = (⟨x, y⟩ : Position)

/-- The inductive state invariant carried through `advance_step`: creature
ids are distinct, stored positions are distinct and in bounds, the grid and
the creature list agree (occupancy), every id is below the fresh-id counter,
every creature carries the default parameters, a creature that is not dead
has its alive flag set, and no creature's vision reading names the creature
itself. -/
structure EnvInv (E : EnvironmentV1) : Prop where
  uids : (E.creatures.map Creature.id).Nodup
  upos : E.creatures.Pairwise (fun a b => a.position ≠ b.position)
  inb : ∀ c ∈ E.creatures, c.position.x < E.params.env_x_size ∧
      c.position.y < E.params.env_y_size
  occ : creatureOcc E.creatures E.positions E.params.env_x_size E.params.env_y_size
  below : ∀ c ∈ E.creatures, c.id < E.num_total_creatures
  dparams : ∀ c ∈ E.creatures, c.params = CreatureParams.new
  aliveF : ∀ c ∈ E.creatures, c.is_dead = false → c.is_alive = true
  vok : ∀ c ∈ E.creatures, ∀ cid,
      c.vision_state.space_type = SpaceStates.CreatureSpace cid →
      c.vision_state.obj_in_view = true → cid ≠ c.id

/-- The between-steps state invariant: `EnvInv` and every listed creature is
live. -/
def EnvOk (E : EnvironmentV1) : Prop :=
  EnvInv E ∧ ∀ c ∈ E.creatures, c.is_dead = false

/-- Invariant of the pending-offspring list carried through the per-creature
loop of `advance_step`. -/
def PendOk (E : EnvironmentV1) (pend : List Creature) : Prop :=
  (pend.map Creature.id).Nodup ∧
  (∀ p ∈ pend, p.id < E.num_total_creatures ∧ p.is_dead = false ∧ p.is_alive = true ∧
    p.position.x < E.params.env_x_size ∧ p.position.y < E.params.env_y_size ∧
    p.params = CreatureParams.new ∧ p.vision_state.obj_in_view = false) ∧
  (∀ p ∈ pend, ∀ c ∈ E.creatures, p.id ≠ c.id)

/-- State invariant of the per-creature loop of `advance_step`. -/
def LoopOk (st : EnvironmentV1 × List Creature × RCtr) : Prop :=
  EnvInv st.1 ∧ PendOk st.1 st.2.1

/-- Reachable environments: produced by `new_rand` or by an `advance_step`
from a reachable environment. -/
inductive Reachable : EnvironmentV1 → Prop
  | init (p : EnvironmentParams) (r : Rng) (t t2 : RCtr) (E : EnvironmentV1) :
      EnvironmentV1.new_rand p r t = some (E, t2) → Reachable E
  | step (E E2 : EnvironmentV1) (r : Rng) :
      Reachable E → E.advance_step r = some E2 → Reachable E2

/-- The environment produced by `new_rand` on an empty 1 by 1 board
(no food, no creatures, no walls): the concrete reachable witness state. -/
def emptyParams : EnvironmentParams :=
  { EnvironmentParams.new with
      env_x_size := 1
      env_y_size := 1
      num_start_creatures := 0
      num_start_food := 0
      num_start_walls := 0 }

/-- The concrete environment `new_rand` produces on `emptyParams`: a blank
1 by 1 grid with no creatures. -/
def c1Env : EnvironmentV1 :=
  { params := emptyParams
    creatures := []
    positions := fun _ _ => SpaceStates.BlankSpace
    time_step := 0
    num_food := 0
    num_creatures := 0
    num_blank := 1
    num_walls := 0
    num_total_creatures := 0
    num_kills := 0
    num_natural_deaths := 0 }

/-! ## Theorems -/

/-! ### Helper lemmas: flat list access -/

theorem List.getD_set_char {α : Type} (l : List α) (i j : Nat) (v d : α) :
    (l.set i v).getD j d = if i = j ∧ i < l.length then v else l.getD j d := by
  by_cases hij : i = j
  · subst hij
    by_cases hlen : i < l.length
    · simp [List.getD, List.getElem?_set_self', List.getElem?_eq_getElem, hlen]
    · simp only [hlen, and_false, if_false]
      rw [List.set_eq_of_length_le (Nat.le_of_not_lt hlen)]
  · simp [List.getD, List.getElem?_set_ne hij, hij]

theorem List.getD_of_length_le {α : Type} (l : List α) (j : Nat) (d : α) (h : l.length ≤ j) :
    l.getD j d = d := by
  simp [List.getD, List.getElem?_eq_none h]

/-! ### The output scan of `evaluate_network` -/

theorem outputScan_eq_maxScan (out : Matrix) :
    NeuralNet.outputScan out = (maxScan (fun i => out.get i 0) out.nrows).2 := rfl

theorem maxScan_zero (f : Nat → ℚ) : maxScan f 0 = (0, none) := rfl

theorem maxScan_succ (f : Nat → ℚ) (n : Nat) :
    maxScan f (n + 1) =
      (if f n ≥ (maxScan f n).1 then (f n, some n) else maxScan f n) := by
  unfold maxScan
  rw [List.range_succ, List.foldl_append]
  rfl

/-- Invariant of the output scan: the accumulator holds the maximum of zero
and the values seen, and the captured index is the greatest index attaining
it (none only when every value seen is negative). -/
theorem maxScan_char (f : Nat → ℚ) (n : Nat) :
    0 ≤ (maxScan f n).1 ∧
    (∀ i, i < n → f i ≤ (maxScan f n).1) ∧
    (match (maxScan f n).2 with
     | some j => j < n ∧ f j = (maxScan f n).1 ∧ ∀ i, j < i → i < n → f i < (maxScan f n).1
     | none => (maxScan f n).1 = 0 ∧ ∀ i, i < n → f i < 0) := by
  induction n with
  | zero => simp [maxScan_zero]
  | succ n ih =>
    obtain ⟨ih0, ih1, ih2⟩ := ih
    rw [maxScan_succ]
    by_cases hge : f n ≥ (maxScan f n).1
    · rw [if_pos hge]
      refine ⟨le_trans ih0 hge, ?_, ?_⟩
      · intro i hi
        rcases Nat.lt_succ_iff_lt_or_eq.mp hi with hi | hi
        · exact le_trans (ih1 i hi) hge
        · exact le_of_eq (congrArg f hi)
      · exact ⟨Nat.lt_succ_self n, rfl, fun i hni hin => absurd (Nat.lt_of_lt_of_le hni (Nat.lt_succ_iff.mp hin)) (lt_irrefl n)⟩
    · push_neg at hge
      rw [if_neg (not_le.mpr hge)]
      refine ⟨ih0, ?_, ?_⟩
      · intro i hi
        rcases Nat.lt_succ_iff_lt_or_eq.mp hi with hi | hi
        · exact ih1 i hi
        · subst hi; exact le_of_lt hge
      · revert ih2
        cases hc : (maxScan f n).2 with
        | some j =>
          intro ih2
          obtain ⟨hj1, hj2, hj3⟩ := ih2
          refine ⟨Nat.lt_succ_of_lt hj1, hj2, ?_⟩
          intro i hji hin
          rcases Nat.lt_succ_iff_lt_or_eq.mp hin with hin | hin
          · exact hj3 i hji hin
          · subst hin; exact hge
        | none =>
          intro ih2
          refine ⟨ih2.1, ?_⟩
          intro i hi
          rcases Nat.lt_succ_iff_lt_or_eq.mp hi with hi | hi
          · exact ih2.2 i hi
          · subst hi; rw [← ih2.1]; exact hge

/-- When the scanned values are all nonnegative and there is at least one of
them, the scan returns the greatest index attaining the maximum. -/
theorem maxScan_nonneg_some (f : Nat → ℚ) (n : Nat) (hn : 0 < n)
    (hf : ∀ i, i < n → 0 ≤ f i) :
    ∃ j, (maxScan f n).2 = some j ∧ j < n ∧
      (∀ i, i < n → f i ≤ f j) ∧ (∀ i, j < i → i < n → f i < f j) := by
  obtain ⟨h0, h1, h2⟩ := maxScan_char f n
  cases hc : (maxScan f n).2 with
  | none =>
    rw [hc] at h2
    exact absurd (hf 0 hn) (not_le.mpr (h2.2 0 hn))
  | some j =>
    rw [hc] at h2
    obtain ⟨hj1, hj2, hj3⟩ := h2
    refine ⟨j, rfl, hj1, ?_, ?_⟩
    · intro i hi; rw [hj2]; exact h1 i hi
    · intro i hji hin; rw [hj2]; exact hj3 i hji hin

/-! ### The forward pass of `evaluate_network` -/

theorem reluFold_dims (l : List Nat) (acc : Matrix) :
    (l.foldl (fun acc i => acc.set i 0 (NeuralNet.relu (acc.get i 0))) acc).nrows = acc.nrows ∧
    (l.foldl (fun acc i => acc.set i 0 (NeuralNet.relu (acc.get i 0))) acc).ncols = acc.ncols := by
  induction l generalizing acc with
  | nil => exact ⟨rfl, rfl⟩
  | cons i l ih => exact ih _

theorem relu_nonneg (q : ℚ) : 0 ≤ NeuralNet.relu q := by
  unfold NeuralNet.relu
  split
  · assumption
  · exact le_refl 0

theorem reluFold_nonneg (l : List Nat) (acc : Matrix) (j : Nat)
    (h : j ∈ l ∨ 0 ≤ acc.get j 0) :
    0 ≤ ((l.foldl (fun acc i => acc.set i 0 (NeuralNet.relu (acc.get i 0))) acc).get j 0) := by
  induction l generalizing acc with
  | nil =>
    rcases h with h | h
    · exact absurd h (List.not_mem_nil j)
    · exact h
  | cons i l ih =>
    simp only [List.foldl_cons]
    set acc2 := acc.set i 0 (NeuralNet.relu (acc.get i 0)) with hacc2
    by_cases hjl : j ∈ l
    · exact ih acc2 (Or.inl hjl)
    · refine ih acc2 (Or.inr ?_)
      have hget : acc2.get j 0 =
          if i * acc.ncols + 0 = j * acc.ncols + 0 ∧ i * acc.ncols + 0 < acc.data.length
          then NeuralNet.relu (acc.get i 0) else acc.get j 0 := by
        unfold Matrix.get Matrix.set at *
        rw [hacc2]
        exact List.getD_set_char acc.data (i * acc.ncols + 0) (j * acc.ncols + 0) _ 0
      rw [hget]
      split
      · exact relu_nonneg _
      · rcases h with h | h
        · rcases List.mem_cons.mp h with h | h
          · subst h
            rename_i hcond
            rw [Classical.not_and_iff_or_not_not] at hcond
            rcases hcond with hcond | hcond
            · exact absurd rfl hcond
            · unfold Matrix.get
              rw [List.getD_of_length_le _ _ _ (Nat.le_of_not_lt hcond)]
          · exact absurd h hjl
        · exact h

/-- All entries the scan will read are nonnegative after the RELU pass. -/
theorem reluRows_nonneg (m : Matrix) (j : Nat) (hj : j < m.nrows) :
    0 ≤ (m.reluRows.get j 0) := by
  unfold Matrix.reluRows
  exact reluFold_nonneg _ m j (Or.inl (List.mem_range.mpr hj))

theorem reluRows_nrows (m : Matrix) : m.reluRows.nrows = m.nrows :=
  (reluFold_dims _ m).1

theorem reluRows_ncols (m : Matrix) : m.reluRows.ncols = m.ncols :=
  (reluFold_dims _ m).2

theorem List.get?_eq_some_getD {α : Type} (l : List α) (i : Nat) (d : α) (h : i < l.length) :
    l.get? i = some (l.getD i d) := by
  simp [List.getD, List.get?_eq_getElem?, List.getElem?_eq_getElem h]

/-- One layer of the forward pass succeeds on a well-shaped network, keeps it
well shaped, touches only activation `l+1`, and leaves that activation
nonnegative in every row the scan can read. -/
theorem forwardStep_wf (nn : NeuralNet) (sizes : List Nat) (l : Nat)
    (hwf : nn.wfSizes sizes) (hl : l < sizes.length - 1) :
    ∃ nn2, nn.forwardStep l = some nn2 ∧ nn2.wfSizes sizes ∧
      nn2.num_layers = nn.num_layers ∧
      (∀ k, k ≠ l + 1 → nn2.activations.getD k mdef = nn.activations.getD k mdef) ∧
      (∀ j, j < sizes.getD (l + 1) 0 → 0 ≤ ((nn2.activations.getD (l + 1) mdef).get j 0)) := by
  obtain ⟨hnl, hlen2, hwl, hbl, hal, hwb, hact⟩ := hwf
  obtain ⟨hw1, hw2, hb1, hb2⟩ := hwb l hl
  have hlw : l < nn.weights.length := by omega
  have hlb : l < nn.biases.length := by omega
  have hla : l < nn.activations.length := by omega
  have hl1a : l + 1 < nn.activations.length := by omega
  have hl1s : l + 1 < sizes.length := by omega
  have hls : l < sizes.length := by omega
  obtain ⟨ha1, ha2⟩ := hact l hls
  set w := nn.weights.getD l mdef with hwdef
  set a := nn.activations.getD l mdef with hadef
  set b := nn.biases.getD l mdef with hbdef
  have hmult : w.mult a = some ⟨(List.range w.nrows).flatMap (fun i =>
      (List.range a.ncols).map (fun j =>
        ((List.range w.ncols).map (fun k => w.get i k * a.get k j)).sum)),
    w.nrows, a.ncols⟩ := by
    unfold Matrix.mult
    rw [if_neg]
    rw [hw2, ha1]
    exact fun h => h rfl
  set m1 : Matrix := ⟨(List.range w.nrows).flatMap (fun i =>
      (List.range a.ncols).map (fun j =>
        ((List.range w.ncols).map (fun k => w.get i k * a.get k j)).sum)),
    w.nrows, a.ncols⟩ with hm1def
  have hadd : m1.add b = some ⟨(List.range m1.nrows).flatMap (fun i =>
      (List.range m1.ncols).map (fun j => m1.get i j + b.get i j)),
    m1.nrows, m1.ncols⟩ := by
    unfold Matrix.add
    rw [if_neg]
    intro hor
    rcases hor with h | h
    · rw [show m1.ncols = a.ncols from rfl, ha2, hb2] at h
      exact h rfl
    · rw [show m1.nrows = w.nrows from rfl, hw1, hb1] at h
      exact h rfl
  set m2 : Matrix := ⟨(List.range m1.nrows).flatMap (fun i =>
      (List.range m1.ncols).map (fun j => m1.get i j + b.get i j)),
    m1.nrows, m1.ncols⟩ with hm2def
  have hstep : nn.forwardStep l =
      some { nn with activations := nn.activations.set (l + 1) m2.reluRows } := by
    unfold NeuralNet.forwardStep
    rw [List.get?_eq_some_getD nn.weights l mdef hlw]
    rw [List.get?_eq_some_getD nn.activations l mdef hla]
    rw [List.get?_eq_some_getD nn.biases l mdef hlb]
    rw [← hwdef, ← hadef, ← hbdef]
    simp only [Option.bind_eq_bind, Option.some_bind, hmult, hadd, ← hm1def, ← hm2def]
    rw [if_pos hl1a]
  have hm2rows : m2.nrows = sizes.getD (l + 1) 0 := by
    show m1.nrows = _
    show w.nrows = _
    rw [hw1]
  have hm2cols : m2.ncols = 1 := by
    show m1.ncols = _
    show a.ncols = _
    rw [ha2]
  have hgetD1 : ({ nn with activations := nn.activations.set (l + 1) m2.reluRows} :
      NeuralNet).activations.getD (l + 1) mdef = m2.reluRows := by
    show (nn.activations.set (l + 1) m2.reluRows).getD (l + 1) mdef = m2.reluRows
    rw [List.getD_set_char]
    rw [if_pos ⟨rfl, hl1a⟩]
  have hgetDk : ∀ k, k ≠ l + 1 → ({ nn with
      activations := nn.activations.set (l + 1) m2.reluRows} :
      NeuralNet).activations.getD k mdef = nn.activations.getD k mdef := by
    intro k hk
    show (nn.activations.set (l + 1) m2.reluRows).getD k mdef = _
    rw [List.getD_set_char]
    rw [if_neg]
    intro hcond
    exact hk hcond.1.symm
  refine ⟨_, hstep, ?_, rfl, hgetDk, ?_⟩
  · refine ⟨hnl, hlen2, hwl, hbl, ?_, hwb, ?_⟩
    · show (nn.activations.set (l + 1) m2.reluRows).length = sizes.length
      rw [List.length_set]
      exact hal
    · intro k hk
      by_cases hkeq : k = l + 1
      · subst hkeq
        rw [hgetD1, reluRows_nrows, reluRows_ncols, hm2rows, hm2cols]
        exact ⟨rfl, rfl⟩
      · rw [hgetDk k hkeq]
        exact hact k hk
  · intro j hj
    rw [hgetD1]
    refine reluRows_nonneg m2 j ?_
    rw [hm2rows]
    exact hj

/-- The layer loop of `evaluate_network` up to step `k` succeeds and leaves
all computed activation layers nonnegative. -/
theorem forwardFold_wf (nn : NeuralNet) (sizes : List Nat) (hwf : nn.wfSizes sizes)
    (k : Nat) (hk : k ≤ sizes.length - 1) :
    ∃ nn2, (List.range k).foldlM NeuralNet.forwardStep nn = some nn2 ∧
      nn2.wfSizes sizes ∧ nn2.num_layers = nn.num_layers ∧
      (∀ l2, 1 ≤ l2 → l2 ≤ k → ∀ j, j < sizes.getD l2 0 →
        0 ≤ ((nn2.activations.getD l2 mdef).get j 0)) := by
  induction k with
  | zero => exact ⟨nn, rfl, hwf, rfl, fun l2 h1 h2 => absurd (Nat.le_trans h1 h2) (by omega)⟩
  | succ k ih =>
    obtain ⟨nn1, hfold, hwf1, hnum1, hnonneg1⟩ := ih (by omega)
    obtain ⟨nn2, hstep, hwf2, hnum2, huntouched, hnonneg2⟩ :=
      forwardStep_wf nn1 sizes k hwf1 (by omega)
    refine ⟨nn2, ?_, hwf2, by rw [hnum2, hnum1], ?_⟩
    · rw [List.range_succ, List.foldlM_append, hfold]
      simp only [Option.bind_eq_bind, Option.some_bind, List.foldlM_cons, hstep, List.foldlM_nil]
      rfl
    · intro l2 h1 h2 j hj
      by_cases hcase : l2 = k + 1
      · subst hcase
        exact hnonneg2 j hj
      · rw [huntouched l2 hcase]
        exact hnonneg1 l2 h1 (by omega) j hj

/-- Full characterization of `evaluate_network` on a well-shaped network
with nonempty output layer: it succeeds and returns the greatest index
attaining the maximum of the (nonnegative, post-RELU) output activations —
every other activation is at most the winner, and activations after the
winner are strictly below it. -/
theorem evaluate_network_char (nn : NeuralNet) (sizes : List Nat) (hwf : nn.wfSizes sizes)
    (hout : 0 < sizes.getD (sizes.length - 1) 0) :
    ∃ idx nn2, nn.evaluate_network = some (idx, nn2) ∧
      nn2.wfSizes sizes ∧
      (let out := nn2.activations.getD (nn2.num_layers - 1) mdef
       out.nrows = sizes.getD (sizes.length - 1) 0 ∧
       idx < out.nrows ∧
       (∀ i, i < out.nrows → out.get i 0 ≤ out.get idx 0) ∧
       (∀ i, idx < i → i < out.nrows → out.get i 0 < out.get idx 0)) := by
  have hlen2 := hwf.2.1
  obtain ⟨nn2, hfold, hwf2, hnum2, hnonneg⟩ :=
    forwardFold_wf nn sizes hwf (sizes.length - 1) (le_refl _)
  have hnum : nn.num_layers = sizes.length := hwf.1
  have hanum : nn2.activations.length = sizes.length := hwf2.2.2.2.2.1
  have hlast : sizes.length - 1 < sizes.length := by omega
  set out := nn2.activations.getD (sizes.length - 1) mdef with houtdef
  obtain ⟨hao1, hao2⟩ := hwf2.2.2.2.2.2.2 (sizes.length - 1) hlast
  have hnonneg_out : ∀ i, i < out.nrows → 0 ≤ out.get i 0 := by
    intro i hi
    refine hnonneg (sizes.length - 1) (by omega) (le_refl _) i ?_
    rw [← hao1]
    exact hi
  obtain ⟨j, hscan, hj1, hj2, hj3⟩ :=
    maxScan_nonneg_some (fun i => out.get i 0) out.nrows (by rw [hao1]; exact hout)
      (fun i hi => hnonneg_out i hi)
  refine ⟨j, nn2, ?_, hwf2, ?_⟩
  · unfold NeuralNet.evaluate_network
    rw [if_neg (by omega)]
    rw [hnum, hfold]
    simp only [Option.bind_eq_bind, Option.some_bind]
    rw [hnum2, hnum]
    rw [List.get?_eq_some_getD nn2.activations (sizes.length - 1) mdef (by omega)]
    simp only [Option.some_bind]
    rw [outputScan_eq_maxScan, ← houtdef, hscan]
    rfl
  · rw [hnum2, hnum]
    exact ⟨hao1, hj1, hj2, hj3⟩

/-! ### Claim C2 -/

/-- C2 counterexample: in `tieBrain` both output neurons hold post-RELU
activation 3 — a tie — and the action at the lowest output index is `Stay`,
yet `get_next_action` returns `MoveForwards`, the action at the highest tied
index.  The claimed lowest-index tie-break is therefore false on the code
(the scan uses `act >= max_act`, so later indices capture ties). -/
theorem c2_tiebreak_counterexample :
    (Brain.get_next_action tieBrain).map Prod.fst = some CreatureActions.MoveForwards ∧
    (tieBrain.net.evaluate_network).map
      (fun p => ((p.2.activations.getD 1 mdef).get 0 0,
                 (p.2.activations.getD 1 mdef).get 1 0)) = some ((3 : ℚ), (3 : ℚ)) ∧
    tieBrain.output_node_types.getD 0 CreatureActions.Kill = CreatureActions.Stay ∧
    CreatureActions.MoveForwards ≠ CreatureActions.Stay := by
  refine ⟨?_, ?_, by decide, by decide⟩ <;>
  norm_num [tieBrain, Brain.get_next_action, NeuralNet.evaluate_network, NeuralNet.forwardStep,
    Matrix.mult, Matrix.add, Matrix.reluRows, NeuralNet.outputScan, Matrix.get, Matrix.set,
    NeuralNet.relu, mdef, List.range_succ, List.range_zero, List.foldlM_cons, List.foldlM_nil,
    List.foldl_cons, List.foldl_nil, List.getD, List.get?, Option.bind, List.flatMap]

/-- C2 amended: for every well-formed brain state, `get_next_action` returns
the action bound to the output neuron holding the strictly largest post-RELU
activation, and when several output neurons share the maximum activation the
tie is broken by the HIGHEST output index: the winning index `j` dominates
every index weakly and every later index strictly. -/
theorem c2_amended_tiebreak (b : Brain) (sizes : List Nat) (hwf : b.wf sizes) :
    ∃ (j : Nat) (a : CreatureActions) (b2 : Brain),
      b.get_next_action = some (a, b2) ∧
      b.output_node_types.get? j = some a ∧
      (let out := b2.net.activations.getD (b2.net.num_layers - 1) mdef
       j < out.nrows ∧
       (∀ i, i < out.nrows → out.get i 0 ≤ out.get j 0) ∧
       (∀ i, j < i → i < out.nrows → out.get i 0 < out.get j 0)) := by
  obtain ⟨hnet, hpos, hlen⟩ := hwf
  obtain ⟨idx, nn2, heval, hwf2, hprops⟩ := evaluate_network_char b.net sizes hnet hpos
  obtain ⟨hrows, hidx, hle, hlt⟩ := hprops
  have hidxlen : idx < b.output_node_types.length := by
    rw [hlen, ← hrows]
    exact hidx
  refine ⟨idx, b.output_node_types.getD idx CreatureActions.Stay, { b with net := nn2 }, ?_, ?_, ?_⟩
  · unfold Brain.get_next_action
    rw [heval]
    simp only [Option.bind_eq_bind, Option.some_bind]
    rw [List.get?_eq_some_getD b.output_node_types idx CreatureActions.Stay hidxlen]
    rfl
  · exact List.get?_eq_some_getD _ _ _ hidxlen
  · exact ⟨hidx, hle, hlt⟩

/-- Witness for the amended C2 theorem at the concrete tied brain. -/
theorem c2_amended_tiebreak_witness :
    ∃ (j : Nat) (a : CreatureActions) (b2 : Brain),
      tieBrain.get_next_action = some (a, b2) ∧
      tieBrain.output_node_types.get? j = some a ∧
      (let out := b2.net.activations.getD (b2.net.num_layers - 1) mdef
       j < out.nrows ∧
       (∀ i, i < out.nrows → out.get i 0 ≤ out.get j 0) ∧
       (∀ i, j < i → i < out.nrows → out.get i 0 < out.get j 0)) :=
  c2_amended_tiebreak tieBrain [1, 2] (by unfold Brain.wf NeuralNet.wfSizes; decide)

/-! ### Claim C10 -/

/-- C10: on every well-formed brain (in particular every brain the
constructors build, whose output layer is the nonempty enabled-actions list),
the `unwrap` inside `get_next_action` cannot panic: `evaluate_network`
returns `Ok` — post-RELU output activations are all nonnegative and the scan
(max initialized to zero, comparison `act >= max_act`) captures an index on
the very first output node — and the subsequent action lookup succeeds
too. -/
theorem c10_get_next_action_no_panic (b : Brain) (sizes : List Nat) (hwf : b.wf sizes) :
    (b.net.evaluate_network).isSome ∧ (b.get_next_action).isSome := by
  obtain ⟨hnet, hpos, hlen⟩ := hwf
  obtain ⟨idx, nn2, heval, _hwf2, hprops⟩ := evaluate_network_char b.net sizes hnet hpos
  obtain ⟨hrows, hidx, _⟩ := hprops
  have hidxlen : idx < b.output_node_types.length := by
    rw [hlen, ← hrows]
    exact hidx
  constructor
  · rw [heval]
    rfl
  · unfold Brain.get_next_action
    rw [heval]
    simp only [Option.bind_eq_bind, Option.some_bind]
    rw [List.get?_eq_some_getD b.output_node_types idx CreatureActions.Stay hidxlen]
    rfl

/-- Witness for the C10 theorem at a concrete well-formed brain. -/
theorem c10_get_next_action_no_panic_witness :
    (oneOutBrain.net.evaluate_network).isSome ∧ (oneOutBrain.get_next_action).isSome :=
  c10_get_next_action_no_panic oneOutBrain [1, 1] (by unfold Brain.wf NeuralNet.wfSizes; decide)

/-! ### Claim C3 -/

/-- C3: the bounds invariant is violated by the code.  A creature with legal
state (energy 100 of at most 200, age 5) whose configured reproduce cost is
200 takes the forced-reproduce branch, whose *unchecked* `energy -=` wraps:
the resulting energy is `2^64 - 100`, far above `MAX_POSSIBLE_ENERGY` (in
debug builds the same subtraction panics). -/
theorem c3_energy_bound_violated :
    (c3Creature.perform_next_action).map (fun p => (p.1, p.2.energy)) =
      some (CreatureActions.Reproduce, 2 ^ 64 - 100) ∧
    MAX_POSSIBLE_ENERGY < 2 ^ 64 - 100 := by
  constructor
  · rfl
  · decide

/-! ### Claim C4 -/

/-- C4 counterexample: a creature with energy 50 (above the threshold 41)
and configured reproduce cost 60 returns `Reproduce` but its energy does not
decrease by the cost — the unchecked debit wraps to `2^64 - 10`, whereas a
decrease by exactly 60 would satisfy `energy' + 60 = 50`. -/
theorem c4_reproduce_debit_counterexample :
    (c4Creature.perform_next_action).map (fun p => (p.1, p.2.energy)) =
      some (CreatureActions.Reproduce, 2 ^ 64 - 10) ∧
    ¬((2 ^ 64 - 10) + 60 = 50) := by
  constructor
  · rfl
  · decide

/-- C4 amended: for every living creature whose age increment stays below
the maximum age and whose energy exceeds the fixed reproduce threshold,
`perform_next_action` returns `Reproduce` without evaluating the brain — the
result is the same for every brain `b`, which is returned untouched — and,
provided the configured reproduce cost does not exceed the current energy
(the condition the counterexample shows is necessary), the energy decreases
by exactly that cost; only age, energy and the recorded last action
change. -/
theorem c4_amended_forced_reproduce (c : Creature) (b : Brain)
    (h_en : DEFAULT_MIN_REPRODUCE_ENERGY < c.energy)
    (h_age : c.age + 1 < MAX_POSSIBLE_AGE)
    (h_cost : c.params.reproduce_energy_cost ≤ c.energy) :
    Creature.perform_next_action { c with brain := b } =
      some (CreatureActions.Reproduce,
        { c with
            brain := b
            age := c.age + 1
            energy := c.energy - c.params.reproduce_energy_cost
            last_action := CreatureActions.Reproduce }) := by
  have h_age2 : c.age < MAX_POSSIBLE_AGE := by omega
  have h_en0 : 0 < c.energy := by
    have : (41 : Nat) ≤ DEFAULT_MIN_REPRODUCE_ENERGY := by decide
    omega
  have hdead : ({ c with brain := b } : Creature).is_dead = false := by
    unfold Creature.is_dead
    simp only [Bool.not_eq_false', Bool.and_eq_true, decide_eq_true_eq]
    exact ⟨h_en0, h_age2⟩
  unfold Creature.perform_next_action
  rw [hdead]
  simp only [Bool.false_eq_true, if_false]
  rw [if_pos h_age2]
  rw [if_pos (show ({ c with brain := b, age := c.age + 1 } : Creature).energy >
    DEFAULT_MIN_REPRODUCE_ENERGY from h_en)]
  unfold uwsub
  rw [if_pos h_cost]

/-- Witness for the amended C4 theorem: a default-parameter creature with
energy 100 reproduces and pays exactly the default cost 40. -/
theorem c4_amended_forced_reproduce_witness :
    Creature.perform_next_action { c4wCreature with brain := dummyBrain } =
      some (CreatureActions.Reproduce,
        { c4wCreature with
            brain := dummyBrain
            age := c4wCreature.age + 1
            energy := c4wCreature.energy - c4wCreature.params.reproduce_energy_cost
            last_action := CreatureActions.Reproduce }) :=
  c4_amended_forced_reproduce c4wCreature dummyBrain (by decide) (by decide) (by decide)

/-! ### Claim C6 -/

/-- C6: the mutation identity law fails on the code.  With mutation
probability 0.0 there is an RNG outcome — every `gen::<f32>()` draw exactly
0.0, a value inside the generator's `[0,1)` range — on which
`apply_rand_mutations` overwrites scalars (the test is `draw <= prob`
although the comment above it says "less than"), so the copy is not
bit-identical: both the weight and the bias of the one-connection parent
change from (2, 5) to the fresh samples (7, 7). -/
theorem c6_mutation_identity_violated :
    (c6Net.apply_rand_mutations 0 c6Rng ⟨0, 0, 0⟩).map
      (fun p => (p.1.weights, p.1.biases)) =
      some ([(⟨[7], 1, 1⟩ : Matrix)], [(⟨[7], 1, 1⟩ : Matrix)]) ∧
    c6Net.weights ≠ [(⟨[7], 1, 1⟩ : Matrix)] ∧
    (0 : ℚ) ≤ c6Rng.coin 0 ∧ c6Rng.coin 0 < 1 := by
  refine ⟨?_, ?_, ?_, ?_⟩
  · norm_num [c6Net, c6Rng, NeuralNet.apply_rand_mutations, NeuralNet.mutLayer,
      NeuralNet.mutRow, drawCoin, drawVal, Matrix.set, mdef, List.range_succ,
      List.range_zero, List.foldlM_cons, List.foldlM_nil, List.foldl_cons,
      List.foldl_nil, List.getD, List.get?, Option.bind]
  · intro h
    have : ((⟨[2], 1, 1⟩ : Matrix)) = (⟨[7], 1, 1⟩ : Matrix) := by
      have h1 := congrArg (fun l => l.getD 0 mdef) h
      simp only [c6Net] at h1
      exact h1
    have h2 : (2 : ℚ) = 7 := by
      have h3 := congrArg (fun m => m.data.getD 0 0) this
      simp only [List.getD] at h3
      exact h3
    norm_num at h2
  · norm_num [c6Rng]
  · norm_num [c6Rng]

/-! ### Claim C9 -/

theorem histState_remove_all_creatures (E : EnvironmentV1) :
    histState E.remove_all_creatures = histState E := rfl

theorem histState_remove_all_walls (E : EnvironmentV1) :
    histState E.remove_all_walls = histState E := rfl

theorem histState_remove_all_food (E : EnvironmentV1) :
    histState E.remove_all_food = histState E := rfl

theorem histState_update_creature_positions (E : EnvironmentV1) :
    histState E.update_creature_positions = histState E := rfl

theorem histState_add_food_from_positions (E src : EnvironmentV1) :
    histState (E.add_food_from_positions src) = histState E := rfl

theorem histState_add_walls_from_positions (E src : EnvironmentV1) :
    histState (E.add_walls_from_positions src) = histState E := by
  unfold EnvironmentV1.add_walls_from_positions
  split <;> rfl

/-- `load_from_json` never writes the target's time step, total-creature
counter, kill counter or natural-death counter, whatever the selectors say:
none of its import stages touches them. -/
theorem load_from_json_keeps_history (cur temp : EnvironmentV1) (ops : JsonEnvLoadParams) :
    histState (cur.load_from_json temp ops) = histState cur := by
  unfold EnvironmentV1.load_from_json
  simp only [apply_ite histState, histState_remove_all_creatures, histState_remove_all_walls,
    histState_remove_all_food, histState_update_creature_positions,
    histState_add_food_from_positions, histState_add_walls_from_positions]
  repeat' (first | rfl | split)

/-- C9: the serialization round trip is not the identity.  Loading the saved
snapshot of an environment that has reached time step 5 with 3 kills, 2
natural deaths and 9 total creatures into a fresh environment — with every
selector enabled, including the (never consulted) `load_all` — leaves the
fresh environment's time step and counters at 0: `load_from_json` imports
parameters, creatures, walls and food but never `time_step`,
`num_total_creatures`, `num_kills` or `num_natural_deaths`. -/
theorem c9_round_trip_drops_history :
    (c9CurEnv.load_from_json c9LoadedEnv.to_json allLoadOps).time_step = 0 ∧
    (c9CurEnv.load_from_json c9LoadedEnv.to_json allLoadOps).num_kills = 0 ∧
    (c9CurEnv.load_from_json c9LoadedEnv.to_json allLoadOps).num_natural_deaths = 0 ∧
    (c9CurEnv.load_from_json c9LoadedEnv.to_json allLoadOps).num_total_creatures = 0 ∧
    c9LoadedEnv.time_step = 5 ∧ c9LoadedEnv.num_kills = 3 ∧
    c9LoadedEnv.num_natural_deaths = 2 ∧ c9LoadedEnv.num_total_creatures = 9 :=
  ⟨rfl, rfl, rfl, rfl, rfl, rfl, rfl, rfl⟩

/-! ### Claim C8 -/

/-- On a board without a single blank cell the retry loop of
`get_rand_blank_space` can only fail, for any fuel and any RNG outcome. -/
theorem randBlankLoop_none_of_no_blank (E : EnvironmentV1) (r : Rng)
    (h : ∀ x y, E.positions x y ≠ SpaceStates.BlankSpace) :
    ∀ fuel t, E.randBlankLoop r fuel t = none := by
  intro fuel
  induction fuel with
  | zero => intro t; rfl
  | succ fuel ih =>
    intro t
    unfold EnvironmentV1.randBlankLoop
    unfold drawNatLt
    by_cases hx : E.params.env_x_size = 0
    · rw [if_pos hx]
      rfl
    · rw [if_neg hx]
      simp only [Option.bind_eq_bind, Option.some_bind]
      by_cases hy : E.params.env_y_size = 0
      · rw [if_pos hy]
        rfl
      · rw [if_neg hy]
        simp only [Option.some_bind]
        rcases hcell : E.positions (r.nat t.n % E.params.env_x_size)
            (r.nat (t.n + 1) % E.params.env_y_size) with _ | cid | _ | _ | ttl
        · exact absurd hcell (h _ _)
        · exact ih _
        · exact ih _
        · exact ih _
        · exact ih _

/-- C8 counterexample: `get_rand_blank_space` — the random blank-cell search
used for creature, wall and food placement — does not yield silently when no
blank cell is found within its attempt budget: its watchdog panics (the
`none` outcome of the model).  On the full 1-by-1 board the panic is reached
for every RNG outcome; here it is evaluated at one concrete outcome. -/
theorem c8_blank_search_panics :
    EnvironmentV1.get_rand_blank_space full1x1Env c8Rng ⟨0, 0, 0⟩ = none := by
  refine randBlankLoop_none_of_no_blank full1x1Env c8Rng ?_ 10001 ⟨0, 0, 0⟩
  intro x y
  simp only [full1x1Env]
  exact fun hcontra => SpaceStates.noConfusion hcontra

/-- C8 amended: the two searches behave differently on exhaustion.  The
bounded-radius offspring search yields a silent `None` and `advance_step`
then simply drops the offspring and completes the tick (on the full 1-by-1
board a forced reproduction queues a child, no blank cell is found, and the
step still finishes with the parent alone, its clock advanced); the global
random blank-cell search instead panics out of its watchdog. -/
theorem c8_amended_exhaustion_behaviour :
    ((c8ReproEnv.advance_step c8Rng).map
      (fun E2 => (E2.creatures.map (fun c => c.id), E2.time_step))) = some ([0], 1) ∧
    (EnvironmentV1.get_blank_space_at_point c8ReproEnv ⟨0, 0⟩ c8Rng ⟨0, 0, 0⟩).1 = none ∧
    EnvironmentV1.get_rand_blank_space full1x1Env c8Rng ⟨0, 0, 0⟩ = none := by
  refine ⟨by decide, by decide, ?_⟩
  refine randBlankLoop_none_of_no_blank full1x1Env c8Rng ?_ 10001 ⟨0, 0, 0⟩
  intro x y
  simp only [full1x1Env]
  exact fun hcontra => SpaceStates.noConfusion hcontra

/-! ### Claim C5 -/

theorem apply_rotation_keeps (c : Creature) (a : CreatureActions) :
    (c.apply_rotation a).energy = c.energy ∧ (c.apply_rotation a).params = c.params ∧
    (c.apply_rotation a).position = c.position ∧ (c.apply_rotation a).id = c.id ∧
    (c.apply_rotation a).is_alive = c.is_alive ∧ (c.apply_rotation a).age = c.age ∧
    (c.apply_rotation a).killed = c.killed ∧
    (c.apply_rotation a).vision_state = c.vision_state ∧
    (c.apply_rotation a).brain = c.brain ∧
    (c.apply_rotation a).last_action = c.last_action := by
  unfold Creature.apply_rotation
  rcases c with ⟨p, b, i, al, k, pos, o, en, v, ag, col, ra, la, it, ot⟩
  cases o <;> cases a <;> exact ⟨rfl, rfl, rfl, rfl, rfl, rfl, rfl, rfl, rfl, rfl⟩

/-- When `perform_next_action` hands the environment a `Kill`, the only
energy change is the kill-action cost debit: this is the debit clause of the
kill rule. -/
theorem perform_kill_debits (c c3 : Creature)
    (h : c.perform_next_action = some (CreatureActions.Kill, c3)) :
    c3.energy = c.energy - c.params.kill_energy_cost := by
  unfold Creature.perform_next_action at h
  by_cases hdead : c.is_dead = true
  · rw [if_pos hdead] at h
    simp only [Option.some.injEq, Prod.mk.injEq] at h
    exact absurd h.1 (by decide)
  · rw [if_neg hdead] at h
    by_cases hage : c.age < MAX_POSSIBLE_AGE
    · rw [if_pos hage] at h
      by_cases hrep : ({ c with age := c.age + 1 } : Creature).energy > DEFAULT_MIN_REPRODUCE_ENERGY
      · rw [if_pos hrep] at h
        simp only [Option.some.injEq, Prod.mk.injEq] at h
        exact absurd h.1 (by decide)
      · rw [if_neg hrep] at h
        rcases hbrain : ({ c with age := c.age + 1 } : Creature).brain.get_next_action with _ | res
        · rw [hbrain] at h
          exact Option.noConfusion h
        · rw [hbrain] at h
          simp only [Option.bind_eq_bind, Option.some_bind] at h
          rcases res with ⟨action, b2⟩
          dsimp only at h
          cases action <;>
            (split at h <;> simp only [Option.some.injEq, Prod.mk.injEq] at h) <;>
            try exact absurd h.1 (by decide)
          rw [← h.2]
          obtain ⟨he, hp, _⟩ := apply_rotation_keeps
            ({ c with age := c.age + 1, brain := b2, last_action := CreatureActions.Kill } :
              Creature) CreatureActions.Kill
          dsimp only
          rw [he, hp]
    · rw [if_neg hage] at h
      simp only [Option.some.injEq, Prod.mk.injEq] at h
      exact absurd h.1 (by decide)

/-- C5: the kill adjacency rule.  (1) When the attacker's current vision
reading has something in view at distance 1 that is a creature cell, the
victim resolves and is not already dead, the kill succeeds: the victim is
overwritten by `kill` (energy zero, not alive, marked killed-by-other — part
2) and the attacker eats the per-kill energy, capped at the maximum (part
3), and nothing else changes.  (4) Without an in-view creature at distance 1
the environment is returned unchanged, (5) likewise when the victim is
already dead.  (6) The only state change `Kill` otherwise causes is the
attacker's kill-cost debit inside `perform_next_action`. -/
theorem c5_kill_adjacency (E : EnvironmentV1) (idx : Nat) (c2 : Creature) :
    (∀ vcid vidx victim,
      c2.vision_state.obj_in_view = true →
      c2.vision_state.dist = 1 →
      c2.vision_state.space_type = SpaceStates.CreatureSpace vcid →
      E.get_creature_idx_from_id vcid = some vidx →
      E.creatures.get? vidx = some victim →
      victim.is_dead = false →
      E.resolveKill idx c2 = some (killEffect E idx vidx victim)) ∧
    (∀ v : Creature, v.kill.energy = 0 ∧ v.kill.is_alive = false ∧ v.kill.killed = true) ∧
    (∀ (a : Creature) (amt : Nat),
      ((a.eat_food amt).set_killer).energy = min MAX_POSSIBLE_ENERGY (uadd a.energy amt)) ∧
    (¬(c2.vision_state.obj_in_view = true ∧ c2.vision_state.dist = 1) →
      E.resolveKill idx c2 = some E) ∧
    (∀ vcid vidx victim,
      c2.vision_state.space_type = SpaceStates.CreatureSpace vcid →
      E.get_creature_idx_from_id vcid = some vidx →
      E.creatures.get? vidx = some victim →
      victim.is_dead = true →
      E.resolveKill idx c2 = some E) ∧
    ((c2.vision_state.obj_in_view = true ∧ c2.vision_state.dist = 1) →
      (∀ vcid, c2.vision_state.space_type ≠ SpaceStates.CreatureSpace vcid) →
      E.resolveKill idx c2 = some E) ∧
    (∀ c c3 : Creature, c.perform_next_action = some (CreatureActions.Kill, c3) →
      c3.energy = c.energy - c.params.kill_energy_cost) := by
  refine ⟨?_, ?_, ?_, ?_, ?_, ?_, fun c c3 h => perform_kill_debits c c3 h⟩
  · intro vcid vidx victim h1 h2 h3 h4 h5 h6
    unfold EnvironmentV1.resolveKill
    rw [if_pos ⟨h1, h2⟩, h3]
    dsimp only
    rw [h4]
    simp only [Option.bind_eq_bind, Option.some_bind]
    rw [h5]
    simp only [Option.some_bind]
    rw [if_neg (by rw [h6]; exact Bool.false_ne_true)]
    rfl
  · intro v
    exact ⟨rfl, rfl, rfl⟩
  · intro a amt
    unfold Creature.eat_food Creature.set_killer
    rw [show COLOR_MODE_VIOLENCE = false from rfl]
    by_cases hcap : uadd a.energy amt > MAX_POSSIBLE_ENERGY
    · rw [if_pos hcap]
      dsimp only [Bool.false_eq_true, if_false]
      exact (Nat.min_eq_left (Nat.le_of_lt hcap)).symm
    · rw [if_neg hcap]
      dsimp only [Bool.false_eq_true, if_false]
      exact (Nat.min_eq_right (Nat.le_of_not_lt hcap)).symm
  · intro hnot
    unfold EnvironmentV1.resolveKill
    rw [if_neg hnot]
  · intro vcid vidx victim h3 h4 h5 h6
    unfold EnvironmentV1.resolveKill
    by_cases hc : c2.vision_state.obj_in_view = true ∧ c2.vision_state.dist = 1
    · rw [if_pos hc, h3]
      dsimp only
      rw [h4]
      simp only [Option.bind_eq_bind, Option.some_bind]
      rw [h5]
      simp only [Option.some_bind]
      rw [if_pos h6]
    · rw [if_neg hc]
  · intro hc hnotcre
    unfold EnvironmentV1.resolveKill
    rw [if_pos hc]
    rcases hst : c2.vision_state.space_type with _ | vcid | _ | _ | ttl
    · rfl
    · exact absurd hst (hnotcre vcid)
    · rfl
    · rfl
    · rfl

/-- Witness for the kill rule: in the concrete two-creature environment the
attacker at index 0 sees creature 7 at distance 1; the kill succeeds with
exactly the stated effect. -/
theorem c5_kill_adjacency_witness :
    EnvironmentV1.resolveKill c5Env 0 c5Attacker = some (killEffect c5Env 0 1 c5Victim) :=
  (c5_kill_adjacency c5Env 0 c5Attacker).1 7 1 c5Victim rfl rfl rfl rfl rfl rfl

/-! ### Claim C7 -/

theorem new_from_vec_get_as_vec (c : CreatureColor) :
    CreatureColor.new_from_vec c.get_as_vec = c := by
  cases c
  rfl

theorem findIdx?_bind_get? {α : Type} (l : List α) (p : α → Bool) :
    (l.findIdx? p).bind (fun i => l.get? i) = l.find? p := by
  induction l with
  | nil => rfl
  | cons a l ih =>
    rw [List.findIdx?_cons]
    by_cases hpa : p a = true
    · rw [if_pos hpa, List.find?_cons_of_pos _ hpa]
      rfl
    · rw [if_neg hpa, List.find?_cons_of_neg _ hpa, List.findIdx?_succ, ← ih]
      cases hfi : l.findIdx? p with
      | none => rfl
      | some i => rfl

theorem window_succ_cons (a n : Nat) :
    ((List.range (n + 1)).map (fun i => a + 1 + i)) =
      (a + 1) :: ((List.range n).map (fun i => a + 1 + 1 + i)) := by
  have hf : ((fun i => a + 1 + i) ∘ Nat.succ) = (fun i => a + 1 + 1 + i) := by
    funext i
    simp only [Function.comp]
    omega
  rw [List.range_succ_eq_map, List.map_cons, List.map_map, hf]

theorem specWindow_none_of (E : EnvironmentV1) (o : CreatureOrientation) (cx cy j fuel : Nat)
    (h : ∀ k, j < k → visionHit E o cx cy k = false) :
    specWindow E o cx cy j fuel = some none := by
  unfold specWindow
  rw [List.find?_eq_none.mpr]
  intro k hk
  obtain ⟨i, _, hval⟩ := List.mem_map.mp hk
  rw [← hval, h (j + 1 + i) (by omega)]
  exact Bool.false_ne_true

theorem specWindow_succ_char (E : EnvironmentV1) (o : CreatureOrientation) (cx cy j fuel : Nat) :
    specWindow E o cx cy j (fuel + 1) =
      (if visionHit E o cx cy (j + 1) = true then
        specHitReading E (rayCell o cx cy (j + 1)).1.toNat (rayCell o cx cy (j + 1)).2.toNat (j + 1)
      else specWindow E o cx cy (j + 1) fuel) := by
  unfold specWindow
  rw [window_succ_cons]
  by_cases hhit : visionHit E o cx cy (j + 1) = true
  · rw [if_pos hhit, List.find?_cons_of_pos _ hhit]
  · rw [if_neg hhit, List.find?_cons_of_neg _ hhit]

/-- The cell check of the raycast agrees with the spec's search step: at the
in-bounds cell `j+1` steps out it either records exactly the spec's reading
or continues with the window after `j+1`. -/
theorem visionCellCheck_window (E : EnvironmentV1) (o : CreatureOrientation)
    (cx cy j fuel : Nat) (x y : Nat)
    (hcorr : (((x : Nat) : ℤ), ((y : Nat) : ℤ)) = rayCell o cx cy (j + 1))
    (hxb : x < E.params.env_x_size) (hyb : y < E.params.env_y_size) :
    E.visionCellCheck x y (j + 1) (specWindow E o cx cy (j + 1) fuel) =
      specWindow E o cx cy j (fuel + 1) := by
  have hxeq : (rayCell o cx cy (j + 1)).1 = (x : ℤ) := by rw [← hcorr]
  have hyeq : (rayCell o cx cy (j + 1)).2 = (y : ℤ) := by rw [← hcorr]
  have hxt : (rayCell o cx cy (j + 1)).1.toNat = x := by rw [hxeq]; exact Int.toNat_natCast x
  have hyt : (rayCell o cx cy (j + 1)).2.toNat = y := by rw [hyeq]; exact Int.toNat_natCast y
  have hhit : visionHit E o cx cy (j + 1) = !(seeThrough (E.positions x y)) := by
    unfold visionHit
    dsimp only
    rw [hxt, hyt]
    have hP : (0 : ℤ) ≤ (rayCell o cx cy (j + 1)).1 ∧
        (rayCell o cx cy (j + 1)).1 < (E.params.env_x_size : ℤ) ∧
        (0 : ℤ) ≤ (rayCell o cx cy (j + 1)).2 ∧
        (rayCell o cx cy (j + 1)).2 < (E.params.env_y_size : ℤ) := by
      rw [hxeq, hyeq]
      refine ⟨Int.natCast_nonneg x, ?_, Int.natCast_nonneg y, ?_⟩
      · exact_mod_cast hxb
      · exact_mod_cast hyb
    rw [decide_eq_true hP, Bool.true_and]
  rw [specWindow_succ_char, hxt, hyt]
  unfold EnvironmentV1.visionCellCheck
  rcases hcell : E.positions x y with _ | cid | _ | _ | ttl
  · rw [if_neg (by rw [hhit, hcell]; decide)]
  · rw [if_pos (by rw [hhit, hcell]; rfl)]
    unfold specHitReading EnvironmentV1.get_creature_idx_from_id
    simp only [hcell, Option.bind_eq_bind]
    rw [← Option.bind_assoc, findIdx?_bind_get?]
    cases hfind : E.creatures.find? (fun c => c.id = cid) with
    | none => rfl
    | some tgt =>
      simp only [Option.some_bind]
      rw [new_from_vec_get_as_vec]
  · rw [if_pos (by rw [hhit, hcell]; rfl)]
    unfold specHitReading
    simp only [hcell]
  · rw [if_pos (by rw [hhit, hcell]; rfl)]
    unfold specHitReading
    simp only [hcell]
  · rw [if_neg (by rw [hhit, hcell]; simp [seeThrough])]

theorem visionScan_succ (E : EnvironmentV1) (o : CreatureOrientation)
    (cx cy fuel xpos ypos : Nat) :
    E.visionScan o cx cy (fuel + 1) xpos ypos =
      match (match o with
        | CreatureOrientation.Up => if ypos = 0 then none else some (xpos, ypos - 1)
        | CreatureOrientation.Down => some (xpos, ypos + 1)
        | CreatureOrientation.Right => some (xpos + 1, ypos)
        | CreatureOrientation.Left => if xpos = 0 then none else some (xpos - 1, ypos)) with
      | none => some none
      | some (x, y) =>
          if x ≥ E.params.env_x_size ∨ y ≥ E.params.env_y_size then some none
          else
            E.visionCellCheck x y (((x : ℤ) - cx).natAbs + ((y : ℤ) - cy).natAbs)
              (E.visionScan o cx cy fuel x y) := rfl

theorem visionHit_false_of_out (E : EnvironmentV1) (o : CreatureOrientation) (cx cy k : Nat)
    (h : ¬((0 : ℤ) ≤ (rayCell o cx cy k).1 ∧
        (rayCell o cx cy k).1 < (E.params.env_x_size : ℤ) ∧
        (0 : ℤ) ≤ (rayCell o cx cy k).2 ∧
        (rayCell o cx cy k).2 < (E.params.env_y_size : ℤ))) :
    visionHit E o cx cy k = false := by
  unfold visionHit
  dsimp only
  rw [decide_eq_false h, Bool.false_and]

/-- The raycast of `update_creature_vision`, started at the in-bounds cell
`j` steps along the ray, computes the spec search over the window of step
counts `j+1 .. j+fuel`. -/
theorem visionScan_eq_specWindow (E : EnvironmentV1) (o : CreatureOrientation) (cx cy : Nat) :
    ∀ (fuel j xpos ypos : Nat),
      ((xpos : ℤ), (ypos : ℤ)) = rayCell o cx cy j →
      xpos < E.params.env_x_size → ypos < E.params.env_y_size →
      E.visionScan o cx cy fuel xpos ypos = specWindow E o cx cy j fuel := by
  intro fuel
  induction fuel with
  | zero =>
    intro j xpos ypos _ _ _
    rfl
  | succ fuel ih =>
    intro j xpos ypos hcorr hxb hyb
    rw [visionScan_succ]
    cases o with
    | Up =>
      simp only [rayCell, Prod.mk.injEq] at hcorr
      obtain ⟨hx, hy⟩ := hcorr
      dsimp only
      by_cases hy0 : ypos = 0
      · rw [if_pos hy0]
        refine Eq.symm (specWindow_none_of E _ cx cy j (fuel + 1) ?_)
        intro k hk
        refine visionHit_false_of_out E _ cx cy k ?_
        simp only [rayCell]
        intro hcon
        omega
      · rw [if_neg hy0]
        dsimp only
        rw [if_neg (by omega)]
        have hdist : (((xpos : ℤ) - cx).natAbs + (((ypos - 1 : Nat) : ℤ) - cy).natAbs) = j + 1 := by
          omega
        have hcorr2 : (((xpos : Nat) : ℤ), (((ypos - 1 : Nat) : Nat) : ℤ)) =
            rayCell CreatureOrientation.Up cx cy (j + 1) := by
          simp only [rayCell, Prod.mk.injEq]
          omega
        rw [hdist, ih (j + 1) xpos (ypos - 1) hcorr2 hxb (by omega)]
        exact visionCellCheck_window E _ cx cy j fuel xpos (ypos - 1) hcorr2 hxb (by omega)
    | Down =>
      simp only [rayCell, Prod.mk.injEq] at hcorr
      obtain ⟨hx, hy⟩ := hcorr
      dsimp only
      by_cases hedge : ypos + 1 ≥ E.params.env_y_size
      · rw [if_pos (Or.inr hedge)]
        refine Eq.symm (specWindow_none_of E _ cx cy j (fuel + 1) ?_)
        intro k hk
        refine visionHit_false_of_out E _ cx cy k ?_
        simp only [rayCell]
        intro hcon
        omega
      · rw [if_neg (by omega)]
        have hdist : (((xpos : ℤ) - cx).natAbs + (((ypos + 1 : Nat) : ℤ) - cy).natAbs) = j + 1 := by
          omega
        have hcorr2 : (((xpos : Nat) : ℤ), (((ypos + 1 : Nat) : Nat) : ℤ)) =
            rayCell CreatureOrientation.Down cx cy (j + 1) := by
          simp only [rayCell, Prod.mk.injEq]
          omega
        rw [hdist, ih (j + 1) xpos (ypos + 1) hcorr2 hxb (by omega)]
        exact visionCellCheck_window E _ cx cy j fuel xpos (ypos + 1) hcorr2 hxb (by omega)
    | Left =>
      simp only [rayCell, Prod.mk.injEq] at hcorr
      obtain ⟨hx, hy⟩ := hcorr
      dsimp only
      by_cases hx0 : xpos = 0
      · rw [if_pos hx0]
        refine Eq.symm (specWindow_none_of E _ cx cy j (fuel + 1) ?_)
        intro k hk
        refine visionHit_false_of_out E _ cx cy k ?_
        simp only [rayCell]
        intro hcon
        omega
      · rw [if_neg hx0]
        dsimp only
        rw [if_neg (by omega)]
        have hdist : ((((xpos - 1 : Nat) : ℤ) - cx).natAbs + ((ypos : ℤ) - cy).natAbs) = j + 1 := by
          omega
        have hcorr2 : ((((xpos - 1 : Nat) : Nat) : ℤ), (((ypos : Nat) : Nat) : ℤ)) =
            rayCell CreatureOrientation.Left cx cy (j + 1) := by
          simp only [rayCell, Prod.mk.injEq]
          omega
        rw [hdist, ih (j + 1) (xpos - 1) ypos hcorr2 (by omega) hyb]
        exact visionCellCheck_window E _ cx cy j fuel (xpos - 1) ypos hcorr2 (by omega) hyb
    | Right =>
      simp only [rayCell, Prod.mk.injEq] at hcorr
      obtain ⟨hx, hy⟩ := hcorr
      dsimp only
      by_cases hedge : xpos + 1 ≥ E.params.env_x_size
      · rw [if_pos (Or.inl hedge)]
        refine Eq.symm (specWindow_none_of E _ cx cy j (fuel + 1) ?_)
        intro k hk
        refine visionHit_false_of_out E _ cx cy k ?_
        simp only [rayCell]
        intro hcon
        omega
      · rw [if_neg (by omega)]
        have hdist : ((((xpos + 1 : Nat) : ℤ) - cx).natAbs + ((ypos : ℤ) - cy).natAbs) = j + 1 := by
          omega
        have hcorr2 : ((((xpos + 1 : Nat) : Nat) : ℤ), (((ypos : Nat) : Nat) : ℤ)) =
            rayCell CreatureOrientation.Right cx cy (j + 1) := by
          simp only [rayCell, Prod.mk.injEq]
          omega
        rw [hdist, ih (j + 1) (xpos + 1) ypos hcorr2 (by omega) hyb]
        exact visionCellCheck_window E _ cx cy j fuel (xpos + 1) ypos hcorr2 (by omega) hyb

/-- C7: the vision raycast of `update_creature_vision`, run from a creature
standing on an in-bounds cell, computes exactly the spec's declarative
search: step one cell at a time along the orientation, stopping at the grid
edge with no wrap-around, and at the first non-blank, non-fight cell within
the fixed maximum view distance record in-view with the step count as
distance, the space kind, and the palette colour for food and walls or the
seen creature's own colour for a creature; otherwise nothing is in view. -/
theorem c7_vision_raycast (E : EnvironmentV1) (o : CreatureOrientation) (cx cy : Nat)
    (hcx : cx < E.params.env_x_size) (hcy : cy < E.params.env_y_size) :
    E.visionScan o cx cy MAX_CREATURE_VIEW_DISTANCE cx cy = visionSpec E o cx cy := by
  unfold visionSpec
  refine visionScan_eq_specWindow E o cx cy MAX_CREATURE_VIEW_DISTANCE 0 cx cy ?_ hcx hcy
  cases o <;> simp [rayCell]

theorem c7_vision_raycast_witness :
    0 < full1x1Env.params.env_x_size ∧ 0 < full1x1Env.params.env_y_size ∧
      full1x1Env.visionScan CreatureOrientation.Up 0 0 MAX_CREATURE_VIEW_DISTANCE 0 0 =
        visionSpec full1x1Env CreatureOrientation.Up 0 0 :=
  ⟨by decide, by decide,
    c7_vision_raycast full1x1Env CreatureOrientation.Up 0 0 (by decide) (by decide)⟩

/-! ### Claim C1: generic list helpers -/

theorem foldlM_inv {α β : Type} (f : β → α → Option β) (P : β → Prop) :
    ∀ (l : List α), (∀ st a, a ∈ l → P st → ∀ st2, f st a = some st2 → P st2) →
    ∀ init out, l.foldlM f init = some out → P init → P out := by
  intro l
  induction l with
  | nil =>
    intro _ init out h hP
    rw [List.foldlM_nil] at h
    cases h
    exact hP
  | cons a l ih =>
    intro hstep init out h hP
    rw [List.foldlM_cons] at h
    cases hf : f init a with
    | none =>
      rw [hf] at h
      exact Option.noConfusion h
    | some b =>
      rw [hf] at h
      simp only [Option.bind_eq_bind, Option.some_bind] at h
      exact ih (fun st a2 ha2 hP2 st2 hf2 => hstep st a2 (List.mem_cons_of_mem a ha2) hP2 st2 hf2)
        b out h (hstep init a (List.mem_cons_self a l) hP b hf)

theorem foldl_inv {α β : Type} (f : β → α → β) (P : β → Prop) :
    ∀ (l : List α), (∀ st a, a ∈ l → P st → P (f st a)) →
    ∀ init, P init → P (l.foldl f init) := by
  intro l
  induction l with
  | nil => intro _ init hP; exact hP
  | cons a l ih =>
    intro hstep init hP
    rw [List.foldl_cons]
    exact ih (fun st a2 ha2 hP2 => hstep st a2 (List.mem_cons_of_mem a ha2) hP2)
      (f init a) (hstep init a (List.mem_cons_self a l) hP)

theorem foldlM_range_inv {β : Type} (f : β → Nat → Option β) (Q : Nat → β → Prop)
    (hstep : ∀ k st st2, Q k st → f st k = some st2 → Q (k + 1) st2) :
    ∀ n init out, (List.range n).foldlM f init = some out → Q 0 init → Q n out := by
  intro n
  induction n with
  | zero =>
    intro init out h hQ
    rw [List.range_zero, List.foldlM_nil] at h
    cases h
    exact hQ
  | succ n ih =>
    intro init out h hQ
    rw [List.range_succ, List.foldlM_append] at h
    cases hmid : (List.range n).foldlM f init with
    | none =>
      rw [hmid] at h
      exact Option.noConfusion h
    | some mid =>
      rw [hmid] at h
      simp only [Option.bind_eq_bind, Option.some_bind, List.foldlM_cons, List.foldlM_nil] at h
      cases hfin : f mid n with
      | none =>
        rw [hfin] at h
        exact Option.noConfusion h
      | some fin =>
        rw [hfin] at h
        simp only [Option.some_bind] at h
        cases h
        exact hstep n mid out (ih init mid hmid hQ) hfin

theorem get?_decomp {α : Type} : ∀ (l : List α) (i : Nat) (e : α), l.get? i = some e →
    ∃ p q, l = p ++ e :: q ∧ p.length = i ∧ ∀ b, l.set i b = p ++ b :: q := by
  intro l
  induction l with
  | nil => intro i e h; exact Option.noConfusion h
  | cons a t ih =>
    intro i e h
    cases i with
    | zero =>
      refine ⟨[], t, ?_, rfl, fun b => rfl⟩
      cases h
      rfl
    | succ i =>
      obtain ⟨p, q, hl, hlen, hset⟩ := ih i e h
      refine ⟨a :: p, q, by rw [List.cons_append, ← hl], by simp [hlen], fun b => ?_⟩
      rw [List.set_cons_succ, hset b, List.cons_append]

theorem modify_eq_get_set {α : Type} : ∀ (l : List α) (f : α → α) (i : Nat) (e : α),
    l.get? i = some e → List.modify f i l = l.set i (f e) := by
  intro l
  induction l with
  | nil => intro f i e h; exact Option.noConfusion h
  | cons a t ih =>
    intro f i e h
    cases i with
    | zero =>
      cases h
      simp [List.modify]
    | succ i =>
      have := ih f i e h
      simp only [List.modify] at this ⊢
      simp [List.modifyTailIdx, this]

theorem modify_out {α : Type} : ∀ (l : List α) (f : α → α) (i : Nat),
    l.get? i = none → List.modify f i l = l := by
  intro l
  induction l with
  | nil => intro f i _; cases i <;> rfl
  | cons a t ih =>
    intro f i h
    cases i with
    | zero => exact Option.noConfusion h
    | succ i =>
      have := ih f i h
      simp only [List.modify] at this ⊢
      simp [List.modifyTailIdx, this]

theorem nodup_map_id_eq (l : List Creature) (h : (l.map Creature.id).Nodup)
    {a b : Creature} (ha : a ∈ l) (hb : b ∈ l) (hid : a.id = b.id) : a = b :=
  List.inj_on_of_nodup_map h ha hb hid

/-! ### Claim C1: creature frame lemmas -/

theorem drawNatLt_lt (r : Rng) (t : RCtr) (b v : Nat) (t2 : RCtr)
    (h : drawNatLt r t b = some (v, t2)) : v < b := by
  unfold drawNatLt at h
  by_cases hb : b = 0
  · rw [if_pos hb] at h
    exact Option.noConfusion h
  · rw [if_neg hb] at h
    simp only [Option.some.injEq, Prod.mk.injEq] at h
    rw [← h.1]
    exact Nat.mod_lt _ (Nat.pos_of_ne_zero hb)

theorem sense_frame (c : Creature) :
    (c.sense_surroundings).id = c.id ∧ (c.sense_surroundings).position = c.position ∧
    (c.sense_surroundings).params = c.params ∧
    (c.sense_surroundings).vision_state = c.vision_state ∧
    (c.sense_surroundings).is_alive = c.is_alive ∧
    (c.sense_surroundings).is_dead = c.is_dead :=
  ⟨rfl, rfl, rfl, rfl, rfl, rfl⟩

theorem eat_frame (c : Creature) (n : Nat) :
    (c.eat_food n).id = c.id ∧ (c.eat_food n).position = c.position ∧
    (c.eat_food n).params = c.params ∧ (c.eat_food n).vision_state = c.vision_state ∧
    (c.eat_food n).is_alive = c.is_alive ∧ (c.eat_food n).age = c.age := by
  unfold Creature.eat_food
  split <;> exact ⟨rfl, rfl, rfl, rfl, rfl, rfl⟩

theorem set_killer_id (c : Creature) : c.set_killer = c := rfl

theorem armc_shape (c : Creature) (p : ℚ) (r : Rng) (t : RCtr) :
    ∃ col t3, c.apply_random_color_mutation p r t = ({ c with color := col }, t3) := by
  unfold Creature.apply_random_color_mutation
  dsimp only
  exact ⟨_, _, by rw [← apply_ite (fun col => ({ c with color := col } : Creature))]⟩

theorem armc_frame (c : Creature) (p : ℚ) (r : Rng) (t : RCtr) :
    (c.apply_random_color_mutation p r t).1.id = c.id ∧
    (c.apply_random_color_mutation p r t).1.position = c.position ∧
    (c.apply_random_color_mutation p r t).1.params = c.params ∧
    (c.apply_random_color_mutation p r t).1.vision_state = c.vision_state ∧
    (c.apply_random_color_mutation p r t).1.is_alive = c.is_alive ∧
    (c.apply_random_color_mutation p r t).1.energy = c.energy ∧
    (c.apply_random_color_mutation p r t).1.age = c.age := by
  obtain ⟨col, t3, hsh⟩ := armc_shape c p r t
  rw [hsh]
  exact ⟨rfl, rfl, rfl, rfl, rfl, rfl, rfl⟩

theorem new_offspring_frame (nid : Nat) (parent : Creature) (mp : ℚ) (r : Rng) (t : RCtr)
    (off : Creature) (t2 : RCtr)
    (h : Creature.new_offspring nid parent mp r t = some (off, t2)) :
    off.id = nid ∧ off.position = parent.position ∧ off.params = parent.params ∧
    off.is_alive = true ∧ off.energy = parent.params.starting_energy ∧ off.age = 0 ∧
    off.vision_state = defaultVision := by
  unfold Creature.new_offspring at h
  cases hb : Brain.new_copy parent.brain mp r t with
  | none =>
    rw [hb] at h
    exact Option.noConfusion h
  | some pr =>
    rw [hb] at h
    simp only [Option.bind_eq_bind, Option.some_bind] at h
    rcases pr with ⟨brain2, t3⟩
    rw [show COLOR_MODE_VIOLENCE = false from rfl] at h
    dsimp only [Bool.false_eq_true, if_false] at h
    have h := Option.some.inj h
    have hoff := congrArg Prod.fst h
    dsimp only at hoff
    rw [← hoff]
    obtain ⟨h1, h2, h3, h4, h5, h6, h7⟩ := armc_frame
      (⟨parent.params, brain2, nid, true, false, ⟨parent.position.x, parent.position.y⟩,
        parent.orientation, parent.params.starting_energy, defaultVision, 0,
        parent.color, DEFAULT_REPRODUCE_AGE, CreatureActions.Stay,
        parent.input_neuron_types, parent.output_neuron_types⟩ : Creature) mp r t3
    exact ⟨h1, h2, h3, h5, h6, h7, h4⟩

theorem perform_frame (c : Creature) (a : CreatureActions) (c2 : Creature)
    (h : c.perform_next_action = some (a, c2)) :
    c2.id = c.id ∧ c2.position = c.position ∧ c2.params = c.params ∧
    c2.vision_state = c.vision_state ∧
    (c2.is_dead = false → c.is_dead = false ∧ (c.is_alive = true → c2.is_alive = true)) := by
  unfold Creature.perform_next_action at h
  by_cases hdead : c.is_dead = true
  · rw [if_pos hdead] at h
    simp only [Option.some.injEq, Prod.mk.injEq] at h
    obtain ⟨_, h2⟩ := h
    subst h2
    exact ⟨rfl, rfl, rfl, rfl, fun hfalse => ⟨hfalse, fun hal => hal⟩⟩
  · rw [if_neg hdead] at h
    by_cases hage : c.age < MAX_POSSIBLE_AGE
    · rw [if_pos hage] at h
      by_cases hrep :
          ({ c with age := c.age + 1 } : Creature).energy > DEFAULT_MIN_REPRODUCE_ENERGY
      · rw [if_pos hrep] at h
        simp only [Option.some.injEq, Prod.mk.injEq] at h
        obtain ⟨_, h2⟩ := h
        subst h2
        refine ⟨rfl, rfl, rfl, rfl, fun _ => ⟨?_, fun hal => hal⟩⟩
        exact Bool.eq_false_iff.mpr hdead
      · rw [if_neg hrep] at h
        rcases hbrain : ({ c with age := c.age + 1 } : Creature).brain.get_next_action
          with _ | res
        · rw [hbrain] at h
          exact Option.noConfusion h
        · rw [hbrain] at h
          simp only [Option.bind_eq_bind, Option.some_bind] at h
          rcases res with ⟨action2, b2⟩
          dsimp only at h
          obtain ⟨he, hpar, hpos, hid, hal, hage2, hk, hvis, hbr, hla⟩ :=
            apply_rotation_keeps
              ({ c with age := c.age + 1, brain := b2, last_action := action2 } : Creature)
              action2
          split at h
          · rename_i hz
            simp only [Option.some.injEq, Prod.mk.injEq] at h
            obtain ⟨_, h2⟩ := h
            subst h2
            refine ⟨hid, hpos, hpar, hvis, fun hfalse => ?_⟩
            exfalso
            rw [Creature.is_dead] at hfalse
            dsimp only at hfalse
            rw [hz] at hfalse
            simp at hfalse
          · simp only [Option.some.injEq, Prod.mk.injEq] at h
            obtain ⟨_, h2⟩ := h
            subst h2
            refine ⟨hid, hpos, hpar, hvis,
              fun _ => ⟨Bool.eq_false_iff.mpr hdead, fun halv => ?_⟩⟩
            rw [hal]
            exact halv
    · rw [if_neg hage] at h
      simp only [Option.some.injEq, Prod.mk.injEq] at h
      obtain ⟨_, h2⟩ := h
      subst h2
      refine ⟨rfl, rfl, rfl, rfl, fun hfalse => ?_⟩
      exfalso
      rw [Creature.is_dead] at hfalse
      dsimp only at hfalse
      simp only [Bool.not_eq_false', Bool.and_eq_true, decide_eq_true_eq] at hfalse
      exact hage hfalse.2

/-! ### Claim C1: list surgery helpers -/

theorem set_get?_same {α : Type} : ∀ (l : List α) (n : Nat) (a : α),
    l.get? n = some a → l.set n a = l := by
  intro l
  induction l with
  | nil => intro n a h; exact Option.noConfusion h
  | cons b t ih =>
    intro n a h
    cases n with
    | zero =>
      cases h
      rfl
    | succ n =>
      rw [List.set_cons_succ, ih n a h]

theorem findIdx?_entry {α : Type} (p : α → Bool) :
    ∀ (l : List α) (base j : Nat), List.findIdx? p l base = some j →
    base ≤ j ∧ ∃ a, l.get? (j - base) = some a ∧ p a = true := by
  intro l
  induction l with
  | nil => intro base j h; exact Option.noConfusion h
  | cons b t ih =>
    intro base j h
    rw [List.findIdx?_cons] at h
    by_cases hp : p b = true
    · rw [if_pos hp] at h
      cases h
      exact ⟨Nat.le_refl _, b, by rw [Nat.sub_self]; rfl, hp⟩
    · rw [if_neg hp] at h
      rw [List.findIdx?_succ] at h
      cases hfi : List.findIdx? p t base with
      | none =>
        rw [hfi] at h
        exact Option.noConfusion h
      | some j0 =>
        rw [hfi] at h
        rw [show Option.map (fun i => i + 1) (some j0) = some (j0 + 1) from rfl] at h
        have h := Option.some.inj h
        obtain ⟨hle, a, hget, hpa⟩ := ih base j0 hfi
        refine ⟨by omega, a, ?_, hpa⟩
        rw [← h]
        have : j0 + 1 - base = (j0 - base) + 1 := by omega
        rw [this, List.get?_cons_succ]
        exact hget

theorem pairwise_mid {α : Type} (R : α → α → Prop) (p q : List α) (a b : α)
    (h : List.Pairwise R (p ++ a :: q))
    (h1 : ∀ x ∈ p, R x b) (h2 : ∀ x ∈ q, R b x) :
    List.Pairwise R (p ++ b :: q) := by
  rw [List.pairwise_append] at h ⊢
  obtain ⟨hp, haq, hcross⟩ := h
  rw [List.pairwise_cons] at haq ⊢
  refine ⟨hp, ⟨h2, haq.2⟩, ?_⟩
  intro x hx y hy
  rcases List.mem_cons.mp hy with hb | hq
  · rw [hb]
    exact h1 x hx
  · exact hcross x hx y (List.mem_cons_of_mem a hq)

theorem forall_mem_mid {α : Type} (P : α → Prop) (p q : List α) (a b : α)
    (h : ∀ c ∈ p ++ a :: q, P c) (hb : P b) : ∀ c ∈ p ++ b :: q, P c := by
  intro c hc
  rcases List.mem_append.mp hc with hcp | hcq
  · exact h c (List.mem_append.mpr (Or.inl hcp))
  · rcases List.mem_cons.mp hcq with hcb | hcq2
    · rw [hcb]
      exact hb
    · exact h c (List.mem_append.mpr (Or.inr (List.mem_cons_of_mem a hcq2)))

theorem exists_mem_mid_iff {α : Type} (P : α → Prop) (p q : List α) (a b : α)
    (hab : P a ↔ P b) :
    (∃ c ∈ p ++ a :: q, P c) ↔ (∃ c ∈ p ++ b :: q, P c) := by
  constructor
  · rintro ⟨c, hc, hPc⟩
    rcases List.mem_append.mp hc with hcp | hcq
    · exact ⟨c, List.mem_append.mpr (Or.inl hcp), hPc⟩
    · rcases List.mem_cons.mp hcq with hcb | hcq2
      · refine ⟨b, List.mem_append.mpr (Or.inr (List.mem_cons_self b q)), ?_⟩
        exact hab.mp (hcb ▸ hPc)
      · exact ⟨c, List.mem_append.mpr (Or.inr (List.mem_cons_of_mem b hcq2)), hPc⟩
  · rintro ⟨c, hc, hPc⟩
    rcases List.mem_append.mp hc with hcp | hcq
    · exact ⟨c, List.mem_append.mpr (Or.inl hcp), hPc⟩
    · rcases List.mem_cons.mp hcq with hcb | hcq2
      · refine ⟨a, List.mem_append.mpr (Or.inr (List.mem_cons_self a q)), ?_⟩
        exact hab.mpr (hcb ▸ hPc)
      · exact ⟨c, List.mem_append.mpr (Or.inr (List.mem_cons_of_mem a hcq2)), hPc⟩

theorem exists_mem_mid_iff_of_not {α : Type} (P : α → Prop) (p q : List α) (a b : α)
    (hna : ¬P a) (hnb : ¬P b) :
    (∃ c ∈ p ++ a :: q, P c) ↔ (∃ c ∈ p ++ b :: q, P c) := by
  constructor
  · rintro ⟨c, hc, hPc⟩
    rcases List.mem_append.mp hc with hcp | hcq
    · exact ⟨c, List.mem_append.mpr (Or.inl hcp), hPc⟩
    · rcases List.mem_cons.mp hcq with hcb | hcq2
      · exact absurd (hcb ▸ hPc) hna
      · exact ⟨c, List.mem_append.mpr (Or.inr (List.mem_cons_of_mem b hcq2)), hPc⟩
  · rintro ⟨c, hc, hPc⟩
    rcases List.mem_append.mp hc with hcp | hcq
    · exact ⟨c, List.mem_append.mpr (Or.inl hcp), hPc⟩
    · rcases List.mem_cons.mp hcq with hcb | hcq2
      · exact absurd (hcb ▸ hPc) hnb
      · exact ⟨c, List.mem_append.mpr (Or.inr (List.mem_cons_of_mem a hcq2)), hPc⟩

/-! ### Claim C1: invariant preservation, entry replacement and cell writes -/

/-- Replacing one creature-list entry by a creature with the same id,
position, parameters and vision preserves the invariant. -/
theorem envinv_set_entry_vok (E : EnvironmentV1) (i : Nat) (c0 c2 : Creature)
    (hget : E.creatures.get? i = some c0)
    (hid : c2.id = c0.id) (hpos : c2.position = c0.position)
    (hparams : c2.params = c0.params)
    (hvok2 : ∀ cid, c2.vision_state.space_type = SpaceStates.CreatureSpace cid →
      c2.vision_state.obj_in_view = true → cid ≠ c2.id)
    (halive : c2.is_dead = false → c2.is_alive = true)
    (hinv : EnvInv E) :
    EnvInv { E with creatures := E.creatures.set i c2 } := by
  obtain ⟨p, q, hdec, hlen, hset⟩ := get?_decomp E.creatures i c0 hget
  have hm0 : c0 ∈ E.creatures := List.get?_mem hget
  have huids := hinv.uids
  have hupos := hinv.upos
  have hinb := hinv.inb
  have hocc := hinv.occ
  have hbelow := hinv.below
  have hdp := hinv.dparams
  have halF := hinv.aliveF
  have hvk := hinv.vok
  rw [hdec] at huids hupos hinb hocc hbelow hdp halF hvk
  have hm0b : c0 ∈ p ++ c0 :: q := hdec ▸ hm0
  rw [hset c2]
  refine ⟨?_, ?_, ?_, ?_, ?_, ?_, ?_, ?_⟩
  · have hmaps : (p ++ c2 :: q).map Creature.id = (p ++ c0 :: q).map Creature.id := by
      simp [hid]
    rw [hmaps]
    exact huids
  · refine pairwise_mid _ p q c0 c2 hupos ?_ ?_
    · intro x hx hxc
      rw [hpos] at hxc
      exact (List.pairwise_append.mp hupos).2.2 x hx c0 (List.mem_cons_self c0 q) hxc
    · intro x hx hxc
      rw [hpos] at hxc
      exact ((List.pairwise_cons.mp (List.pairwise_append.mp hupos).2.1).1 x hx) hxc
  · refine forall_mem_mid _ p q c0 c2 hinb ?_
    rw [hpos]
    exact hinb c0 hm0b
  · intro x y hx hy cid
    refine (hocc x y hx hy cid).trans ?_
    refine exists_mem_mid_iff _ p q c0 c2 ?_
    rw [hid, hpos]
  · refine forall_mem_mid _ p q c0 c2 hbelow ?_
    rw [hid]
    exact hbelow c0 hm0b
  · refine forall_mem_mid _ p q c0 c2 hdp ?_
    rw [hparams]
    exact hdp c0 hm0b
  · exact forall_mem_mid _ p q c0 c2 halF halive
  · exact forall_mem_mid _ p q c0 c2 hvk hvok2

/-- Replacing one creature-list entry by a creature with the same id,
position, parameters and vision preserves the invariant. -/
theorem envinv_set_entry (E : EnvironmentV1) (i : Nat) (c0 c2 : Creature)
    (hget : E.creatures.get? i = some c0)
    (hid : c2.id = c0.id) (hpos : c2.position = c0.position)
    (hparams : c2.params = c0.params) (hvis : c2.vision_state = c0.vision_state)
    (halive : c2.is_dead = false → c2.is_alive = true)
    (hinv : EnvInv E) :
    EnvInv { E with creatures := E.creatures.set i c2 } := by
  refine envinv_set_entry_vok E i c0 c2 hget hid hpos hparams ?_ halive hinv
  intro cid hst hov
  rw [hvis] at hst hov
  rw [hid]
  exact hinv.vok c0 (List.get?_mem hget) cid hst hov

/-- Writing a non-creature state onto a cell that does not hold a creature
preserves the invariant. -/
theorem envinv_set_noncreature (E : EnvironmentV1) (x0 y0 : Nat) (s : SpaceStates)
    (hs : ∀ cid, s ≠ SpaceStates.CreatureSpace cid)
    (hold : ∀ cid, E.positions x0 y0 ≠ SpaceStates.CreatureSpace cid)
    (hinv : EnvInv E) :
    EnvInv { E with positions := E.positions.setCell x0 y0 s } := by
  refine ⟨hinv.uids, hinv.upos, hinv.inb, ?_, hinv.below, hinv.dparams, hinv.aliveF, hinv.vok⟩
  intro x y hx hy cid
  unfold Grid.setCell
  dsimp only
  by_cases hxy : x = x0 ∧ y = y0
  · rw [if_pos hxy]
    constructor
    · intro hcs
      exact absurd hcs (hs cid)
    · rintro ⟨c, hc, hcid, hcp⟩
      exfalso
      have := (hinv.occ x y hx hy c.id).mpr ⟨c, hc, rfl, hcp⟩
      rw [hxy.1, hxy.2] at this
      exact hold c.id this
  · rw [if_neg hxy]
    exact hinv.occ x y hx hy cid

theorem envinv_add_food (E : EnvironmentV1) (pos : Position) (hinv : EnvInv E) :
    EnvInv (E.add_food_space pos) ∧
    (E.add_food_space pos).creatures = E.creatures ∧
    (E.add_food_space pos).params = E.params ∧
    (E.add_food_space pos).num_total_creatures = E.num_total_creatures := by
  unfold EnvironmentV1.add_food_space
  rcases hcell : E.positions pos.x pos.y with _ | cid | _ | _ | ttl <;>
    refine ⟨?_, rfl, rfl, rfl⟩
  · exact envinv_set_noncreature E pos.x pos.y _ (fun _ h => SpaceStates.noConfusion h)
      (fun c2 h => by rw [hcell] at h; exact SpaceStates.noConfusion h) hinv
  · exact hinv
  · exact envinv_set_noncreature E pos.x pos.y _ (fun _ h => SpaceStates.noConfusion h)
      (fun c2 h => by rw [hcell] at h; exact SpaceStates.noConfusion h) hinv
  · exact envinv_set_noncreature E pos.x pos.y _ (fun _ h => SpaceStates.noConfusion h)
      (fun c2 h => by rw [hcell] at h; exact SpaceStates.noConfusion h) hinv
  · exact envinv_set_noncreature E pos.x pos.y _ (fun _ h => SpaceStates.noConfusion h)
      (fun c2 h => by rw [hcell] at h; exact SpaceStates.noConfusion h) hinv

theorem envinv_add_wall (E : EnvironmentV1) (pos : Position) (hinv : EnvInv E) :
    EnvInv (E.add_wall_space pos) ∧
    (E.add_wall_space pos).creatures = E.creatures ∧
    (E.add_wall_space pos).params = E.params ∧
    (E.add_wall_space pos).num_total_creatures = E.num_total_creatures := by
  unfold EnvironmentV1.add_wall_space
  rcases hcell : E.positions pos.x pos.y with _ | cid | _ | _ | ttl <;>
    refine ⟨?_, rfl, rfl, rfl⟩
  · exact envinv_set_noncreature E pos.x pos.y _ (fun _ h => SpaceStates.noConfusion h)
      (fun c2 h => by rw [hcell] at h; exact SpaceStates.noConfusion h) hinv
  · exact hinv
  · exact envinv_set_noncreature E pos.x pos.y _ (fun _ h => SpaceStates.noConfusion h)
      (fun c2 h => by rw [hcell] at h; exact SpaceStates.noConfusion h) hinv
  · exact envinv_set_noncreature E pos.x pos.y _ (fun _ h => SpaceStates.noConfusion h)
      (fun c2 h => by rw [hcell] at h; exact SpaceStates.noConfusion h) hinv
  · exact envinv_set_noncreature E pos.x pos.y _ (fun _ h => SpaceStates.noConfusion h)
      (fun c2 h => by rw [hcell] at h; exact SpaceStates.noConfusion h) hinv

theorem fightDecay_cs (s : SpaceStates) (cid : Nat) :
    fightDecay s = SpaceStates.CreatureSpace cid ↔ s = SpaceStates.CreatureSpace cid := by
  cases s <;> simp [fightDecay]
  split <;> intro h <;> exact SpaceStates.noConfusion h

/-- The counter audit and fight-space decay preserve the invariant. -/
theorem envinv_usc (E : EnvironmentV1) (hinv : EnvInv E) :
    EnvInv E.update_space_counters ∧
    E.update_space_counters.creatures = E.creatures ∧
    E.update_space_counters.params = E.params ∧
    E.update_space_counters.num_total_creatures = E.num_total_creatures := by
  refine ⟨⟨hinv.uids, hinv.upos, hinv.inb, ?_, hinv.below, hinv.dparams,
    hinv.aliveF, hinv.vok⟩, rfl, rfl, rfl⟩
  intro x y hx hy cid
  unfold EnvironmentV1.update_space_counters
  dsimp only
  rw [if_pos ⟨hx, hy⟩]
  exact (fightDecay_cs _ cid).trans (hinv.occ x y hx hy cid)

/-- Appending a fresh creature and claiming a previously creature-free cell
for it preserves the invariant. -/
theorem envinv_place (E : EnvironmentV1) (nc : Creature) (N : Nat)
    (hinv : EnvInv E)
    (hxb : nc.position.x < E.params.env_x_size) (hyb : nc.position.y < E.params.env_y_size)
    (hcell : ∀ cid, E.positions nc.position.x nc.position.y ≠ SpaceStates.CreatureSpace cid)
    (hfresh : ∀ c ∈ E.creatures, nc.id ≠ c.id)
    (hN : E.num_total_creatures ≤ N) (hidN : nc.id < N)
    (halive : nc.is_dead = false → nc.is_alive = true)
    (hparams : nc.params = CreatureParams.new)
    (hvok : ∀ cid, nc.vision_state.space_type = SpaceStates.CreatureSpace cid →
        nc.vision_state.obj_in_view = true → cid ≠ nc.id) :
    EnvInv { E with
      positions :=
        E.positions.setCell nc.position.x nc.position.y (SpaceStates.CreatureSpace nc.id)
      creatures := E.creatures ++ [nc]
      num_total_creatures := N } := by
  have hnotat : ∀ c ∈ E.creatures, c.position ≠ nc.position := by
    intro c hc hcp
    have := (hinv.occ nc.position.x nc.position.y hxb hyb c.id).mpr
      ⟨c, hc, rfl, by rw [hcp]⟩
    exact hcell c.id this
  refine ⟨?_, ?_, ?_, ?_, ?_, ?_, ?_, ?_⟩
  · rw [List.map_append]
    rw [List.nodup_append]
    refine ⟨hinv.uids, List.nodup_singleton _, ?_⟩
    intro a ha hb
    rcases List.mem_map.mp ha with ⟨c, hc, hceq⟩
    rcases List.mem_map.mp hb with ⟨d, hd, hdeq⟩
    rw [List.mem_singleton] at hd
    rw [hd] at hdeq
    exact hfresh c hc (hdeq.trans hceq.symm)
  · rw [List.pairwise_append]
    refine ⟨hinv.upos, List.pairwise_singleton _ _, ?_⟩
    intro a ha b hb
    rw [List.mem_singleton] at hb
    rw [hb]
    exact hnotat a ha
  · intro c hc
    rcases List.mem_append.mp hc with hc1 | hc2
    · exact hinv.inb c hc1
    · rw [List.mem_singleton] at hc2
      rw [hc2]
      exact ⟨hxb, hyb⟩
  · intro x y hx hy cid
    unfold Grid.setCell
    dsimp only
    by_cases hxy : x = nc.position.x ∧ y = nc.position.y
    · rw [if_pos hxy]
      constructor
      · intro hcs
        refine ⟨nc, List.mem_append.mpr (Or.inr (List.mem_singleton.mpr rfl)),
          SpaceStates.CreatureSpace.inj hcs, ?_⟩
        rw [hxy.1, hxy.2]
      · rintro ⟨c, hc, hcid, hcp⟩
        rcases List.mem_append.mp hc with hc1 | hc2
        · exfalso
          refine hnotat c hc1 ?_
          rw [hcp, hxy.1, hxy.2]
        · rw [List.mem_singleton] at hc2
          rw [hc2] at hcid
          rw [hcid]
    · rw [if_neg hxy]
      refine (hinv.occ x y hx hy cid).trans ?_
      constructor
      · rintro ⟨c, hc, hcid, hcp⟩
        exact ⟨c, List.mem_append.mpr (Or.inl hc), hcid, hcp⟩
      · rintro ⟨c, hc, hcid, hcp⟩
        rcases List.mem_append.mp hc with hc1 | hc2
        · exact ⟨c, hc1, hcid, hcp⟩
        · exfalso
          rw [List.mem_singleton] at hc2
          rw [hc2] at hcp
          rw [hcp] at hxy
          exact hxy ⟨rfl, rfl⟩
  · intro c hc
    rcases List.mem_append.mp hc with hc1 | hc2
    · exact Nat.lt_of_lt_of_le (hinv.below c hc1) hN
    · rw [List.mem_singleton] at hc2
      rw [hc2]
      exact hidN
  · intro c hc
    rcases List.mem_append.mp hc with hc1 | hc2
    · exact hinv.dparams c hc1
    · rw [List.mem_singleton] at hc2
      rw [hc2]
      exact hparams
  · intro c hc
    rcases List.mem_append.mp hc with hc1 | hc2
    · exact hinv.aliveF c hc1
    · rw [List.mem_singleton] at hc2
      rw [hc2]
      exact halive
  · intro c hc
    rcases List.mem_append.mp hc with hc1 | hc2
    · exact hinv.vok c hc1
    · rw [List.mem_singleton] at hc2
      rw [hc2]
      exact hvok

/-- The grid-and-list update performed when a creature enters a
non-creature cell preserves the invariant. -/
theorem envinv_enter (E : EnvironmentV1) (i : Nat) (c : Creature) (np : Position)
    (hinv : EnvInv E) (hget : E.creatures.get? i = some c)
    (hne : np ≠ c.position)
    (hcell : ∀ cid, E.positions np.x np.y ≠ SpaceStates.CreatureSpace cid)
    (hxb : np.x < E.params.env_x_size) (hyb : np.y < E.params.env_y_size) :
    EnvInv { E with
      positions := (E.positions.setCell c.position.x c.position.y
          SpaceStates.BlankSpace).setCell np.x np.y (SpaceStates.CreatureSpace c.id)
      creatures := List.modify (fun a => a.set_position np.x np.y) i E.creatures } := by
  obtain ⟨p, q, hdec, hlen, hset⟩ := get?_decomp E.creatures i c hget
  have hm0 : c ∈ E.creatures := List.get?_mem hget
  have hmod : List.modify (fun a => a.set_position np.x np.y) i E.creatures =
      E.creatures.set i (c.set_position np.x np.y) :=
    modify_eq_get_set E.creatures _ i c hget
  have hmoved : (c.set_position np.x np.y).position = np := rfl
  have hnotat : ∀ d ∈ E.creatures, d.position ≠ np := by
    intro d hd hdp
    have := (hinv.occ np.x np.y hxb hyb d.id).mpr ⟨d, hd, rfl, by rw [hdp]⟩
    exact hcell d.id this
  have huids := hinv.uids
  have hupos := hinv.upos
  have hinb := hinv.inb
  have hocc := hinv.occ
  have hbelow := hinv.below
  have hdp := hinv.dparams
  have halF := hinv.aliveF
  have hvk := hinv.vok
  have hm0b : c ∈ p ++ c :: q := hdec ▸ hm0
  rw [hmod, hset]
  have hdec2 := hdec
  rw [hdec] at huids hupos hinb hocc hbelow hdp halF hvk
  have hnotatb : ∀ d ∈ p ++ c :: q, d.position ≠ np := hdec ▸ hnotat
  refine ⟨?_, ?_, ?_, ?_, ?_, ?_, ?_, ?_⟩
  · have hmaps : (p ++ c.set_position np.x np.y :: q).map Creature.id =
        (p ++ c :: q).map Creature.id := by
      simp [Creature.set_position]
    rw [hmaps]
    exact huids
  · refine pairwise_mid _ p q c _ hupos ?_ ?_
    · intro x hx hxc
      rw [hmoved] at hxc
      exact hnotatb x (List.mem_append.mpr (Or.inl hx)) hxc
    · intro x hx hxc
      rw [hmoved] at hxc
      exact hnotatb x (List.mem_append.mpr (Or.inr (List.mem_cons_of_mem c hx))) hxc.symm
  · refine forall_mem_mid _ p q c _ hinb ?_
    rw [hmoved]
    exact ⟨hxb, hyb⟩
  · intro x y hx hy cid
    unfold Grid.setCell
    dsimp only
    by_cases hxy : x = np.x ∧ y = np.y
    · rw [if_pos hxy]
      constructor
      · intro hcs
        refine ⟨c.set_position np.x np.y,
          List.mem_append.mpr (Or.inr (List.mem_cons_self _ q)),
          SpaceStates.CreatureSpace.inj hcs, ?_⟩
        rw [hmoved, hxy.1, hxy.2]
      · rintro ⟨d, hd, hdid, hdp2⟩
        rcases List.mem_append.mp hd with hd1 | hd2
        · exfalso
          refine hnotatb d (List.mem_append.mpr (Or.inl hd1)) ?_
          rw [hdp2, hxy.1, hxy.2]
        · rcases List.mem_cons.mp hd2 with hd3 | hd4
          · rw [hd3] at hdid
            rw [← hdid]
            rfl
          · exfalso
            refine hnotatb d (List.mem_append.mpr (Or.inr (List.mem_cons_of_mem c hd4))) ?_
            rw [hdp2, hxy.1, hxy.2]
    · rw [if_neg hxy]
      by_cases hxy2 : x = c.position.x ∧ y = c.position.y
      · rw [if_pos hxy2]
        constructor
        · intro hcs
          exact SpaceStates.noConfusion hcs
        · rintro ⟨d, hd, hdid, hdp2⟩
          exfalso
          rcases List.mem_append.mp hd with hd1 | hd2
          · have hRdc := (List.pairwise_append.mp hupos).2.2 d hd1 c
              (List.mem_cons_self c q)
            refine hRdc ?_
            rw [hdp2, hxy2.1, hxy2.2]
          · rcases List.mem_cons.mp hd2 with hd3 | hd4
            · rw [hd3, hmoved] at hdp2
              refine hne ?_
              exact hdp2.trans (by rw [hxy2.1, hxy2.2])
            · have hRcd := (List.pairwise_cons.mp
                (List.pairwise_append.mp hupos).2.1).1 d hd4
              refine hRcd ?_
              rw [hdp2, hxy2.1, hxy2.2]
      · rw [if_neg hxy2]
        refine (hocc x y hx hy cid).trans ?_
        refine exists_mem_mid_iff_of_not _ p q c _ ?_ ?_
        · rintro ⟨hcid, hcp⟩
          rw [hcp] at hxy2
          exact hxy2 ⟨rfl, rfl⟩
        · rintro ⟨hcid, hcp⟩
          rw [hmoved] at hcp
          rw [hcp] at hxy
          exact hxy ⟨rfl, rfl⟩
  · refine forall_mem_mid _ p q c _ hbelow ?_
    exact hbelow c hm0b
  · refine forall_mem_mid _ p q c _ hdp ?_
    exact hdp c hm0b
  · refine forall_mem_mid _ p q c _ halF ?_
    exact halF c hm0b
  · refine forall_mem_mid _ p q c _ hvk ?_
    exact hvk c hm0b

theorem get?_mid {α : Type} : ∀ (p : List α) (q : List α) (a : α),
    (p ++ a :: q).get? p.length = some a := by
  intro p
  induction p with
  | nil => intro q a; rfl
  | cons b t ih =>
    intro q a
    rw [List.cons_append, List.length_cons, List.get?_cons_succ]
    exact ih q a

/-- The wrap-around movement target stays on the board. -/
theorem next_position_inb (E : EnvironmentV1) (a : CreatureActions) (pos : Position)
    (o : CreatureOrientation)
    (hx : pos.x < E.params.env_x_size) (hy : pos.y < E.params.env_y_size) :
    (E.get_next_position_for_creature a pos o).x < E.params.env_x_size ∧
    (E.get_next_position_for_creature a pos o).y < E.params.env_y_size := by
  unfold EnvironmentV1.get_next_position_for_creature
  dsimp only
  cases o <;> cases a <;> dsimp only <;>
    refine ⟨?_, ?_⟩ <;>
    first
      | exact hx
      | exact hy
      | (split <;> omega)
      | exact Nat.mod_lt _ (by omega)

/-- Collision-checked movement preserves the invariant and the id map. -/
theorem resolveMove_pres (E : EnvironmentV1) (i : Nat) (np : Position)
    (hinv : EnvInv E)
    (halive : ∀ c2, E.creatures.get? i = some c2 → c2.is_alive = true)
    (hnpx : np.x < E.params.env_x_size) (hnpy : np.y < E.params.env_y_size) :
    EnvInv (E.resolveMove i np) ∧
    (E.resolveMove i np).creatures.map Creature.id = E.creatures.map Creature.id ∧
    (E.resolveMove i np).params = E.params ∧
    (E.resolveMove i np).num_total_creatures = E.num_total_creatures := by
  unfold EnvironmentV1.resolveMove
  cases hget : E.creatures.get? i with
  | none => exact ⟨hinv, rfl, rfl, rfl⟩
  | some c =>
    dsimp only
    by_cases hne : np ≠ c.position
    · rw [if_pos hne]
      have hidmap : (List.modify (fun a => a.set_position np.x np.y) i E.creatures).map
          Creature.id = E.creatures.map Creature.id := by
        rw [modify_eq_get_set E.creatures _ i c hget, List.map_set]
        refine set_get?_same _ i _ ?_
        rw [List.get?_map, hget]
        rfl
      rcases hcell : E.positions np.x np.y with _ | cid | _ | _ | ttl
      · refine ⟨envinv_enter E i c np hinv hget hne ?_ hnpx hnpy, hidmap, rfl, rfl⟩
        intro cid2 h2
        rw [hcell] at h2
        exact SpaceStates.noConfusion h2
      · exact ⟨hinv, rfl, rfl, rfl⟩
      · have hal : c.is_alive = true := halive c hget
        obtain ⟨hce_id, hce_pos, hce_par, hce_vis, hce_al, hce_age⟩ :=
          eat_frame c E.params.energy_per_food_piece
        set ce := c.eat_food E.params.energy_per_food_piece with hce_def
        have hmod1 : List.modify (fun a => a.eat_food E.params.energy_per_food_piece) i
            E.creatures = E.creatures.set i ce :=
          modify_eq_get_set E.creatures _ i c hget
        obtain ⟨p, q, hdec, hlen, hset⟩ := get?_decomp E.creatures i c hget
        have hinv2 : EnvInv { E with creatures := E.creatures.set i ce } :=
          envinv_set_entry E i c ce hget hce_id hce_pos hce_par hce_vis
            (fun _ => by rw [hce_al]; exact hal) hinv
        have hget2 : (E.creatures.set i ce).get? i = some ce := by
          rw [hset, ← hlen]
          exact get?_mid p q ce
        have henter := envinv_enter { E with creatures := E.creatures.set i ce } i ce np
          hinv2 hget2 (by rw [hce_pos]; exact hne)
          (by intro cid2 h2; rw [hcell] at h2; exact SpaceStates.noConfusion h2)
          hnpx hnpy
        rw [hce_pos, hce_id] at henter
        rw [hmod1]
        refine ⟨henter, ?_, rfl, rfl⟩
        rw [modify_eq_get_set _ _ i ce hget2, List.map_set, List.map_set, List.set_set]
        refine set_get?_same _ i _ ?_
        rw [List.get?_map, hget]
        have hpid : (ce.set_position np.x np.y).id = c.id := by
          rw [show (ce.set_position np.x np.y).id = ce.id from rfl, hce_id]
        rw [hpid]
        rfl
      · exact ⟨hinv, rfl, rfl, rfl⟩
      · refine ⟨envinv_enter E i c np hinv hget hne ?_ hnpx hnpy, hidmap, rfl, rfl⟩
        intro cid2 h2
        rw [hcell] at h2
        exact SpaceStates.noConfusion h2
    · rw [if_neg hne]
      exact ⟨hinv, rfl, rfl, rfl⟩

/-- The kill arm preserves the invariant and the id map: the attacker holds
entry `i` and is the creature copy the arm receives. -/
theorem resolveKill_pres (E : EnvironmentV1) (i : Nat) (ccopy : Creature) (E2 : EnvironmentV1)
    (hinv : EnvInv E)
    (hget : E.creatures.get? i = some ccopy)
    (hal : ccopy.is_alive = true)
    (hvok : ∀ cid, ccopy.vision_state.space_type = SpaceStates.CreatureSpace cid →
        ccopy.vision_state.obj_in_view = true → cid ≠ ccopy.id)
    (h : E.resolveKill i ccopy = some E2) :
    EnvInv E2 ∧ E2.creatures.map Creature.id = E.creatures.map Creature.id ∧
    E2.params = E.params ∧ E2.num_total_creatures = E.num_total_creatures := by
  unfold EnvironmentV1.resolveKill at h
  by_cases hcond : ccopy.vision_state.obj_in_view = true ∧ ccopy.vision_state.dist = 1
  · rw [if_pos hcond] at h
    rcases hst : ccopy.vision_state.space_type with _ | vcid | _ | _ | ttl <;> rw [hst] at h
    · cases h
      exact ⟨hinv, rfl, rfl, rfl⟩
    · simp only [Option.bind_eq_bind] at h
      cases hfid : E.get_creature_idx_from_id vcid with
      | none =>
        rw [hfid] at h
        simp only [Option.none_bind] at h
        exact Option.noConfusion h
      | some vidx =>
        rw [hfid] at h
        simp only [Option.some_bind] at h
        cases hvic : E.creatures.get? vidx with
        | none =>
          rw [hvic] at h
          simp only [Option.none_bind] at h
          exact Option.noConfusion h
        | some victim =>
          rw [hvic] at h
          simp only [Option.some_bind] at h
          have hvid : victim.id = vcid := by
            unfold EnvironmentV1.get_creature_idx_from_id at hfid
            obtain ⟨hbase, a, hgeta, hpa⟩ := findIdx?_entry _ E.creatures 0 vidx hfid
            rw [Nat.sub_zero, hvic] at hgeta
            cases hgeta
            exact of_decide_eq_true hpa
          by_cases hdead : victim.is_dead = true
          · rw [if_pos hdead] at h
            cases h
            exact ⟨hinv, rfl, rfl, rfl⟩
          · rw [if_neg hdead] at h
            have hvne : vidx ≠ i := by
              intro heq
              rw [heq, hget] at hvic
              cases hvic
              exact (hvok vcid hst hcond.1) hvid.symm
            have hinv1 : EnvInv { E with creatures := E.creatures.set vidx victim.kill } :=
              envinv_set_entry E vidx victim victim.kill hvic rfl rfl rfl rfl
                (fun hdf => by
                  exfalso
                  rw [Creature.is_dead] at hdf
                  simp [Creature.kill] at hdf) hinv
            have hget1 : (E.creatures.set vidx victim.kill).get? i = some ccopy := by
              rw [List.get?_set_ne _ _ hvne]
              exact hget
            obtain ⟨hce_id, hce_pos, hce_par, hce_vis, hce_al, hce_age⟩ :=
              eat_frame ccopy E.params.energy_per_kill
            have hmodif : List.modify
                (fun a => (a.eat_food E.params.energy_per_kill).set_killer) i
                (E.creatures.set vidx victim.kill) =
                (E.creatures.set vidx victim.kill).set i
                  ((ccopy.eat_food E.params.energy_per_kill).set_killer) :=
              modify_eq_get_set _ _ i ccopy hget1
            rw [hmodif, set_killer_id] at h
            cases h
            refine ⟨?_, ?_, rfl, rfl⟩
            · exact envinv_set_entry { E with creatures := E.creatures.set vidx victim.kill }
                i ccopy (ccopy.eat_food E.params.energy_per_kill) hget1 hce_id hce_pos
                hce_par hce_vis (fun _ => by rw [hce_al]; exact hal) hinv1
            · rw [List.map_set, List.map_set]
              rw [show victim.kill.id = victim.id from rfl, hce_id]
              rw [show (List.map Creature.id E.creatures).set vidx victim.id =
                  List.map Creature.id E.creatures from
                set_get?_same _ _ _ (by rw [List.get?_map, hvic]; rfl)]
              exact set_get?_same _ _ _ (by rw [List.get?_map, hget]; rfl)
    · cases h
      exact ⟨hinv, rfl, rfl, rfl⟩
    · cases h
      exact ⟨hinv, rfl, rfl, rfl⟩
    · cases h
      exact ⟨hinv, rfl, rfl, rfl⟩
  · rw [if_neg hcond] at h
    cases h
    exact ⟨hinv, rfl, rfl, rfl⟩

/-- `PendOk` only depends on the environment through its parameters, the
fresh-id counter and the listed ids. -/
theorem pendok_frame (E E2 : EnvironmentV1) (pend : List Creature)
    (hp : PendOk E pend)
    (hpar : E2.params = E.params) (hnt : E2.num_total_creatures = E.num_total_creatures)
    (hids : E2.creatures.map Creature.id = E.creatures.map Creature.id) :
    PendOk E2 pend := by
  obtain ⟨h1, h2, h3⟩ := hp
  refine ⟨h1, ?_, ?_⟩
  · intro p hp2
    obtain ⟨a, b, c, d, e, f, g⟩ := h2 p hp2
    exact ⟨by rw [hnt]; exact a, b, c, by rw [hpar]; exact d, by rw [hpar]; exact e, f, g⟩
  · intro p hp2 c hc
    have hcm : c.id ∈ E2.creatures.map Creature.id := List.mem_map.mpr ⟨c, hc, rfl⟩
    rw [hids] at hcm
    rcases List.mem_map.mp hcm with ⟨c0, hc0, hceq⟩
    rw [← hceq]
    exact h3 p hp2 c0 hc0

/-- The reproduce arm preserves the invariant, extends the pending list
soundly and only raises the fresh-id counter. -/
theorem resolveReproduce_pres (E0 : EnvironmentV1) (i : Nat) (pend : List Creature)
    (r : Rng) (t : RCtr) (out : EnvironmentV1 × List Creature × RCtr)
    (hinv : EnvInv E0) (hpend : PendOk E0 pend)
    (h : E0.resolveReproduce i pend r t = some out) :
    EnvInv out.1 ∧ PendOk out.1 out.2.1 ∧
    out.1.creatures = E0.creatures ∧ out.1.params = E0.params ∧
    out.1.positions = E0.positions ∧
    E0.num_total_creatures ≤ out.1.num_total_creatures := by
  unfold EnvironmentV1.resolveReproduce at h
  simp only [Option.bind_eq_bind] at h
  cases hdr : drawNatLt r t E0.params.max_offspring_per_reproduce with
  | none =>
    rw [hdr] at h
    simp only [Option.none_bind] at h
    exact Option.noConfusion h
  | some pr =>
    rw [hdr] at h
    simp only [Option.some_bind] at h
    rcases pr with ⟨numRaw, t1⟩
    refine foldlM_inv _ (fun st => EnvInv st.1 ∧ PendOk st.1 st.2.1 ∧
      st.1.creatures = E0.creatures ∧ st.1.params = E0.params ∧
      st.1.positions = E0.positions ∧
      E0.num_total_creatures ≤ st.1.num_total_creatures)
      (List.range (1 + numRaw)) ?_ (E0, pend, t1) out h
      ⟨hinv, hpend, rfl, rfl, rfl, Nat.le_refl _⟩
    intro st k hk hP st2 hstep
    obtain ⟨hPinv, hPpend, hPcre, hPpar, hPpos, hPnt⟩ := hP
    simp only [Option.bind_eq_bind] at hstep
    cases hpar : st.1.creatures.get? i with
    | none =>
      rw [hpar] at hstep
      simp only [Option.none_bind] at hstep
      exact Option.noConfusion hstep
    | some parent =>
      rw [hpar] at hstep
      simp only [Option.some_bind] at hstep
      cases hno : Creature.new_offspring st.1.num_total_creatures parent
          E0.params.mutation_prob r st.2.2 with
      | none =>
        rw [hno] at hstep
        simp only [Option.none_bind] at hstep
        exact Option.noConfusion hstep
      | some offpr =>
        rw [hno] at hstep
        simp only [Option.some_bind] at hstep
        rcases offpr with ⟨off, t2⟩
        cases hstep
        have hparentmem : parent ∈ st.1.creatures := List.get?_mem hpar
        obtain ⟨ho_id, ho_pos, ho_par, ho_al, ho_en, ho_age, ho_vis⟩ :=
          new_offspring_frame _ parent _ r _ off t2 hno
        have hparentparams : parent.params = CreatureParams.new := hPinv.dparams parent hparentmem
        have hoffdead : off.is_dead = false := by
          rw [Creature.is_dead, ho_en, ho_age, hparentparams]
          decide
        refine ⟨⟨hPinv.uids, hPinv.upos, hPinv.inb, hPinv.occ, ?_, hPinv.dparams,
            hPinv.aliveF, hPinv.vok⟩, ?_, hPcre, hPpar, hPpos, by
          dsimp only
          omega⟩
        · intro c hc
          exact Nat.lt_succ_of_lt (hPinv.below c hc)
        · obtain ⟨hq1, hq2, hq3⟩ := hPpend
          refine ⟨?_, ?_, ?_⟩
          · rw [List.map_append, List.nodup_append]
            refine ⟨hq1, List.nodup_singleton _, ?_⟩
            intro a ha hb
            rcases List.mem_map.mp ha with ⟨pp, hpp, hppeq⟩
            rcases List.mem_map.mp hb with ⟨d, hd, hdeq⟩
            rw [List.mem_singleton] at hd
            rw [hd, ho_id] at hdeq
            have := (hq2 pp hpp).1
            omega
          · intro pp hpp
            rcases List.mem_append.mp hpp with hp1 | hp2
            · obtain ⟨a, b, c, d, e, f, g⟩ := hq2 pp hp1
              exact ⟨Nat.lt_succ_of_lt a, b, c, d, e, f, g⟩
            · rw [List.mem_singleton] at hp2
              rw [hp2]
              obtain ⟨hbx, hby⟩ := hPinv.inb parent hparentmem
              refine ⟨by rw [ho_id]; exact Nat.lt_succ_self _, hoffdead, ho_al,
                by rw [ho_pos]; exact hbx, by rw [ho_pos]; exact hby,
                by rw [ho_par]; exact hparentparams, by rw [ho_vis]; rfl⟩
          · intro pp hpp c hc
            rcases List.mem_append.mp hpp with hp1 | hp2
            · exact hq3 pp hp1 c hc
            · rw [List.mem_singleton] at hp2
              rw [hp2, ho_id]
              intro hcontra
              have := hPinv.below c hc
              omega

/-- One iteration of the per-creature loop preserves the loop invariant. -/
theorem processCreature_pres (r : Rng) (st st2 : EnvironmentV1 × List Creature × RCtr)
    (i : Nat) (hLP : LoopOk st) (h : EnvironmentV1.processCreature r st i = some st2) :
    LoopOk st2 := by
  obtain ⟨hinv, hpend⟩ := hLP
  unfold EnvironmentV1.processCreature at h
  simp only [Option.bind_eq_bind] at h
  cases hget0 : st.1.creatures.get? i with
  | none =>
    rw [hget0] at h
    simp only [Option.none_bind] at h
    exact Option.noConfusion h
  | some c0 =>
    rw [hget0] at h
    simp only [Option.some_bind] at h
    cases hpn : (c0.sense_surroundings).perform_next_action with
    | none =>
      rw [hpn] at h
      simp only [Option.none_bind] at h
      exact Option.noConfusion h
    | some pr =>
      rw [hpn] at h
      simp only [Option.some_bind] at h
      rcases pr with ⟨action, c2⟩
      have hc0mem : c0 ∈ st.1.creatures := List.get?_mem hget0
      obtain ⟨hf_id, hf_pos, hf_par, hf_vis, hf_al⟩ :=
        perform_frame c0.sense_surroundings action c2 hpn
      obtain ⟨hs_id, hs_pos, hs_par, hs_vis, hs_al, hs_dead⟩ := sense_frame c0
      have hc2id : c2.id = c0.id := hf_id.trans hs_id
      have hc2pos : c2.position = c0.position := hf_pos.trans hs_pos
      have hc2par : c2.params = c0.params := hf_par.trans hs_par
      have hc2vis : c2.vision_state = c0.vision_state := hf_vis.trans hs_vis
      have hc2alive : c2.is_dead = false → c2.is_alive = true := by
        intro hdf
        obtain ⟨hd1, hd2⟩ := hf_al hdf
        rw [hs_dead] at hd1
        exact hd2 (by rw [hs_al]; exact hinv.aliveF c0 hc0mem hd1)
      have hinv1 : EnvInv { st.1 with creatures := st.1.creatures.set i c2 } :=
        envinv_set_entry st.1 i c0 c2 hget0 hc2id hc2pos hc2par hc2vis hc2alive hinv
      have hids1 : (st.1.creatures.set i c2).map Creature.id =
          st.1.creatures.map Creature.id := by
        rw [List.map_set, hc2id]
        exact set_get?_same _ _ _ (by rw [List.get?_map, hget0]; rfl)
      have hpend1 : PendOk { st.1 with creatures := st.1.creatures.set i c2 } st.2.1 :=
        pendok_frame st.1 _ st.2.1 hpend rfl rfl hids1
      obtain ⟨p, q, hdec, hlen, hset⟩ := get?_decomp st.1.creatures i c0 hget0
      have hget1 : (st.1.creatures.set i c2).get? i = some c2 := by
        rw [hset, ← hlen]
        exact get?_mid p q c2
      by_cases hcd : c2.is_dead = true
      · rw [if_pos hcd] at h
        cases h
        exact ⟨hinv1, hpend1⟩
      · rw [if_neg hcd] at h
        have hcdf : c2.is_dead = false := Bool.eq_false_iff.mpr hcd
        have hc2al : c2.is_alive = true := hc2alive hcdf
        have hvok2 : ∀ cid, c2.vision_state.space_type = SpaceStates.CreatureSpace cid →
            c2.vision_state.obj_in_view = true → cid ≠ c2.id := by
          intro cid hsp hov
          rw [hc2vis] at hsp hov
          rw [hc2id]
          exact hinv.vok c0 hc0mem cid hsp hov
        have hinb2 : c2.position.x < st.1.params.env_x_size ∧
            c2.position.y < st.1.params.env_y_size := by
          rw [hc2pos]
          exact hinv.inb c0 hc0mem
        cases action with
        | Kill =>
          simp only [Option.bind_eq_bind] at h
          cases hk : EnvironmentV1.resolveKill
              { st.1 with creatures := st.1.creatures.set i c2 } i c2 with
          | none =>
            rw [hk] at h
            simp only [Option.none_bind] at h
            exact Option.noConfusion h
          | some E2 =>
            rw [hk] at h
            simp only [Option.some_bind] at h
            cases h
            obtain ⟨hk1, hk2, hk3, hk4⟩ := resolveKill_pres _ i c2 E2 hinv1 hget1 hc2al
              hvok2 hk
            refine ⟨hk1, pendok_frame _ _ _ hpend1 hk3 hk4 hk2⟩
        | Reproduce =>
          obtain ⟨hr1, hr2, hr3, hr4, hr5, hr6⟩ := resolveReproduce_pres _ i st.2.1 r
            st.2.2 st2 hinv1 hpend1 h
          exact ⟨hr1, hr2⟩
        | MoveForwards =>
          cases h
          have hm := resolveMove_pres { st.1 with creatures := st.1.creatures.set i c2 } i
            (EnvironmentV1.get_next_position_for_creature
              { st.1 with creatures := st.1.creatures.set i c2 }
              CreatureActions.MoveForwards c2.position c2.orientation) hinv1
            (fun c2b hgb => by rw [hget1] at hgb; cases hgb; exact hc2al)
            (next_position_inb _ CreatureActions.MoveForwards c2.position c2.orientation
              hinb2.1 hinb2.2).1
            (next_position_inb _ CreatureActions.MoveForwards c2.position c2.orientation
              hinb2.1 hinb2.2).2
          exact ⟨hm.1, pendok_frame _ _ _ hpend1 hm.2.2.1 hm.2.2.2 hm.2.1⟩
        | MoveBackwards =>
          cases h
          have hm := resolveMove_pres { st.1 with creatures := st.1.creatures.set i c2 } i
            (EnvironmentV1.get_next_position_for_creature
              { st.1 with creatures := st.1.creatures.set i c2 }
              CreatureActions.MoveBackwards c2.position c2.orientation) hinv1
            (fun c2b hgb => by rw [hget1] at hgb; cases hgb; exact hc2al)
            (next_position_inb _ CreatureActions.MoveBackwards c2.position c2.orientation
              hinb2.1 hinb2.2).1
            (next_position_inb _ CreatureActions.MoveBackwards c2.position c2.orientation
              hinb2.1 hinb2.2).2
          exact ⟨hm.1, pendok_frame _ _ _ hpend1 hm.2.2.1 hm.2.2.2 hm.2.1⟩
        | MoveLeft =>
          cases h
          have hm := resolveMove_pres { st.1 with creatures := st.1.creatures.set i c2 } i
            (EnvironmentV1.get_next_position_for_creature
              { st.1 with creatures := st.1.creatures.set i c2 }
              CreatureActions.MoveLeft c2.position c2.orientation) hinv1
            (fun c2b hgb => by rw [hget1] at hgb; cases hgb; exact hc2al)
            (next_position_inb _ CreatureActions.MoveLeft c2.position c2.orientation
              hinb2.1 hinb2.2).1
            (next_position_inb _ CreatureActions.MoveLeft c2.position c2.orientation
              hinb2.1 hinb2.2).2
          exact ⟨hm.1, pendok_frame _ _ _ hpend1 hm.2.2.1 hm.2.2.2 hm.2.1⟩
        | MoveRight =>
          cases h
          have hm := resolveMove_pres { st.1 with creatures := st.1.creatures.set i c2 } i
            (EnvironmentV1.get_next_position_for_creature
              { st.1 with creatures := st.1.creatures.set i c2 }
              CreatureActions.MoveRight c2.position c2.orientation) hinv1
            (fun c2b hgb => by rw [hget1] at hgb; cases hgb; exact hc2al)
            (next_position_inb _ CreatureActions.MoveRight c2.position c2.orientation
              hinb2.1 hinb2.2).1
            (next_position_inb _ CreatureActions.MoveRight c2.position c2.orientation
              hinb2.1 hinb2.2).2
          exact ⟨hm.1, pendok_frame _ _ _ hpend1 hm.2.2.1 hm.2.2.2 hm.2.1⟩
        | Stay =>
          cases h
          exact ⟨hinv1, hpend1⟩
        | RotateCCW =>
          cases h
          exact ⟨hinv1, hpend1⟩
        | RotateCW =>
          cases h
          exact ⟨hinv1, hpend1⟩

/-! ### Claim C1: the dead-removal pass -/

theorem remove_dead_eq (E : EnvironmentV1) :
    E.remove_dead_creatures =
      ((E.creatures.foldl remDeadStep
          (E.positions, E.num_kills, E.num_natural_deaths, [])).2.2.2).foldl remErase
        { E with
            positions := (E.creatures.foldl remDeadStep
              (E.positions, E.num_kills, E.num_natural_deaths, [])).1
            num_kills := (E.creatures.foldl remDeadStep
              (E.positions, E.num_kills, E.num_natural_deaths, [])).2.1
            num_natural_deaths := (E.creatures.foldl remDeadStep
              (E.positions, E.num_kills, E.num_natural_deaths, [])).2.2.1 } := rfl

theorem position_ext (p q : Position) (hx : p.x = q.x) (hy : p.y = q.y) : p = q := by
  cases p
  cases q
  dsimp only at hx hy
  rw [hx, hy]

theorem remDeadStep_killed (st : Grid × Nat × Nat × List Nat) (c : Creature)
    (hd : c.is_dead = true) (hk : c.was_killed = true) :
    remDeadStep st c =
      (st.1.setCell c.position.x c.position.y
         (SpaceStates.FightSpace FIGHT_SPACE_PERSISTENCE_STEPS),
       st.2.1 + 1, st.2.2.1, st.2.2.2 ++ [c.id]) := by
  unfold remDeadStep
  rw [if_pos hd, if_pos hk]

theorem remDeadStep_natural (st : Grid × Nat × Nat × List Nat) (c : Creature)
    (hd : c.is_dead = true) (hk : ¬c.was_killed = true) :
    remDeadStep st c =
      (st.1.setCell c.position.x c.position.y SpaceStates.BlankSpace,
       st.2.1, st.2.2.1 + 1, st.2.2.2 ++ [c.id]) := by
  unfold remDeadStep
  rw [if_pos hd, if_neg hk]

theorem remDeadStep_live (st : Grid × Nat × Nat × List Nat) (c : Creature)
    (hd : ¬c.is_dead = true) : remDeadStep st c = st := by
  unfold remDeadStep
  rw [if_neg hd]

theorem remDead_fold_grid (x y : Nat) :
    ∀ (cs : List Creature) (g : Grid) (k n : Nat) (acc : List Nat),
    (∀ c ∈ cs, c.is_dead = true → ¬(c.position.x = x ∧ c.position.y = y)) →
    (cs.foldl remDeadStep (g, k, n, acc)).1 x y = g x y := by
  intro cs
  induction cs with
  | nil => intro g k n acc _; rfl
  | cons c cs ih =>
    intro g k n acc hno
    rw [List.foldl_cons]
    have hnotail : ∀ d ∈ cs, d.is_dead = true → ¬(d.position.x = x ∧ d.position.y = y) :=
      fun d hd => hno d (List.mem_cons_of_mem c hd)
    by_cases hd : c.is_dead = true
    · have hcxy := hno c (List.mem_cons_self c cs) hd
      by_cases hkl : c.was_killed = true
      · rw [remDeadStep_killed _ c hd hkl, ih _ _ _ _ hnotail]
        unfold Grid.setCell
        rw [if_neg (fun hxy => hcxy ⟨hxy.1.symm, hxy.2.symm⟩)]
      · rw [remDeadStep_natural _ c hd hkl, ih _ _ _ _ hnotail]
        unfold Grid.setCell
        rw [if_neg (fun hxy => hcxy ⟨hxy.1.symm, hxy.2.symm⟩)]
    · rw [remDeadStep_live _ c hd]
      exact ih g k n acc hnotail

theorem remDead_fold_ids :
    ∀ (cs : List Creature) (g : Grid) (k n : Nat) (acc : List Nat),
    (cs.foldl remDeadStep (g, k, n, acc)).2.2.2 =
      acc ++ (cs.filter (fun c => c.is_dead)).map Creature.id := by
  intro cs
  induction cs with
  | nil => intro g k n acc; simp
  | cons c cs ih =>
    intro g k n acc
    rw [List.foldl_cons, List.filter_cons]
    by_cases hd : c.is_dead = true
    · rw [if_pos hd]
      by_cases hkl : c.was_killed = true
      · rw [remDeadStep_killed _ c hd hkl, ih]
        simp
      · rw [remDeadStep_natural _ c hd hkl, ih]
        simp
    · rw [if_neg (by rw [Bool.eq_false_iff.mpr hd]; exact Bool.false_ne_true)]
      rw [remDeadStep_live _ c hd]
      exact ih g k n acc

theorem remDead_fold_deadcell :
    ∀ (cs : List Creature) (g : Grid) (k n : Nat) (acc : List Nat),
    cs.Pairwise (fun a b => a.position ≠ b.position) →
    ∀ d ∈ cs, d.is_dead = true → ∀ cid,
    (cs.foldl remDeadStep (g, k, n, acc)).1 d.position.x d.position.y ≠
      SpaceStates.CreatureSpace cid := by
  intro cs
  induction cs with
  | nil => intro g k n acc _ d hd; exact absurd hd (List.not_mem_nil d)
  | cons c cs ih =>
    intro g k n acc hpw d hd hdead cid
    rw [List.pairwise_cons] at hpw
    rcases List.mem_cons.mp hd with hdc | hdcs
    · subst hdc
      rw [List.foldl_cons]
      have hnotail : ∀ e ∈ cs, e.is_dead = true →
          ¬(e.position.x = d.position.x ∧ e.position.y = d.position.y) := by
        intro e he _ hxy
        exact hpw.1 e he (position_ext e.position d.position hxy.1 hxy.2).symm
      by_cases hkl : d.was_killed = true
      · rw [remDeadStep_killed _ d hdead hkl,
          remDead_fold_grid _ _ _ _ _ _ _ hnotail]
        unfold Grid.setCell
        rw [if_pos ⟨rfl, rfl⟩]
        exact fun hcontra => SpaceStates.noConfusion hcontra
      · rw [remDeadStep_natural _ d hdead hkl,
          remDead_fold_grid _ _ _ _ _ _ _ hnotail]
        unfold Grid.setCell
        rw [if_pos ⟨rfl, rfl⟩]
        exact fun hcontra => SpaceStates.noConfusion hcontra
    · rw [List.foldl_cons]
      exact ih _ _ _ _ hpw.2 d hdcs hdead cid

theorem remErase_eq_some (E2 : EnvironmentV1) (dd x : Nat)
    (hfi : E2.creatures.findIdx? (fun c => c.id = dd) = some x) :
    remErase E2 dd = { E2 with creatures := E2.creatures.eraseIdx x,
                               num_creatures := E2.num_creatures - 1 } := by
  unfold remErase
  rw [hfi]

theorem remErase_eq_none (E2 : EnvironmentV1) (dd : Nat)
    (hfi : E2.creatures.findIdx? (fun c => c.id = dd) = none) :
    remErase E2 dd = E2 := by
  unfold remErase
  rw [hfi]

theorem idsRemove_cons (l : List Creature) (d : Nat) (ds : List Nat) :
    idsRemove l (d :: ds) =
      idsRemove (match l.findIdx? (fun c => c.id = d) with
        | some x => l.eraseIdx x
        | none => l) ds := rfl

theorem remErase_fold_creatures :
    ∀ (ds : List Nat) (E2 : EnvironmentV1), ∃ m, ds.foldl remErase E2 =
      { E2 with creatures := idsRemove E2.creatures ds, num_creatures := m } := by
  intro ds
  induction ds with
  | nil =>
    intro E2
    exact ⟨E2.num_creatures, rfl⟩
  | cons d ds ih =>
    intro E2
    rw [List.foldl_cons, idsRemove_cons]
    cases hfi : E2.creatures.findIdx? (fun c => c.id = d) with
    | none =>
      rw [remErase_eq_none E2 d hfi]
      obtain ⟨m, hm⟩ := ih E2
      exact ⟨m, hm⟩
    | some x =>
      rw [remErase_eq_some E2 d x hfi]
      obtain ⟨m, hm⟩ := ih { E2 with creatures := E2.creatures.eraseIdx x,
                                     num_creatures := E2.num_creatures - 1 }
      exact ⟨m, hm⟩

theorem idsRemove_skip :
    ∀ (ds : List Nat) (a : Creature) (t : List Creature),
    (∀ d ∈ ds, d ≠ a.id) → idsRemove (a :: t) ds = a :: idsRemove t ds := by
  intro ds
  induction ds with
  | nil => intro a t _; rfl
  | cons d ds ih =>
    intro a t hno
    rw [idsRemove_cons, idsRemove_cons, List.findIdx?_cons]
    rw [if_neg (show ¬((fun c => decide (c.id = d)) a = true) from
      fun hc => hno d (List.mem_cons_self d ds) (of_decide_eq_true hc).symm)]
    rw [List.findIdx?_succ]
    cases hfi : t.findIdx? (fun c => decide (c.id = d)) with
    | none =>
      exact ih a t (fun e he => hno e (List.mem_cons_of_mem d he))
    | some j =>
      rw [show Option.map (fun i => i + 1) (some j) = some (j + 1) from rfl]
      dsimp only [List.eraseIdx_cons_succ]
      exact ih a (t.eraseIdx j) (fun e he => hno e (List.mem_cons_of_mem d he))

theorem idsRemove_filter :
    ∀ (l : List Creature), (l.map Creature.id).Nodup →
    idsRemove l ((l.filter (fun c => c.is_dead)).map Creature.id) =
      l.filter (fun c => !c.is_dead) := by
  intro l
  induction l with
  | nil => intro _; rfl
  | cons a t ih =>
    intro hnd
    rw [List.map_cons, List.nodup_cons] at hnd
    rw [List.filter_cons, List.filter_cons]
    by_cases hd : a.is_dead = true
    · rw [if_pos hd, if_neg (by rw [hd]; exact Bool.false_ne_true)]
      rw [List.map_cons, idsRemove_cons, List.findIdx?_cons]
      rw [if_pos (show (fun c => decide (c.id = a.id)) a = true from decide_eq_true rfl)]
      exact ih hnd.2
    · rw [if_neg (by rw [Bool.eq_false_iff.mpr hd]; exact Bool.false_ne_true),
        if_pos (by rw [Bool.eq_false_iff.mpr hd]; rfl)]
      rw [idsRemove_skip _ a t ?hno]
      · rw [ih hnd.2]
      case hno =>
        intro d hdm
        rcases List.mem_map.mp hdm with ⟨e, hem, heq⟩
        rw [← heq]
        intro hcontra
        refine hnd.1 ?_
        rw [← hcontra]
        exact List.mem_map.mpr ⟨e, List.mem_of_mem_filter hem, rfl⟩

/-- Removing the dead preserves the invariant; afterwards the creature list
is exactly the live sublist. -/
theorem remove_dead_pres (E : EnvironmentV1) (hinv : EnvInv E) :
    EnvInv E.remove_dead_creatures ∧
    E.remove_dead_creatures.creatures = E.creatures.filter (fun c => !c.is_dead) ∧
    E.remove_dead_creatures.params = E.params ∧
    E.remove_dead_creatures.num_total_creatures = E.num_total_creatures := by
  rw [remove_dead_eq]
  obtain ⟨m, hm⟩ := remErase_fold_creatures
    ((E.creatures.foldl remDeadStep
      (E.positions, E.num_kills, E.num_natural_deaths, [])).2.2.2)
    { E with
        positions := (E.creatures.foldl remDeadStep
          (E.positions, E.num_kills, E.num_natural_deaths, [])).1
        num_kills := (E.creatures.foldl remDeadStep
          (E.positions, E.num_kills, E.num_natural_deaths, [])).2.1
        num_natural_deaths := (E.creatures.foldl remDeadStep
          (E.positions, E.num_kills, E.num_natural_deaths, [])).2.2.1 }
  rw [hm]
  have hids := remDead_fold_ids E.creatures E.positions E.num_kills E.num_natural_deaths []
  rw [List.nil_append] at hids
  have hcre : idsRemove E.creatures
      ((E.creatures.foldl remDeadStep
        (E.positions, E.num_kills, E.num_natural_deaths, [])).2.2.2) =
      E.creatures.filter (fun c => !c.is_dead) := by
    rw [hids]
    exact idsRemove_filter E.creatures hinv.uids
  rw [show ∀ (G : Grid) (K N : Nat), ({ E with positions := G, num_kills := K, num_natural_deaths := N } : EnvironmentV1).creatures = E.creatures from fun G K N => rfl]
  rw [hcre]
  have hsymm : Symmetric (fun a b : Creature => a.position ≠ b.position) :=
    fun a b hab hba => hab hba.symm
  refine ⟨⟨?_, ?_, ?_, ?_, ?_, ?_, ?_, ?_⟩, rfl, rfl, rfl⟩
  · exact List.Nodup.sublist (List.Sublist.map _ (List.filter_sublist _)) hinv.uids
  · exact List.Pairwise.sublist (List.filter_sublist _) hinv.upos
  · intro c hc
    exact hinv.inb c (List.mem_of_mem_filter hc)
  · intro x y hx hy cid
    by_cases hdxy : ∃ d, d ∈ E.creatures ∧ d.is_dead = true ∧
        d.position.x = x ∧ d.position.y = y
    · obtain ⟨d, hdm, hdd, hdx, hdy⟩ := hdxy
      have hne := remDead_fold_deadcell E.creatures E.positions E.num_kills
        E.num_natural_deaths [] hinv.upos d hdm hdd cid
      rw [hdx, hdy] at hne
      constructor
      · intro hcs
        exact absurd hcs hne
      · rintro ⟨c, hcf, hcid, hcp⟩
        exfalso
        have hcm := List.mem_of_mem_filter hcf
        have hcal : c.is_dead = false := by
          have h2 := (List.mem_filter.mp hcf).2
          simpa using h2
        have hcd : c ≠ d := by
          intro heq
          rw [heq, hdd] at hcal
          exact Bool.noConfusion hcal
        refine hinv.upos.forall hsymm hcm hdm hcd ?_
        rw [hcp]
        exact position_ext _ d.position hdx.symm hdy.symm
    · have hgx := remDead_fold_grid x y E.creatures E.positions E.num_kills
        E.num_natural_deaths []
        (fun c hc hcd hxy => hdxy ⟨c, hc, hcd, hxy.1, hxy.2⟩)
      rw [show ({ E with
          positions := (E.creatures.foldl remDeadStep
            (E.positions, E.num_kills, E.num_natural_deaths, [])).1
          num_kills := (E.creatures.foldl remDeadStep
            (E.positions, E.num_kills, E.num_natural_deaths, [])).2.1
          num_natural_deaths := (E.creatures.foldl remDeadStep
            (E.positions, E.num_kills, E.num_natural_deaths, [])).2.2.1 } :
          EnvironmentV1).positions = (E.creatures.foldl remDeadStep
            (E.positions, E.num_kills, E.num_natural_deaths, [])).1 from rfl]
      rw [hgx]
      refine (hinv.occ x y hx hy cid).trans ?_
      constructor
      · rintro ⟨c, hc, hcid, hcp⟩
        refine ⟨c, List.mem_filter.mpr ⟨hc, ?_⟩, hcid, hcp⟩
        by_cases hcd : c.is_dead = true
        · exfalso
          exact hdxy ⟨c, hc, hcd, by rw [hcp], by rw [hcp]⟩
        · rw [Bool.eq_false_iff.mpr hcd]
          rfl
      · rintro ⟨c, hcf, hcid, hcp⟩
        exact ⟨c, List.mem_of_mem_filter hcf, hcid, hcp⟩
  · intro c hc
    exact hinv.below c (List.mem_of_mem_filter hc)
  · intro c hc
    exact hinv.dparams c (List.mem_of_mem_filter hc)
  · intro c hc
    exact hinv.aliveF c (List.mem_of_mem_filter hc)
  · intro c hc
    exact hinv.vok c (List.mem_of_mem_filter hc)

/-! ### Claim C1: offspring placement and food -/

theorem clamp_toNat_lt (v : ℤ) (n : Nat) (hn : 0 < n) :
    ((if (if v < 0 then 0 else v) ≥ (n : ℤ) then (n : ℤ) - 1
      else (if v < 0 then 0 else v)).toNat < n) := by
  repeat' split
  all_goals omega

theorem blankAtPointLoop_props (E : EnvironmentV1) (tp : Position) (r : Rng) :
    ∀ (fuel : Nat) (t : RCtr) (p : Position) (t2 : RCtr),
    E.blankAtPointLoop tp r fuel t = (some p, t2) →
    0 < E.params.env_x_size → 0 < E.params.env_y_size →
    E.positions p.x p.y = SpaceStates.BlankSpace ∧
    p.x < E.params.env_x_size ∧ p.y < E.params.env_y_size := by
  intro fuel
  induction fuel with
  | zero =>
    intro t p t2 h _ _
    exact Option.noConfusion (congrArg Prod.fst h)
  | succ fuel ih =>
    intro t p t2 h hx hy
    unfold EnvironmentV1.blankAtPointLoop at h
    dsimp only at h
    split at h
    · rename_i heq
      have hp := congrArg Prod.fst h
      dsimp only at hp
      have hp2 := Option.some.inj hp
      rw [← hp2]
      refine ⟨heq, ?_, ?_⟩
      · exact clamp_toNat_lt _ _ hx
      · exact clamp_toNat_lt _ _ hy
    all_goals exact ih _ p t2 h hx hy

theorem placeOne_pres (r : Rng) (E : EnvironmentV1) (t : RCtr) (nc : Creature)
    (hinv : EnvInv E) (halls : ∀ c ∈ E.creatures, c.is_dead = false)
    (hid : nc.id < E.num_total_creatures) (hncd : nc.is_dead = false)
    (hncal : nc.is_alive = true)
    (hnx : nc.position.x < E.params.env_x_size) (hny : nc.position.y < E.params.env_y_size)
    (hnpar : nc.params = CreatureParams.new) (hnvis : nc.vision_state.obj_in_view = false)
    (hfresh : ∀ c ∈ E.creatures, nc.id ≠ c.id) :
    EnvInv (EnvironmentV1.placeOne r (E, t) nc).1 ∧
    (∀ c ∈ (EnvironmentV1.placeOne r (E, t) nc).1.creatures, c.is_dead = false) ∧
    (EnvironmentV1.placeOne r (E, t) nc).1.params = E.params ∧
    (EnvironmentV1.placeOne r (E, t) nc).1.num_total_creatures = E.num_total_creatures ∧
    (∀ i0, i0 ∈ (EnvironmentV1.placeOne r (E, t) nc).1.creatures.map Creature.id →
      i0 ∈ E.creatures.map Creature.id ∨ i0 = nc.id) := by
  unfold EnvironmentV1.placeOne
  dsimp only
  rcases hs : E.get_blank_space_at_point nc.position r t with ⟨posOpt, t2⟩
  cases posOpt with
  | none => exact ⟨hinv, halls, rfl, rfl, fun i0 hi0 => Or.inl hi0⟩
  | some np =>
    dsimp only
    unfold EnvironmentV1.get_blank_space_at_point at hs
    obtain ⟨hblank, hnpx, hnpy⟩ :=
      blankAtPointLoop_props E nc.position r 10 t np t2 hs
        (by omega) (by omega)
    have hplace := envinv_place E (nc.set_position np.x np.y) E.num_total_creatures hinv
      (by exact hnpx) (by exact hnpy)
      (by
        intro cid hcontra
        rw [show (nc.set_position np.x np.y).position = np from rfl] at hcontra
        rw [hblank] at hcontra
        exact SpaceStates.noConfusion hcontra)
      (fun c hc => hfresh c hc)
      (Nat.le_refl _) hid
      (fun _ => hncal)
      hnpar
      (fun cid hst hov => absurd (hov.symm.trans hnvis) (fun hcc => Bool.noConfusion hcc))
    refine ⟨hplace, ?_, rfl, rfl, ?_⟩
    · intro c hc
      rcases List.mem_append.mp hc with hc1 | hc2
      · exact halls c hc1
      · rw [List.mem_singleton] at hc2
        rw [hc2]
        exact hncd
    · intro i0 hi0
      rw [List.map_append] at hi0
      rcases List.mem_append.mp hi0 with h1 | h2
      · exact Or.inl h1
      · rcases List.mem_map.mp h2 with ⟨d, hd, hdeq⟩
        rw [List.mem_singleton] at hd
        rw [hd] at hdeq
        exact Or.inr hdeq.symm

theorem place_fold_pres (r : Rng) :
    ∀ (pend : List Creature) (E : EnvironmentV1) (t : RCtr),
    EnvInv E → (∀ c ∈ E.creatures, c.is_dead = false) →
    (pend.map Creature.id).Nodup →
    (∀ p ∈ pend, p.id < E.num_total_creatures ∧ p.is_dead = false ∧ p.is_alive = true ∧
      p.position.x < E.params.env_x_size ∧ p.position.y < E.params.env_y_size ∧
      p.params = CreatureParams.new ∧ p.vision_state.obj_in_view = false) →
    (∀ p ∈ pend, ∀ c ∈ E.creatures, p.id ≠ c.id) →
    EnvInv (pend.foldl (EnvironmentV1.placeOne r) (E, t)).1 ∧
    (∀ c ∈ (pend.foldl (EnvironmentV1.placeOne r) (E, t)).1.creatures,
      c.is_dead = false) := by
  intro pend
  induction pend with
  | nil =>
    intro E t hinv halls _ _ _
    exact ⟨hinv, halls⟩
  | cons nc pend ih =>
    intro E t hinv halls hnd hconds hdis
    rw [List.map_cons, List.nodup_cons] at hnd
    rw [List.foldl_cons]
    obtain ⟨ha, hb, hc, hd, he, hf, hg⟩ := hconds nc (List.mem_cons_self nc pend)
    obtain ⟨h1, h2, h3, h4, h5⟩ := placeOne_pres r E t nc hinv halls ha hb hc hd he hf hg
      (hdis nc (List.mem_cons_self nc pend))
    rcases hres : EnvironmentV1.placeOne r (E, t) nc with ⟨E2, t2⟩
    rw [hres] at h1 h2 h3 h4 h5
    dsimp only at h1 h2 h3 h4 h5
    refine ih E2 t2 h1 h2 hnd.2 ?_ ?_
    · intro p hp
      obtain ⟨a, b, c, d, e, f, g⟩ := hconds p (List.mem_cons_of_mem nc hp)
      rw [h3, h4]
      exact ⟨a, b, c, d, e, f, g⟩
    · intro p hp c hcm
      have hcid := h5 c.id (List.mem_map.mpr ⟨c, hcm, rfl⟩)
      rcases hcid with hq1 | hq2
      · rcases List.mem_map.mp hq1 with ⟨c0, hc0, hceq⟩
        rw [← hceq]
        exact hdis p (List.mem_cons_of_mem nc hp) c0 hc0
      · rw [hq2]
        intro hcontra
        refine hnd.1 ?_
        rw [← hcontra]
        exact List.mem_map.mpr ⟨p, hp, rfl⟩

theorem food_pres (E : EnvironmentV1) (r : Rng) (t : RCtr)
    (out : EnvironmentV1 × RCtr)
    (hinv : EnvInv E) (halls : ∀ c ∈ E.creatures, c.is_dead = false)
    (h : E.add_new_food_pieces r t = some out) :
    EnvInv out.1 ∧ ∀ c ∈ out.1.creatures, c.is_dead = false := by
  unfold EnvironmentV1.add_new_food_pieces at h
  split at h
  · dsimp only at h
    split at h
    · simp only [Option.bind_eq_bind] at h
      cases hrs : E.get_rand_blank_space r (drawCoin r t).2 with
      | none =>
        rw [hrs] at h
        simp only [Option.none_bind] at h
        exact Option.noConfusion h
      | some pr =>
        rw [hrs] at h
        simp only [Option.some_bind] at h
        cases h
        obtain ⟨hf1, hf2, hf3, hf4⟩ := envinv_add_food E pr.1 hinv
        refine ⟨hf1, ?_⟩
        rw [hf2]
        exact halls
    · cases h
      exact ⟨hinv, halls⟩
  · dsimp only at h
    refine foldlM_inv _ (fun st => EnvInv st.1 ∧ ∀ c ∈ st.1.creatures, c.is_dead = false)
      _ ?_ _ out h ⟨hinv, halls⟩
    intro st a _ hP st2 hstep
    simp only [Option.bind_eq_bind] at hstep
    cases hrs : st.1.get_rand_blank_space r st.2 with
    | none =>
      rw [hrs] at hstep
      simp only [Option.none_bind] at hstep
      exact Option.noConfusion hstep
    | some pr =>
      rw [hrs] at hstep
      simp only [Option.some_bind] at hstep
      cases hstep
      obtain ⟨hf1, hf2, hf3, hf4⟩ := envinv_add_food st.1 pr.1 hP.1
      refine ⟨hf1, ?_⟩
      rw [hf2]
      exact hP.2

/-! ### Claim C1: vision recomputation -/

theorem rayCell_zero (o : CreatureOrientation) (cx cy : Nat) :
    (((cx : Nat) : ℤ), ((cy : Nat) : ℤ)) = rayCell o cx cy 0 := by
  cases o <;> simp [rayCell]

/-- A creature reading produced by the spec search names a creature cell of
the grid away from the scan origin. -/
theorem specWindow_creature_cell (E : EnvironmentV1) (o : CreatureOrientation)
    (cx cy j fuel : Nat) (vis : CreatureVisionState)
    (h : specWindow E o cx cy j fuel = some (some vis)) :
    ∀ cid, vis.space_type = SpaceStates.CreatureSpace cid →
    ∃ x y, x < E.params.env_x_size ∧ y < E.params.env_y_size ∧ ¬(x = cx ∧ y = cy) ∧
      E.positions x y = SpaceStates.CreatureSpace cid := by
  intro cid hst
  unfold specWindow at h
  cases hf : ((List.range fuel).map (fun i => j + 1 + i)).find? (visionHit E o cx cy) with
  | none =>
    rw [hf] at h
    exact Option.noConfusion (Option.some.inj h)
  | some k =>
    rw [hf] at h
    dsimp only at h
    have hk1 : 1 ≤ k := by
      have hmem := List.mem_of_find?_eq_some hf
      rcases List.mem_map.mp hmem with ⟨i, _, hival⟩
      omega
    have hhit := List.find?_some hf
    unfold visionHit at hhit
    dsimp only at hhit
    rw [Bool.and_eq_true] at hhit
    have hbounds := of_decide_eq_true hhit.1
    obtain ⟨hb1, hb2, hb3, hb4⟩ := hbounds
    refine ⟨(rayCell o cx cy k).1.toNat, (rayCell o cx cy k).2.toNat, by omega, by omega,
      ?_, ?_⟩
    · rintro ⟨hxc, hyc⟩
      have hxz : (rayCell o cx cy k).1 = (cx : ℤ) := by omega
      have hyz : (rayCell o cx cy k).2 = (cy : ℤ) := by omega
      cases o <;> simp only [rayCell] at hxz hyz <;> omega
    · unfold specHitReading at h
      rcases hcell : E.positions (rayCell o cx cy k).1.toNat (rayCell o cx cy k).2.toNat
        with _ | cid2 | _ | _ | ttl
      · rw [hcell] at h
        exact Option.noConfusion h
      · rw [hcell] at h
        dsimp only at h
        cases hfind : E.creatures.find? (fun c => c.id = cid2) with
        | none =>
          rw [hfind] at h
          exact Option.noConfusion h
        | some tgt =>
          rw [hfind] at h
          have hv := Option.some.inj (Option.some.inj h)
          rw [← hv] at hst
          dsimp only at hst
          exact hst
      · rw [hcell] at h
        have hv := Option.some.inj (Option.some.inj h)
        rw [← hv] at hst
        dsimp only at hst
        exact absurd hst (fun hc => SpaceStates.noConfusion hc)
      · rw [hcell] at h
        have hv := Option.some.inj (Option.some.inj h)
        rw [← hv] at hst
        dsimp only at hst
        exact absurd hst (fun hc => SpaceStates.noConfusion hc)
      · rw [hcell] at h
        exact Option.noConfusion h

/-- Recomputing vision preserves the invariant and the liveness of every
listed creature. -/
theorem ucv_pres (E : EnvironmentV1) (out : EnvironmentV1)
    (hinv : EnvInv E) (halls : ∀ c ∈ E.creatures, c.is_dead = false)
    (h : E.update_creature_vision = some out) :
    EnvInv out ∧ ∀ c ∈ out.creatures, c.is_dead = false := by
  unfold EnvironmentV1.update_creature_vision at h
  refine foldlM_inv _ (fun E2 => EnvInv E2 ∧ ∀ c ∈ E2.creatures, c.is_dead = false)
    _ ?_ E out h ⟨hinv, halls⟩
  intro E1 c_idx _ hP st2 hstep
  obtain ⟨hPinv, hPall⟩ := hP
  dsimp only at hstep
  simp only [Option.bind_eq_bind] at hstep
  set csr := List.modify (fun c => c.set_vision defaultVision) c_idx E1.creatures with hcsr
  have hreset : EnvInv { E1 with creatures := csr } ∧
      (∀ c ∈ csr, c.is_dead = false) := by
    rw [hcsr]
    cases hg0 : E1.creatures.get? c_idx with
    | none =>
      rw [modify_out _ _ _ hg0]
      exact ⟨hPinv, hPall⟩
    | some c0 =>
      rw [modify_eq_get_set _ _ _ c0 hg0]
      constructor
      · refine envinv_set_entry_vok E1 c_idx c0 (c0.set_vision defaultVision) hg0 rfl rfl rfl
          ?_ ?_ hPinv
        · intro cid hst hov
          exact absurd hov (fun hc => Bool.noConfusion hc)
        · intro _
          exact hPinv.aliveF c0 (List.get?_mem hg0) (hPall c0 (List.get?_mem hg0))
      · intro c hcm
        rcases List.mem_or_eq_of_mem_set hcm with hc1 | hc2
        · exact hPall c hc1
        · rw [hc2]
          exact hPall c0 (List.get?_mem hg0)
  cases hg1 : csr.get? c_idx with
  | none =>
    rw [hg1] at hstep
    cases hstep
    exact hreset
  | some c =>
    rw [hg1] at hstep
    dsimp only at hstep
    have hcm : c ∈ csr := List.get?_mem hg1
    have hcxb := hreset.1.inb c hcm
    cases hscan : EnvironmentV1.visionScan { E1 with creatures := csr }
        c.orientation c.position.x c.position.y
        MAX_CREATURE_VIEW_DISTANCE c.position.x c.position.y with
    | none =>
      rw [hscan] at hstep
      simp only [Option.none_bind] at hstep
      exact Option.noConfusion hstep
    | some res =>
      rw [hscan] at hstep
      simp only [Option.some_bind] at hstep
      cases res with
      | none =>
        cases hstep
        exact hreset
      | some vis =>
        have hspec : specWindow { E1 with creatures := csr }
            c.orientation c.position.x c.position.y 0 MAX_CREATURE_VIEW_DISTANCE =
            some (some vis) := by
          rw [← visionScan_eq_specWindow _ _ c.position.x c.position.y
            MAX_CREATURE_VIEW_DISTANCE 0 c.position.x c.position.y
            (rayCell_zero c.orientation c.position.x c.position.y) hcxb.1 hcxb.2]
          exact hscan
        cases hstep
        constructor
        · rw [show (List.modify (fun c2 => c2.set_vision vis) c_idx csr) =
            csr.set c_idx (c.set_vision vis) from modify_eq_get_set _ _ _ c hg1]
          refine envinv_set_entry_vok { E1 with creatures := csr } c_idx c
            (c.set_vision vis) hg1 ?_ ?_ ?_ ?_ ?_ hreset.1
          · rfl
          · rfl
          · rfl
          · intro cid hst hov
            obtain ⟨x, y, hxl, hyl, hnexy, hcellcs⟩ :=
              specWindow_creature_cell _ c.orientation c.position.x c.position.y 0
                MAX_CREATURE_VIEW_DISTANCE vis hspec cid hst
            obtain ⟨d, hdm, hdid, hdpos⟩ := (hreset.1.occ x y hxl hyl cid).mp hcellcs
            intro hcontra
            have hdc : d = c := nodup_map_id_eq _ hreset.1.uids hdm hcm
              (by rw [hdid, hcontra]; rfl)
            refine hnexy ?_
            rw [hdc] at hdpos
            constructor
            · exact (congrArg Position.x hdpos).symm
            · exact (congrArg Position.y hdpos).symm
          · intro _
            exact hreset.1.aliveF c hcm (hreset.2 c hcm)
        · intro cx2 hcx2
          rcases List.mem_or_eq_of_mem_set
            (by rw [← modify_eq_get_set _ _ _ c hg1]; exact hcx2) with hc1 | hc2
          · exact hreset.2 cx2 hc1
          · rw [hc2]
            exact hreset.2 c hcm

/-! ### Claim C1: the whole tick and reachability -/

theorem randBlankLoop_props (E : EnvironmentV1) (r : Rng) :
    ∀ (fuel : Nat) (t : RCtr) (p : Position) (t2 : RCtr),
    E.randBlankLoop r fuel t = some (p, t2) →
    E.positions p.x p.y = SpaceStates.BlankSpace ∧
    p.x < E.params.env_x_size ∧ p.y < E.params.env_y_size := by
  intro fuel
  induction fuel with
  | zero =>
    intro t p t2 h
    exact Option.noConfusion h
  | succ fuel ih =>
    intro t p t2 h
    unfold EnvironmentV1.randBlankLoop at h
    simp only [Option.bind_eq_bind] at h
    cases hdx : drawNatLt r t E.params.env_x_size with
    | none =>
      rw [hdx] at h
      simp only [Option.none_bind] at h
      exact Option.noConfusion h
    | some prx =>
      rw [hdx] at h
      simp only [Option.some_bind] at h
      cases hdy : drawNatLt r prx.2 E.params.env_y_size with
      | none =>
        rw [hdy] at h
        simp only [Option.none_bind] at h
        exact Option.noConfusion h
      | some pry =>
        rw [hdy] at h
        simp only [Option.some_bind] at h
        rcases hcell : E.positions prx.1 pry.1 with _ | cid | _ | _ | ttl <;>
          rw [hcell] at h
        · have hp := Option.some.inj h
          have hp1 := congrArg Prod.fst hp
          dsimp only at hp1
          rw [← hp1]
          exact ⟨hcell, drawNatLt_lt r t _ _ _ hdx, drawNatLt_lt r prx.2 _ _ _ hdy⟩
        · exact ih _ p t2 h
        · exact ih _ p t2 h
        · exact ih _ p t2 h
        · exact ih _ p t2 h

theorem envinv_time_step (E : EnvironmentV1) (n : Nat) (hinv : EnvInv E) :
    EnvInv { E with time_step := n } :=
  ⟨hinv.uids, hinv.upos, hinv.inb, hinv.occ, hinv.below, hinv.dparams,
   hinv.aliveF, hinv.vok⟩

/-- One whole tick preserves the between-steps invariant. -/
theorem advance_step_pres (E E2 : EnvironmentV1) (r : Rng)
    (hok : EnvOk E) (h : E.advance_step r = some E2) : EnvOk E2 := by
  obtain ⟨hinv, halls⟩ := hok
  unfold EnvironmentV1.advance_step at h
  simp only [Option.bind_eq_bind] at h
  obtain ⟨husc1, husc2, husc3, husc4⟩ := envinv_usc E hinv
  cases hloop : (List.range E.update_space_counters.creatures.length).foldlM
      (EnvironmentV1.processCreature r)
      (E.update_space_counters, ([] : List Creature), (⟨0, 0, 0⟩ : RCtr)) with
  | none =>
    rw [hloop] at h
    simp only [Option.none_bind] at h
    exact Option.noConfusion h
  | some st =>
    rw [hloop] at h
    simp only [Option.some_bind] at h
    have hLP : LoopOk st := by
      refine foldlM_inv _ LoopOk _
        (fun s idx _ hP s2 hstep => processCreature_pres r s s2 idx hP hstep)
        _ _ hloop ⟨husc1, ?_, ?_, ?_⟩
      · exact List.nodup_nil
      · intro p hp
        exact absurd hp (List.not_mem_nil p)
      · intro p hp
        exact absurd hp (List.not_mem_nil p)
    obtain ⟨hrd1, hrd2, hrd3, hrd4⟩ := remove_dead_pres st.1 hLP.1
    have hrdall : ∀ c ∈ st.1.remove_dead_creatures.creatures, c.is_dead = false := by
      rw [hrd2]
      intro c hc
      have h2 := (List.mem_filter.mp hc).2
      simpa using h2
    obtain ⟨hq1, hq2, hq3⟩ := hLP.2
    obtain ⟨hpl1, hpl2⟩ := place_fold_pres r st.2.1 st.1.remove_dead_creatures st.2.2
      hrd1 hrdall hq1
      (by
        intro p hp
        obtain ⟨a, b, c, d, e, f, g⟩ := hq2 p hp
        rw [hrd3, hrd4]
        exact ⟨a, b, c, d, e, f, g⟩)
      (by
        intro p hp c hc
        rw [hrd2] at hc
        exact hq3 p hp c (List.mem_of_mem_filter hc))
    cases hfood : (st.2.1.foldl (EnvironmentV1.placeOne r)
        (st.1.remove_dead_creatures, st.2.2)).1.add_new_food_pieces r
        (st.2.1.foldl (EnvironmentV1.placeOne r)
          (st.1.remove_dead_creatures, st.2.2)).2 with
    | none =>
      rw [hfood] at h
      simp only [Option.none_bind] at h
      exact Option.noConfusion h
    | some prf =>
      rw [hfood] at h
      simp only [Option.some_bind] at h
      obtain ⟨hfd1, hfd2⟩ := food_pres _ r _ prf hpl1 hpl2 hfood
      cases hucv : prf.1.update_creature_vision with
      | none =>
        rw [hucv] at h
        simp only [Option.none_bind] at h
        exact Option.noConfusion h
      | some E6 =>
        rw [hucv] at h
        simp only [Option.some_bind] at h
        obtain ⟨hu1, hu2⟩ := ucv_pres prf.1 E6 hfd1 hfd2 hucv
        cases h
        exact ⟨envinv_time_step E6 _ hu1, hu2⟩

/-- A freshly generated random environment satisfies the between-steps
invariant. -/
theorem new_rand_ok (p : EnvironmentParams) (r : Rng) (t : RCtr) (E : EnvironmentV1)
    (t2 : RCtr) (h : EnvironmentV1.new_rand p r t = some (E, t2)) : EnvOk E := by
  unfold EnvironmentV1.new_rand at h
  simp only [Option.bind_eq_bind] at h
  rw [Option.bind_eq_some] at h
  obtain ⟨stFood, hfood, h⟩ := h
  rw [Option.bind_eq_some] at h
  obtain ⟨stCre, hcre, h⟩ := h
  have htempinv : EnvInv
      { params := p
        creatures := []
        positions := fun _ _ => SpaceStates.BlankSpace
        time_step := 0
        num_food := 0
        num_creatures := 0
        num_blank := p.env_x_size * p.env_y_size
        num_walls := 0
        num_total_creatures := p.num_start_creatures
        num_kills := 0
        num_natural_deaths := 0 } := by
    refine ⟨List.nodup_nil, List.Pairwise.nil, ?_, ?_, ?_, ?_, ?_, ?_⟩
    · intro c hc
      exact absurd hc (List.not_mem_nil c)
    · intro x y _ _ cid
      constructor
      · intro hcs
        exact absurd hcs (fun hc => SpaceStates.noConfusion hc)
      · rintro ⟨c, hc, _, _⟩
        exact absurd hc (List.not_mem_nil c)
    · intro c hc
      exact absurd hc (List.not_mem_nil c)
    · intro c hc
      exact absurd hc (List.not_mem_nil c)
    · intro c hc
      exact absurd hc (List.not_mem_nil c)
    · intro c hc
      exact absurd hc (List.not_mem_nil c)
  have hfoodP : EnvInv stFood.1 ∧ stFood.1.creatures = [] ∧ stFood.1.params = p ∧
      stFood.1.num_total_creatures = p.num_start_creatures := by
    refine foldlM_inv _ (fun (st : EnvironmentV1 × RCtr) => EnvInv st.1 ∧
      st.1.creatures = [] ∧ st.1.params = p ∧
      st.1.num_total_creatures = p.num_start_creatures) _ ?_ _ _ hfood
      ⟨htempinv, rfl, rfl, rfl⟩
    intro s a _ hP s2 hstep
    simp only [Option.bind_eq_bind] at hstep
    cases hrb : s.1.get_rand_blank_space r s.2 with
    | none =>
      rw [hrb] at hstep
      simp only [Option.none_bind] at hstep
      exact Option.noConfusion hstep
    | some prb =>
      rw [hrb] at hstep
      simp only [Option.some_bind] at hstep
      cases hstep
      obtain ⟨hf1, hf2, hf3, hf4⟩ := envinv_add_food s.1 prb.1 hP.1
      exact ⟨hf1, by rw [hf2]; exact hP.2.1, by rw [hf3]; exact hP.2.2.1,
        by rw [hf4]; exact hP.2.2.2⟩
  have hcreP : EnvInv stCre.1 ∧ (∀ c ∈ stCre.1.creatures, c.is_dead = false) := by
    have hinit : EnvInv stFood.1 ∧ (∀ c ∈ stFood.1.creatures, c.is_dead = false) ∧
        (∀ c ∈ stFood.1.creatures, c.id < 0) ∧ stFood.1.params = p ∧
        stFood.1.num_total_creatures = p.num_start_creatures + 0 := by
      refine ⟨hfoodP.1, ?_, ?_, hfoodP.2.2.1, by rw [hfoodP.2.2.2]; omega⟩
      · rw [hfoodP.2.1]
        intro c hc
        exact absurd hc (List.not_mem_nil c)
      · rw [hfoodP.2.1]
        intro c hc
        exact absurd hc (List.not_mem_nil c)
    have hQ := foldlM_range_inv _
      (fun k (st : EnvironmentV1 × RCtr) => EnvInv st.1 ∧
        (∀ c ∈ st.1.creatures, c.is_dead = false) ∧
        (∀ c ∈ st.1.creatures, c.id < k) ∧ st.1.params = p ∧
        st.1.num_total_creatures = p.num_start_creatures + k)
      ?step p.num_start_creatures stFood stCre hcre hinit
    case step =>
      intro k s s2 hP hstep
      simp only [Option.bind_eq_bind] at hstep
      cases hrb : s.1.get_rand_blank_space r (Creature.new k CreatureParams.new r s.2).2
        with
      | none =>
        rw [hrb] at hstep
        simp only [Option.none_bind] at hstep
        exact Option.noConfusion hstep
      | some prb =>
        rw [hrb] at hstep
        simp only [Option.some_bind] at hstep
        cases hdo : drawNatLt r prb.2 NUM_ORIENTATION_STATES with
        | none =>
          rw [hdo] at hstep
          simp only [Option.none_bind] at hstep
          exact Option.noConfusion hstep
        | some pro =>
          rw [hdo] at hstep
          simp only [Option.some_bind] at hstep
          cases hstep
          unfold EnvironmentV1.get_rand_blank_space at hrb
          obtain ⟨hblank, hbx, hby⟩ := randBlankLoop_props s.1 r 10001 _ prb.1 prb.2 hrb
          obtain ⟨hP1, hP2, hP3, hP4, hP5⟩ := hP
          have hplace := envinv_place s.1
            (((Creature.new k CreatureParams.new r s.2).1.set_position
              prb.1.x prb.1.y).set_orientation
              (match pro.1 with
                | 0 => CreatureOrientation.Up
                | 1 => CreatureOrientation.Right
                | 2 => CreatureOrientation.Down
                | _ => CreatureOrientation.Left))
            (s.1.num_total_creatures + 1) hP1
            (by exact hbx) (by exact hby)
            (by
              intro cid hcontra
              have hcontra2 : s.1.positions prb.1.x prb.1.y =
                  SpaceStates.CreatureSpace cid := hcontra
              rw [hblank] at hcontra2
              exact SpaceStates.noConfusion hcontra2)
            (by
              intro c hc hcontra
              have hlt := hP3 c hc
              have hcontra2 : k = c.id := hcontra
              omega)
            (Nat.le_succ _)
            (by
              have hidk : k < s.1.num_total_creatures + 1 := by omega
              exact hidk)
            (fun _ => rfl)
            rfl
            (fun cid hst hov => absurd hov (fun hc => Bool.noConfusion hc))
          refine ⟨hplace, ?_, ?_, hP4, ?_⟩
          · intro c hc
            have hc2 : c ∈ s.1.creatures ++
                [((Creature.new k CreatureParams.new r s.2).1.set_position
                  prb.1.x prb.1.y).set_orientation
                  (match pro.1 with
                    | 0 => CreatureOrientation.Up
                    | 1 => CreatureOrientation.Right
                    | 2 => CreatureOrientation.Down
                    | _ => CreatureOrientation.Left)] := hc
            rcases List.mem_append.mp hc2 with hc1 | hc3
            · exact hP2 c hc1
            · rw [List.mem_singleton] at hc3
              rw [hc3]
              rfl
          · intro c hc
            have hc2 : c ∈ s.1.creatures ++
                [((Creature.new k CreatureParams.new r s.2).1.set_position
                  prb.1.x prb.1.y).set_orientation
                  (match pro.1 with
                    | 0 => CreatureOrientation.Up
                    | 1 => CreatureOrientation.Right
                    | 2 => CreatureOrientation.Down
                    | _ => CreatureOrientation.Left)] := hc
            rcases List.mem_append.mp hc2 with hc1 | hc3
            · exact Nat.lt_succ_of_lt (hP3 c hc1)
            · rw [List.mem_singleton] at hc3
              rw [hc3]
              exact Nat.lt_succ_self k
          · have hnt : (s.1.add_creature
                (((Creature.new k CreatureParams.new r s.2).1.set_position
                  prb.1.x prb.1.y).set_orientation
                  (match pro.1 with
                    | 0 => CreatureOrientation.Up
                    | 1 => CreatureOrientation.Right
                    | 2 => CreatureOrientation.Down
                    | _ => CreatureOrientation.Left))).num_total_creatures =
                s.1.num_total_creatures + 1 := rfl
            rw [hnt, hP5]
            omega
    exact ⟨hQ.1, hQ.2.1⟩
  refine foldlM_inv _ (fun (st : EnvironmentV1 × RCtr) => EnvOk st.1) _ ?_ _ _ h
    ⟨hcreP.1, hcreP.2⟩
  intro s a _ hP s2 hstep
  simp only [Option.bind_eq_bind] at hstep
  cases hrb : s.1.get_rand_blank_space r s.2 with
  | none =>
    rw [hrb] at hstep
    simp only [Option.none_bind] at hstep
    exact Option.noConfusion hstep
  | some prb =>
    rw [hrb] at hstep
    simp only [Option.some_bind] at hstep
    cases hstep
    obtain ⟨hf1, hf2, hf3, hf4⟩ := envinv_add_wall s.1 prb.1 hP.1
    refine ⟨hf1, ?_⟩
    rw [hf2]
    exact hP.2


/-- Every reachable environment satisfies the between-steps invariant. -/
theorem reachable_ok (E : EnvironmentV1) (h : Reachable E) : EnvOk E := by
  induction h with
  | init p r t t2 E0 hnew => exact new_rand_ok p r t E0 t2 hnew
  | step E0 E2 r _ hstep ih => exact advance_step_pres E0 E2 r ih hstep

/-- Pointwise sums split: summing `f + g` over a list equals the sum of `f`
plus the sum of `g`. -/
theorem sum_map_add {A : Type} (l : List A) (f g : A → Nat) :
    (l.map (fun x => f x + g x)).sum = (l.map f).sum + (l.map g).sum := by
  induction l with
  | nil => rfl
  | cons a l ih =>
    simp only [List.map_cons, List.sum_cons, ih]
    omega

/-- Summing the indicator of `k` over `range n` counts whether `k < n`. -/
theorem sum_indicator (n k : Nat) :
    ((List.range n).map (fun x => if k = x then 1 else 0)).sum =
      if k < n then 1 else 0 := by
  induction n with
  | zero => rfl
  | succ n ih =>
    rw [List.range_succ, List.map_append, List.sum_append, ih]
    simp only [List.map_cons, List.map_nil, List.sum_cons, List.sum_nil]
    split_ifs <;> omega

/-- Partitioning a creature list by column: if every creature's column is
below `n`, the per-column filter lengths sum to the list length. -/
theorem sum_filter_column (n : Nat) (l : List Creature)
    (h : ∀ c ∈ l, c.position.x < n) :
    ((List.range n).map
      (fun x => (l.filter (fun c2 => c2.position.x == x)).length)).sum =
      l.length := by
  induction l with
  | nil => simp
  | cons c l ih =>
    have hpt : ∀ x ∈ List.range n,
        ((c :: l).filter (fun c2 => c2.position.x == x)).length =
          (if c.position.x = x then 1 else 0) +
            (l.filter (fun c2 => c2.position.x == x)).length := by
      intro x _
      rw [List.filter_cons]
      by_cases hcx : c.position.x = x
      · rw [if_pos (by simp [hcx]), if_pos hcx, List.length_cons]
        omega
      · rw [if_neg (by simp [hcx]), if_neg hcx]
        omega
    rw [List.map_congr_left hpt,
      sum_map_add (List.range n) (fun x => if c.position.x = x then 1 else 0)
        (fun x => (l.filter (fun c2 => c2.position.x == x)).length),
      sum_indicator n c.position.x, if_pos (h c (List.mem_cons_self c l)),
      ih (fun c2 hc2 => h c2 (List.mem_cons_of_mem c hc2)), List.length_cons]
    omega

/-- Under the invariant, the creature cells of one column are in bijection
with the creatures stored in that column. -/
theorem column_count (E : EnvironmentV1) (hinv : EnvInv E) (x : Nat)
    (hx : x < E.params.env_x_size) :
    ((List.range E.params.env_y_size).filter
      (fun y => isCSpace (E.positions x y))).length =
      (E.creatures.filter (fun c => c.position.x == x)).length := by
  have hnd1 : ((List.range E.params.env_y_size).filter
      (fun y => isCSpace (E.positions x y))).Nodup :=
    (List.nodup_range _).filter _
  have hfl : (E.creatures.filter (fun c => c.position.x == x)).Pairwise
      (fun a b => a.position ≠ b.position) := hinv.upos.filter _
  have hsym : Symmetric (fun a b : Creature => a.position ≠ b.position) :=
    fun a b hab hba => hab hba.symm
  have hnd2 : ((E.creatures.filter (fun c => c.position.x == x)).map
      (fun c => c.position.y)).Nodup := by
    refine List.Nodup.map_on ?_ ?_
    · intro c1 h1 c2 h2 hy
      have hx1 : c1.position.x = x :=
        eq_of_beq (List.mem_filter.mp h1).2
      have hx2 : c2.position.x = x :=
        eq_of_beq (List.mem_filter.mp h2).2
      by_contra hne
      exact hfl.forall hsym h1 h2 hne
        (position_ext _ _ (hx1.trans hx2.symm) hy)
    · exact (List.Nodup.of_map _ hinv.uids).filter _
  rw [show (E.creatures.filter (fun c => c.position.x == x)).length =
      ((E.creatures.filter (fun c => c.position.x == x)).map
        (fun c => c.position.y)).length from (List.length_map _ _).symm]
  refine ((List.perm_ext_iff_of_nodup hnd1 hnd2).mpr ?_).length_eq
  intro y
  constructor
  · intro hy
    have hyb : y < E.params.env_y_size :=
      List.mem_range.mp (List.mem_of_mem_filter hy)
    have hcs : isCSpace (E.positions x y) = true := (List.mem_filter.mp hy).2
    obtain ⟨cid, hcid⟩ : ∃ cid,
        E.positions x y = SpaceStates.CreatureSpace cid := by
      cases hsp : E.positions x y <;> rw [hsp] at hcs <;>
        first
          | exact ⟨_, rfl⟩
          | exact Bool.noConfusion hcs
    obtain ⟨c, hc, hcid2, hcpos⟩ := (hinv.occ x y hx hyb cid).mp hcid
    rw [List.mem_map]
    refine ⟨c, List.mem_filter.mpr ⟨hc, ?_⟩, ?_⟩
    · rw [hcpos]
      exact beq_self_eq_true x
    · rw [hcpos]
  · intro hy
    rw [List.mem_map] at hy
    obtain ⟨c, hcmem, hcy⟩ := hy
    have hc : c ∈ E.creatures := List.mem_of_mem_filter hcmem
    have hcx : c.position.x = x :=
      eq_of_beq (List.mem_filter.mp hcmem).2
    have hyb : y < E.params.env_y_size := by
      rw [← hcy]
      exact (hinv.inb c hc).2
    refine List.mem_filter.mpr ⟨List.mem_range.mpr hyb, ?_⟩
    have hcell := (hinv.occ x y hx hyb c.id).mpr
      ⟨c, hc, rfl, position_ext _ _ hcx hcy⟩
    rw [hcell]
    rfl

/-- Under the invariant, the grid audit count of creature cells equals the
length of the creature list. -/
theorem count_creature_cells (E : EnvironmentV1) (hinv : EnvInv E) :
    E.countCells isCSpace = E.creatures.length := by
  unfold EnvironmentV1.countCells
  rw [List.map_congr_left
    (fun x hx => column_count E hinv x (List.mem_range.mp hx))]
  exact sum_filter_column _ _ (fun c hc => (hinv.inb c hc).1)

/-- C1: in every reachable environment (after `new_rand` and after each
`advance_step`) every listed creature is live; an in-bounds grid cell holds
`CreatureSpace cid` exactly when exactly one live creature carries id `cid`
and that cell as its stored position; no two creatures share a cell; every
creature's stored position is in bounds and its cell holds exactly its id;
and the count of creature cells equals the number of live creatures. -/
theorem c1_occupancy (E : EnvironmentV1) (h : Reachable E) :
    (∀ c ∈ E.creatures, c.is_alive = true) ∧
    (∀ x y, x < E.params.env_x_size → y < E.params.env_y_size → ∀ cid,
      E.positions x y = SpaceStates.CreatureSpace cid ↔
        ∃! c, c ∈ E.creatures ∧ c.id = cid ∧
          c.position = (⟨x, y⟩ : Position)) ∧
    E.creatures.Pairwise (fun a b => a.position ≠ b.position) ∧
    (∀ c ∈ E.creatures, c.position.x < E.params.env_x_size ∧
      c.position.y < E.params.env_y_size ∧
      E.positions c.position.x c.position.y =
        SpaceStates.CreatureSpace c.id) ∧
    E.countCells isCSpace = E.creatures.length := by
  obtain ⟨hinv, hdead⟩ := reachable_ok E h
  refine ⟨fun c hc => hinv.aliveF c hc (hdead c hc), ?_, hinv.upos, ?_, ?_⟩
  · intro x y hx hy cid
    constructor
    · intro hcs
      obtain ⟨c, hc, hcid, hcpos⟩ := (hinv.occ x y hx hy cid).mp hcs
      refine ⟨c, ⟨hc, hcid, hcpos⟩, ?_⟩
      rintro c2 ⟨hc2, hcid2, hcpos2⟩
      exact nodup_map_id_eq _ hinv.uids hc2 hc (hcid2.trans hcid.symm)
    · rintro ⟨c, ⟨hc, hcid, hcpos⟩, _⟩
      exact (hinv.occ x y hx hy cid).mpr ⟨c, hc, hcid, hcpos⟩
  · intro c hc
    obtain ⟨hx, hy⟩ := hinv.inb c hc
    exact ⟨hx, hy, (hinv.occ _ _ hx hy c.id).mpr
      ⟨c, hc, rfl, position_ext _ _ rfl rfl⟩⟩
  · exact count_creature_cells E hinv

/-- C1 witness: the blank 1 by 1 environment produced by `new_rand` on
`emptyParams` is reachable and its creature-cell count equals its (empty)
creature count. -/
theorem c1_occupancy_witness :
    Reachable c1Env ∧ c1Env.countCells isCSpace = c1Env.creatures.length := by
  have hre : Reachable c1Env :=
    Reachable.init emptyParams c6Rng ⟨0, 0, 0⟩ ⟨0, 0, 0⟩ c1Env rfl
  exact ⟨hre, (c1_occupancy c1Env hre).2.2.2.2⟩


end EvoSim
